import Mathlib

/-!
# Silk: request router and QML mime handler

A shallow embedding of `src/lib/silkserver.cpp` (the request router
`SilkServer::Private`) and of `src/plugins/mimehandler/qml/qmlhandler.cpp`
(the dynamic execution engine `QmlHandler`).

Conventions of the embedding.

* Objects reached through pointers (replies, components, execution objects)
  are natural-number identities; a nullable pointer is an `Option`.
* Every operation the code performs on a `QHttpReply`, every call of one of
  the router's own functions, every filesystem query and every interaction
  with a plugin or the script engine is appended to a chronological log
  (`State.log`).  The reply itself is what the log says was done to it.
* Everything Qt, the filesystem, the script engine and foreign plugins decide
  is a field of `Env`.
* `error -> load -> loadFile -> error` is recursive in the source and need not
  terminate.  `error` takes a fuel argument counting nested `error` calls;
  running out of fuel appends `Event.outOfFuel` and stops.
-/

namespace Silk

/-! ## QString helpers (over the list of characters) -/

/-- QString::startsWith. -/
def startsWith (s p : String) : Bool := p.data.isPrefixOf s.data

/-- QString::endsWith. -/
def endsWith (s p : String) : Bool := p.data.reverse.isPrefixOf s.data.reverse

/-- Scan for the first occurrence of `needle`, counting positions from `i`. -/
def indexOfFrom (needle : List Char) : List Char → Nat → Int
  | [], i => if needle.isEmpty then (i : Int) else -1
  | c :: cs, i => if needle.isPrefixOf (c :: cs) then (i : Int) else indexOfFrom needle cs (i + 1)

/-- QString::indexOf: index of the first occurrence of `needle`, or -1. -/
def indexOf (s needle : String) : Int := indexOfFrom needle.data s.data 0

/-- QFileInfo::fileName: the part of the path after the last slash. -/
def fileName (filePath : String) : String :=
  ⟨(filePath.data.reverse.takeWhile (fun c => c != '/')).reverse⟩

/-! ### QString::arg

`arg` replaces every occurrence of the lowest numbered place marker.  A place
marker is a percent sign, an optional `L`, and one or two decimal digits. -/

/-- A piece of a scanned format string. -/
inductive Piece where
  | text (c : Char)
  | marker (number : Nat) (raw : List Char)
  deriving DecidableEq, Repr

/-- QChar::digitValue for the ASCII digits. -/
def digitValue (c : Char) : Option Nat :=
  if c.isDigit then some (c.toNat - 48) else none

/-- Read the digits of a place marker at the head of `cs`: the marker's number,
the characters read, and how many characters remain after it. -/
def markerDigits (cs : List Char) : Option (Nat × List Char × List Char) :=
  match cs with
  | [] => none
  | d :: rest =>
    match digitValue d with
    | none => none
    | some v =>
      match rest with
      | [] => some (v, [d], [])
      | e :: rest2 =>
        match digitValue e with
        | none => some (v, [d], e :: rest2)
        | some w => some (10 * v + w, [d, e], rest2)

/-- Read a place marker starting at a percent sign whose tail is `cs`. -/
def markerAt (cs : List Char) : Option (Nat × List Char × List Char) :=
  match cs with
  | 'L' :: rest =>
    match markerDigits rest with
    | some (n, raw, rest2) => some (n, '%' :: 'L' :: raw, rest2)
    | none => none
  | _ =>
    match markerDigits cs with
    | some (n, raw, rest2) => some (n, '%' :: raw, rest2)
    | none => none

/-- Split a format string into plain characters and place markers
(QString's findArgEscapes scan); `fuel` bounds the number of characters. -/
def scanPieces : Nat → List Char → List Piece
  | 0, _ => []
  | _ + 1, [] => []
  | fuel + 1, c :: cs =>
    if c = '%' then
      match markerAt cs with
      | some (n, raw, rest) => Piece.marker n raw :: scanPieces fuel rest
      | none => Piece.text c :: scanPieces fuel cs
    else Piece.text c :: scanPieces fuel cs

/-- The lowest place-marker number among the pieces, if there is a marker. -/
def lowestMarker : List Piece → Option Nat
  | [] => none
  | Piece.text _ :: ps => lowestMarker ps
  | Piece.marker n _ :: ps =>
    match lowestMarker ps with
    | none => some n
    | some m => some (min n m)

/-- Write the pieces back, replacing the markers numbered `n` by `a`. -/
def fillPieces (n : Nat) (a : List Char) : List Piece → List Char
  | [] => []
  | Piece.text c :: ps => c :: fillPieces n a ps
  | Piece.marker m raw :: ps =>
    if m = n then a ++ fillPieces n a ps else raw ++ fillPieces n a ps

/-- QString::arg(const QString &): replace the lowest numbered place marker;
a string without a marker is returned unchanged. -/
def arg (format a : String) : String :=
  match lowestMarker (scanPieces format.data.length format.data) with
  | none => format
  | some n => ⟨fillPieces n a.data (scanPieces format.data.length format.data)⟩

/-- QString::arg(int): the number is written in decimal. -/
def argInt (format : String) (n : Int) : String := arg format (toString n)

/-! ## QMap as an association list -/

/-- A QMap: at most one entry per key is ever consulted (the first). -/
abbrev QMap (κ υ : Type) := List (κ × υ)

namespace QMap

variable {κ υ : Type} [DecidableEq κ]

/-- QMap::contains. -/
def contains (m : QMap κ υ) (k : κ) : Bool := m.any (fun e => decide (e.1 = k))

/-- QMap::value; `none` stands for the default-constructed value (a null
pointer, an empty string) that Qt returns for a missing key. -/
def value (m : QMap κ υ) (k : κ) : Option υ :=
  match m with
  | [] => none
  | e :: rest => if e.1 = k then some e.2 else value rest k

/-- QMap::remove. -/
def remove (m : QMap κ υ) (k : κ) : QMap κ υ := m.filter (fun e => !decide (e.1 = k))

/-- QMap::insert: an existing entry for the key is replaced. -/
def insert (m : QMap κ υ) (k : κ) (v : υ) : QMap κ υ := (k, v) :: remove m k

/-- QMap::keys. -/
def keys (m : QMap κ υ) : List κ := m.map Prod.fst

/-- QMap::value and QMap::take on a table of pointers: the pointer stored
under the key, or the null pointer when the key is missing. -/
def pointer (m : QMap κ (Option υ)) (k : κ) : Option υ := (value m k).getD none

end QMap

/-! ## Data model -/

/-- QUrl, by its components. -/
structure Url where
  scheme : String
  host : String
  path : String
  query : String
  fragment : String
  deriving DecidableEq, Repr

/-- QUrl::setPath. -/
def Url.setPath (u : Url) (p : String) : Url := { u with path := p }

/-- QUrl::setQuery. -/
def Url.setQuery (u : Url) (q : String) : Url := { u with query := q }

/-- QNetworkCookie.  `expirationDate = none` is Qt's invalid date, which makes
the cookie a session cookie. -/
structure Cookie where
  name : String
  value : String
  expirationDate : Option Int
  domain : String
  path : String
  secure : Bool
  deriving DecidableEq, Repr

/-- A freshly constructed QNetworkCookie. -/
def Cookie.fresh : Cookie :=
  { name := "", value := "", expirationDate := none, domain := "", path := "", secure := false }

/-- QNetworkCookie::isSessionCookie. -/
def Cookie.isSessionCookie (c : Cookie) : Bool := c.expirationDate.isNone

/-- QHttpRequest: immutable once received. -/
structure Request where
  method : String
  url : Url
  rawHeaders : List (String × String)
  cookies : List Cookie
  body : String
  deriving DecidableEq, Repr

/-- QVariant, for the values a script stores in its maps. -/
inductive Variant where
  | invalid
  | bool (b : Bool)
  | int (n : Int)
  | string (s : String)
  | dateTime (t : Option Int)
  | map (entries : List (String × Variant))
  deriving Repr

/-- ASCII lower-casing of a QString. -/
def toLower (s : String) : String := ⟨s.data.map Char.toLower⟩

/-- QVariant::toBool: a boolean is itself, a number is true when non-zero, a
string is true unless its lower-case content is empty, "0" or "false". -/
def Variant.toBool : Variant → Bool
  | .bool b => b
  | .int n => n != 0
  | .string s => !(decide (toLower s = "") || decide (toLower s = "0") || decide (toLower s = "false"))
  | _ => false

/-- QVariant::toMap. -/
def Variant.toMap : Variant → List (String × Variant)
  | .map entries => entries
  | _ => []

/-- QQmlComponent::Status. -/
inductive ComponentStatus where
  | Null
  | Ready
  | Loading
  | Error
  deriving DecidableEq, Repr

/-- A QQmlComponent as the handler sees it at one moment: its identity, and
the status and error text the script engine reports. -/
structure Component where
  id : Nat
  url : Url
  status : ComponentStatus
  errorString : String
  deriving DecidableEq, Repr

/-- HttpObject, the execution object a component instantiates: the inbound
projection of the request the engine writes, the outbound projection the
script writes, and the "still working" flag. -/
structure HttpObject where
  id : Nat
  method : String
  scheme : String
  host : String
  path : String
  query : String
  data : String
  requestHeader : List (String × Variant)
  requestCookies : List (String × Variant)
  message : String
  status : Int
  responseHeader : List (String × Variant)
  responseCookies : List (String × Variant)
  out : String
  loading : Bool

/-- The signals the code connects to a slot. -/
inductive Signal where
  | componentDestroyed
  | componentStatusChanged
  | httpDestroyed
  | httpLoadingChanged
  deriving DecidableEq, Repr

/-- What the code does to the outside world, in the order it does it. -/
inductive Event where
  /-- QHttpReply::setStatus -/
  | setStatus (reply : Nat) (status : Int)
  /-- QHttpReply::setRawHeader -/
  | setRawHeader (reply : Nat) (name value : String)
  /-- QHttpReply::setCookies -/
  | setCookies (reply : Nat) (cookies : List Cookie)
  /-- QHttpReply::write -/
  | write (reply : Nat) (data : String)
  /-- QHttpReply::close -/
  | close (reply : Nat)
  /-- entry into SilkServer::Private::error -/
  | callError (statusCode : Int) (reply : Nat) (message : String)
  /-- entry into SilkServer::Private::load -/
  | callLoad (fileInfo : String) (reply : Nat) (message : String)
  /-- entry into SilkServer::Private::loadFile -/
  | callLoadFile (fileInfo : String) (reply : Nat)
  /-- entry into SilkServer::Private::loadUrl -/
  | callLoadUrl (url : Url) (reply : Nat)
  /-- a Mime Handler's load is invoked -/
  | mimeHandlerLoad (mime : String) (url : Url) (reply : Nat) (message : String)
  /-- a Protocol Handler's load is invoked -/
  | protocolHandlerLoad (scheme : String) (url : Url) (reply : Nat) (message : String)
  /-- QFileInfo::isDir -/
  | fileIsDir (path : String)
  /-- QFileInfo::exists, QFile::exists -/
  | fileExists (path : String)
  /-- QFileInfo::isReadable -/
  | fileIsReadable (path : String)
  /-- QFile::open(ReadOnly) -/
  | fileOpen (path : String)
  /-- new QQmlComponent: the script engine starts compiling -/
  | newComponent (component : Nat) (url : Url)
  /-- QQmlComponent::create -/
  | create (component : Nat) (http : Option Nat)
  /-- the handler's error signal is emitted -/
  | emitError (statusCode : Int) (reply : Option Nat) (message : String)
  /-- QObject::connect -/
  | connect (signal : Signal) (sender : Nat)
  /-- QObject::deleteLater -/
  | deleteLater (http : Nat)
  /-- QQmlEngine::trimComponentCache -/
  | trimComponentCache
  /-- a null pointer is dereferenced, or a QString is indexed out of range -/
  | fault
  /-- the fuel of the model ran out inside nested error calls -/
  | outOfFuel
  deriving DecidableEq, Repr

/-- The mutable state: the log, the object allocator, and the correlation
tables of QmlHandler::Private.  The tables that hold pointers hold nullable
pointers: the code inserts whatever pointer it was handed. -/
structure State where
  log : List Event
  nextObject : Nat
  component2request : QMap Nat (Option Request)
  component2reply : QMap Nat (Option Nat)
  component2message : QMap Nat String
  component2http : QMap Nat Nat
  http2request : QMap Nat (Option Request)
  http2reply : QMap Nat (Option Nat)
  deriving DecidableEq, Repr

/-- The state of a freshly started server. -/
def State.initial : State :=
  { log := [], nextObject := 0, component2request := [], component2reply := [],
    component2message := [], component2http := [], http2request := [], http2reply := [] }

/-- Append one event to the log. -/
def State.emit (s : State) (e : Event) : State := { s with log := s.log ++ [e] }

/-- A registered Mime Handler: the QmlHandler of this repository, or a plugin
the router only knows by the boolean its load returns. -/
inductive MimeHandler where
  | qml
  | external (handled : Url → Request → String → Bool)

/-- A registered Protocol Handler: a plugin the router only knows by the
boolean its load returns. -/
structure ProtocolHandler where
  handled : Url → Request → String → Bool

/-- Everything decided outside the two source files. -/
structure Env where
  /-- SilkServer::Private::documentRoots -/
  documentRoots : QMap String String
  /-- SilkServer::Private::mimeHandlers -/
  mimeHandlers : QMap String MimeHandler
  /-- SilkServer::Private::protocolHandlers -/
  protocolHandlers : QMap String ProtocolHandler
  /-- whether the handlers' error signal is connected to SilkServer::Private::error -/
  errorConnected : Bool
  /-- QFileInfo::isDir -/
  isDir : String → Bool
  /-- QFileInfo::exists and QFile::exists -/
  fileExists : String → Bool
  /-- QFileInfo::isReadable -/
  isReadable : String → Bool
  /-- QFile::open(QFile::ReadOnly) succeeds -/
  canOpen : String → Bool
  /-- QFile::readAll -/
  readAll : String → String
  /-- QFileInfo::lastModified -/
  lastModified : String → Int
  /-- QDateTime::toUTC -/
  toUTC : Int → Int
  /-- QDateTime::toString with a format -/
  dateToString : Int → String → String
  /-- QFileInfo::absoluteFilePath -/
  absoluteFilePath : String → String
  /-- QFileInfo::path and QFileInfo::dir().path() -/
  dirPath : String → String
  /-- QFileInfo::absoluteDir().path() -/
  absoluteDirPath : String → String
  /-- QMimeDatabase::mimeTypeForFile(name, MatchExtension).name() -/
  mimeTypeForFile : String → String
  /-- QUrl::toString -/
  urlToString : Url → String
  /-- QUrl(const QString &) -/
  parseUrl : String → Url
  /-- QUrl::fromLocalFile -/
  fromLocalFile : String → Url
  /-- the file a QmlHandler reads for the URL the router hands to a Mime Handler -/
  fileInfoOfUrl : Url → String
  /-- QChar::isUpper -/
  isUpper : Char → Bool
  /-- SilkConfig::value("cache.qml") -/
  cacheQml : Bool
  /-- the status and error text of a component just constructed for a URL -/
  compile : Nat → Url → ComponentStatus × String
  /-- QQmlComponent::create cast to HttpObject; none when the cast yields null -/
  instantiate : Component → Option HttpObject
  /-- the script's reaction to the ready signal -/
  ready : HttpObject → HttpObject
  /-- QVariant::toString of a value that is not a string -/
  variantToString : Variant → String
  /-- QVariant::toDateTime of a value that is not a date -/
  variantToDateTime : Variant → Option Int

/-- The type of SilkServer::Private::error, as the other functions call it. -/
abbrev ErrorFn := Int → Request → Nat → String → State → State

/-! ## silkserver.cpp: the document root table -/

namespace SilkServer

/-- SilkServer::Private::documentRootForRequest. -/
def documentRootForRequest (env : Env) (request : Request) : String :=
  if QMap.contains env.documentRoots request.url.host then
    (QMap.value env.documentRoots request.url.host).getD ""
  else if QMap.contains env.documentRoots "*" then
    (QMap.value env.documentRoots "*").getD ""
  else
    ":/contents"

end SilkServer

/-! ## qmlhandler.cpp: the dynamic execution engine

The handler's `emit error(...)` has no receiver in the two source files, and
the router hands a Mime Handler a QUrl where QmlHandler::load reads a
QFileInfo.  Both gaps are fields of `Env`: `errorConnected` says whether the
signal reaches SilkServer::Private::error, `fileInfoOfUrl` names the file the
handler reads for the URL it is handed. -/

namespace QmlHandler

/-- QVariant::toString. -/
def variantToString (env : Env) (v : Variant) : String :=
  match v with
  | .string t => t
  | other => env.variantToString other

/-- QVariant::toDateTime. -/
def variantToDateTime (env : Env) (v : Variant) : Option Int :=
  match v with
  | .dateTime t => t
  | other => env.variantToDateTime other

/-- The statement `emit error(statusCode, request, reply, message)`.  The
signal reaches SilkServer::Private::error only when it is connected to it;
the receiver dereferences both pointers. -/
def emitError (env : Env) (error : ErrorFn) (statusCode : Int) (request : Option Request)
    (reply : Option Nat) (message : String) (s : State) : State :=
  let s := s.emit (Event.emitError statusCode reply message)
  if env.errorConnected then
    match request, reply with
    | some rq, some rp => error statusCode rq rp message s
    | _, _ => s.emit Event.fault
  else s

/-- The wire cookie QmlHandler::Private::close builds for one entry of the
outbound cookie map. -/
def wireCookie (env : Env) (name : String) (c : List (String × Variant)) : Cookie :=
  let cookie : Cookie := { Cookie.fresh with name := name }
  let cookie : Cookie :=
    if QMap.contains c "value" then
      { cookie with value := variantToString env ((QMap.value c "value").getD Variant.invalid) }
    else cookie
  let cookie : Cookie :=
    if QMap.contains c "expires" then
      { cookie with
        expirationDate := variantToDateTime env ((QMap.value c "expires").getD Variant.invalid) }
    else cookie
  let cookie : Cookie :=
    if QMap.contains c "domain" then
      { cookie with domain := variantToString env ((QMap.value c "domain").getD Variant.invalid) }
    else cookie
  let cookie : Cookie :=
    if QMap.contains c "path" then
      { cookie with path := variantToString env ((QMap.value c "path").getD Variant.invalid) }
    else cookie
  if QMap.contains c "secure" then
    { cookie with secure := ((QMap.value c "secure").getD Variant.invalid).toBool }
  else cookie

/-- The header loop of QmlHandler::Private::close. -/
def writeHeaders (env : Env) (reply : Nat) (header : List (String × Variant)) (s : State) : State :=
  (QMap.keys header).foldl
    (fun acc key =>
      acc.emit (Event.setRawHeader reply key
        (variantToString env ((QMap.value header key).getD Variant.invalid))))
    s

/-- The cookie loop of QmlHandler::Private::close. -/
def wireCookies (env : Env) (responseCookies : List (String × Variant)) : List Cookie :=
  (QMap.keys responseCookies).map
    (fun name => wireCookie env name ((QMap.value responseCookies name).getD Variant.invalid).toMap)

/-- QmlHandler::Private::close.  The two `contains` tests and the two `take`
calls are the first `if`; a null reply or request faults where the code
dereferences it. -/
def close (env : Env) (http : HttpObject) (s : State) : State :=
  if QMap.contains s.http2request http.id && QMap.contains s.http2reply http.id then
    let request := QMap.pointer s.http2request http.id
    let reply := QMap.pointer s.http2reply http.id
    let s := { s with http2request := QMap.remove s.http2request http.id,
                      http2reply := QMap.remove s.http2reply http.id }
    match reply with
    | none => s.emit Event.fault
    | some rp =>
      let s := s.emit (Event.setStatus rp http.status)
      let s := writeHeaders env rp http.responseHeader s
      let s := s.emit (Event.setCookies rp (wireCookies env http.responseCookies))
      match request with
      | none => s.emit Event.fault
      | some rq =>
        let s := if rq.method = "GET" || rq.method = "POST" then s.emit (Event.write rp http.out) else s
        let s := s.emit (Event.close rp)
        s.emit (Event.deleteLater http.id)
  else
    s.emit (Event.deleteLater http.id)

/-- The QVariantMap the engine builds for one inbound cookie. -/
def cookieVariant (cookie : Cookie) : Variant :=
  Variant.map
    (QMap.insert (QMap.insert (QMap.insert (QMap.insert (QMap.insert (QMap.insert []
      "value" (Variant.string cookie.value))
      "expires" (Variant.dateTime cookie.expirationDate))
      "domain" (Variant.string cookie.domain))
      "path" (Variant.string cookie.path))
      "secure" (Variant.bool cookie.secure))
      "session" (Variant.bool cookie.isSessionCookie))

/-- The inbound projection QmlHandler::Private::exec writes into a fresh
execution object. -/
def populate (http : HttpObject) (request : Request) (message : String) : HttpObject :=
  let url := request.url
  let query := url.query
  let url := url.setQuery ""
  let requestHeader : List (String × Variant) :=
    (QMap.keys request.rawHeaders).foldl
      (fun acc key =>
        QMap.insert acc key (Variant.string ((QMap.value request.rawHeaders key).getD "")))
      []
  let cookies : List (String × Variant) :=
    request.cookies.foldl (fun acc cookie => QMap.insert acc cookie.name (cookieVariant cookie)) []
  let http := { http with method := request.method, scheme := url.scheme, host := url.host,
                          path := url.path, query := query, data := request.body,
                          requestHeader := requestHeader, requestCookies := cookies }
  if message ≠ "" then { http with message := message } else http

/-- QmlHandler::Private::exec. -/
def exec (env : Env) (error : ErrorFn) (component : Component) (request : Option Request)
    (reply : Option Nat) (message : String) (s : State) : State :=
  match component.status with
  | ComponentStatus.Null => s
  | ComponentStatus.Error => emitError env error 500 request reply component.errorString s
  | ComponentStatus.Loading =>
    let s := { s with component2request := QMap.insert s.component2request component.id request,
                      component2reply := QMap.insert s.component2reply component.id reply,
                      component2message := QMap.insert s.component2message component.id message }
    s.emit (Event.connect Signal.componentStatusChanged component.id)
  | ComponentStatus.Ready =>
    match env.instantiate component with
    | none => (s.emit (Event.create component.id none)).emit Event.fault
    | some created =>
      let http : HttpObject := { created with id := s.nextObject }
      let s := { s with nextObject := s.nextObject + 1 }
      let s := s.emit (Event.create component.id (some http.id))
      let s := if !env.cacheQml then s.emit (Event.connect Signal.httpDestroyed http.id) else s
      match request with
      | none => s.emit Event.fault
      | some rq =>
        let http : HttpObject := { env.ready (populate http rq message) with id := http.id }
        let s := { s with component2http := QMap.insert s.component2http component.id http.id,
                          http2request := QMap.insert s.http2request http.id request,
                          http2reply := QMap.insert s.http2reply http.id reply }
        if !http.loading then close env http s
        else s.emit (Event.connect Signal.httpLoadingChanged http.id)

namespace Private

/-- QmlHandler::Private::load. -/
def load (env : Env) (error : ErrorFn) (fileInfo : String) (request : Request) (reply : Nat)
    (message : String) (s : State) : State :=
  let url : Url :=
    if startsWith (env.dirPath fileInfo) ":" then
      env.parseUrl (arg "qrc%1" (env.dirPath fileInfo))
    else
      env.fromLocalFile (env.absoluteDirPath fileInfo)
  let url := url.setPath (url.path ++ "/" ++ fileName fileInfo)
  let component : Component :=
    { id := s.nextObject, url := url,
      status := (env.compile s.nextObject url).1, errorString := (env.compile s.nextObject url).2 }
  let s := { s with nextObject := s.nextObject + 1 }
  let s := s.emit (Event.newComponent component.id url)
  let s := s.emit (Event.connect Signal.componentDestroyed component.id)
  exec env error component (some request) (some reply) message s

end Private

/-- QmlHandler::load.  Indexing an empty file name at 0 is a fault. -/
def load (env : Env) (error : ErrorFn) (fileInfo : String) (request : Request) (reply : Nat)
    (message : String) (s : State) : Bool × State :=
  match (fileName fileInfo).data with
  | [] => (true, s.emit Event.fault)
  | c :: _ =>
    if env.isUpper c then (false, s)
    else
      let s := s.emit (Event.fileIsReadable fileInfo)
      if !env.isReadable fileInfo then
        (true, emitError env error 403 (some request) (some reply) (env.urlToString request.url) s)
      else
        (true, Private.load env error fileInfo request reply message s)

/-- QmlHandler::Private::loadingChanged; the sender is `http`. -/
def loadingChanged (env : Env) (http : HttpObject) (loading : Bool) (s : State) : State :=
  if !loading then close env http s else s

/-- QmlHandler::Private::statusChanged; the sender is `component`. -/
def statusChanged (env : Env) (error : ErrorFn) (component : Component) (s : State) : State :=
  let request := QMap.pointer s.component2request component.id
  let reply := QMap.pointer s.component2reply component.id
  let message := (QMap.value s.component2message component.id).getD ""
  let s := { s with component2request := QMap.remove s.component2request component.id,
                    component2reply := QMap.remove s.component2reply component.id,
                    component2message := QMap.remove s.component2message component.id }
  exec env error component request reply message s

/-- QmlHandler::Private::componentDestroyed. -/
def componentDestroyed (object : Nat) (s : State) : State :=
  let s := if QMap.contains s.component2request object then
      { s with component2request := QMap.remove s.component2request object } else s
  let s := if QMap.contains s.component2reply object then
      { s with component2reply := QMap.remove s.component2reply object } else s
  let s := if QMap.contains s.component2message object then
      { s with component2message := QMap.remove s.component2message object } else s
  if QMap.contains s.component2http object then
    match QMap.value s.component2http object with
    | some http =>
      { s with component2http := QMap.remove s.component2http object,
               http2request := QMap.remove s.http2request http,
               http2reply := QMap.remove s.http2reply http }
    | none => s
  else s

/-- QmlHandler::Private::clearQmlCache. -/
def clearQmlCache (s : State) : State := s.emit Event.trimComponentCache

end QmlHandler

/-! ## silkserver.cpp: the request router -/

/-- The call `mimeHandlers[mime]->load(url, request, reply, message)`: the
handler's boolean result and what it did. -/
def MimeHandler.load (env : Env) (error : ErrorFn) (handler : MimeHandler) (url : Url)
    (request : Request) (reply : Nat) (message : String) (s : State) : Bool × State :=
  match handler with
  | MimeHandler.qml => QmlHandler.load env error (env.fileInfoOfUrl url) request reply message s
  | MimeHandler.external handled => (handled url request message, s)

namespace SilkServer

/-- SilkServer::Private::loadFile. -/
def loadFile (env : Env) (error : ErrorFn) (fileInfo : String) (request : Request) (reply : Nat)
    (s : State) : State :=
  let s := s.emit (Event.callLoadFile fileInfo reply)
  if startsWith (fileName fileInfo) "." then
    error 403 request reply (env.urlToString request.url) s
  else
    let s := s.emit (Event.fileOpen (env.absoluteFilePath fileInfo))
    if env.canOpen (env.absoluteFilePath fileInfo) then
      let lastModified := env.toUTC (env.lastModified fileInfo)
      let s := s.emit (Event.setRawHeader reply "Last-Modified"
        (env.dateToString lastModified "ddd, d, MMM yyyy hh:mm:ss UTC"))
      let s := s.emit (Event.write reply (env.readAll (env.absoluteFilePath fileInfo)))
      s.emit (Event.close reply)
    else
      error 403 request reply (env.urlToString request.url) s

/-- The URL SilkServer::Private::load builds for a Mime Handler: a qrc URL for
a resource path, a file URL otherwise. -/
def handlerUrl (env : Env) (fileInfo : String) : Url :=
  if startsWith fileInfo ":/" then env.parseUrl ("qrc" ++ env.absoluteFilePath fileInfo)
  else env.fromLocalFile (env.absoluteFilePath fileInfo)

/-- SilkServer::Private::load. -/
def load (env : Env) (error : ErrorFn) (fileInfo : String) (request : Request) (reply : Nat)
    (message : String) (s : State) : State :=
  let s := s.emit (Event.callLoad fileInfo reply message)
  let mime := env.mimeTypeForFile (fileName fileInfo)
  let s := s.emit (Event.setStatus reply 200)
  let s := s.emit (Event.setRawHeader reply "Content-Type" mime)
  match QMap.value env.mimeHandlers mime with
  | some handler =>
    let url : Url := handlerUrl env fileInfo
    let s := s.emit (Event.mimeHandlerLoad mime url reply message)
    let r := MimeHandler.load env error handler url request reply message s
    if !r.1 then loadFile env error fileInfo request reply r.2 else r.2
  | none => loadFile env error fileInfo request reply s

/-- SilkServer::Private::loadUrl. -/
def loadUrl (env : Env) (error : ErrorFn) (url : Url) (request : Request) (reply : Nat)
    (message : String) (s : State) : State :=
  let s := s.emit (Event.callLoadUrl url reply)
  match QMap.value env.protocolHandlers url.scheme with
  | some handler =>
    let s := s.emit (Event.protocolHandlerLoad url.scheme url reply message)
    if !handler.handled url request message then
      error 403 request reply (env.urlToString request.url) s
    else s
  | none => error 403 request reply (env.urlToString request.url) s

/-- The per-root error document `"%1/errors/%2.qml".arg(documentRoot).arg(statusCode)`. -/
def errorDocument (documentRoot : String) (statusCode : Int) : String :=
  argInt (arg "%1/errors/%2.qml" documentRoot) statusCode

/-- The built-in error document `":/errors/%2.qml".arg(statusCode)`. -/
def defaultErrorDocument (statusCode : Int) : String :=
  argInt ":/errors/%2.qml" statusCode

/-- SilkServer::Private::error.  The fuel bounds the nesting of error calls. -/
def error (env : Env) : Nat → ErrorFn
  | 0 => fun _ _ _ _ s => s.emit Event.outOfFuel
  | fuel + 1 => fun statusCode request reply message s =>
    let s := s.emit (Event.callError statusCode reply message)
    let documentRoot := documentRootForRequest env request
    let s := s.emit (Event.fileExists (errorDocument documentRoot statusCode))
    if env.fileExists (errorDocument documentRoot statusCode) then
      load env (error env fuel) (errorDocument documentRoot statusCode) request reply message s
    else
      load env (error env fuel) (defaultErrorDocument statusCode) request reply message s

/-- SilkServer::Private::incomingConnection. -/
def incomingConnection (env : Env) (fuel : Nat) (request : Request) (reply : Nat) (s : State) :
    State :=
  let documentRoot := documentRootForRequest env request
  if indexOf documentRoot "://" > 0 then
    let url := (env.parseUrl documentRoot).setPath request.url.path
    loadUrl env (error env fuel) url request reply "" s
  else
    let fileName := documentRoot ++ request.url.path
    let s := s.emit (Event.fileIsDir fileName)
    if env.isDir fileName then
      if endsWith request.url.path "/" then
        let fileName := fileName ++ "/index.qml"
        let s := s.emit (Event.fileExists fileName)
        if env.fileExists fileName then
          load env (error env fuel) fileName request reply "" s
        else
          error env fuel 404 request reply (env.urlToString request.url) s
      else
        let url := request.url.setPath (request.url.path ++ "/")
        error env fuel 301 request reply (env.urlToString url) s
    else
      let s := s.emit (Event.fileExists fileName)
      if env.fileExists fileName then
        load env (error env fuel) fileName request reply "" s
      else
        error env fuel 404 request reply (env.urlToString request.url) s

end SilkServer

/-! ## Names for what the statements talk about -/

namespace SilkServer

/-- The error document SilkServer::Private::error selects. -/
def selectedErrorDocument (env : Env) (request : Request) (statusCode : Int) : String :=
  if env.fileExists (errorDocument (documentRootForRequest env request) statusCode) then
    errorDocument (documentRootForRequest env request) statusCode
  else defaultErrorDocument statusCode

/-- The file incomingConnection resolves for a local document root: the
concatenation of root and request path, with "/index.qml" appended when that
is a directory. -/
def candidateFile (env : Env) (request : Request) : String :=
  if env.isDir (documentRootForRequest env request ++ request.url.path) then
    documentRootForRequest env request ++ request.url.path ++ "/index.qml"
  else documentRootForRequest env request ++ request.url.path

/-- The request has a local document root and resolves, after the index
substitution and the redirect case apart, to a file that exists. -/
def LocalFile (env : Env) (request : Request) : Prop :=
  ¬ indexOf (documentRootForRequest env request) "://" > 0
  ∧ (env.isDir (documentRootForRequest env request ++ request.url.path) = true →
      endsWith request.url.path "/" = true)
  ∧ env.fileExists (candidateFile env request) = true

/-- The file goes down the static path and is written out: no Mime Handler is
registered for its MIME type, its name does not start with a dot, and it can be
opened. -/
def ServedStatically (env : Env) (file : String) : Prop :=
  QMap.value env.mimeHandlers (env.mimeTypeForFile (fileName file)) = none
  ∧ startsWith (fileName file) "." = false
  ∧ env.canOpen (env.absoluteFilePath file) = true

/-- The file goes down the static path and is refused: no Mime Handler is
registered for its MIME type, and its name starts with a dot or it cannot be
opened. -/
def RefusedStatically (env : Env) (file : String) : Prop :=
  QMap.value env.mimeHandlers (env.mimeTypeForFile (fileName file)) = none
  ∧ (startsWith (fileName file) "." = true ∨ env.canOpen (env.absoluteFilePath file) = false)

/-- The file is executed by the QmlHandler: the handler is registered for its
MIME type, the name the handler sees is not empty and does not start with an
upper-case letter, the file is readable, the component is Ready at once and
instantiates to an execution object. -/
def ExecutedByQml (env : Env) (file : String) : Prop :=
  QMap.value env.mimeHandlers (env.mimeTypeForFile (fileName file)) = some MimeHandler.qml
  ∧ (∃ c rest, (fileName (env.fileInfoOfUrl (handlerUrl env file))).data = c :: rest
      ∧ env.isUpper c = false)
  ∧ env.isReadable (env.fileInfoOfUrl (handlerUrl env file)) = true
  ∧ (∀ id url, (env.compile id url).1 = ComponentStatus.Ready)
  ∧ (∀ component, (env.instantiate component).isSome = true)

end SilkServer

namespace QmlHandler

/-- The execution object QmlHandler::Private::exec holds after the ready
signal, for a component that instantiates to `created`. -/
def readyObject (env : Env) (created : HttpObject) (request : Request) (message : String)
    (s : State) : HttpObject :=
  { env.ready (populate { created with id := s.nextObject } request message) with
    id := s.nextObject }

/-- The state in which QmlHandler::Private::exec looks at the "still working"
flag of a fresh execution object: the object is allocated and correlated with
its request and reply. -/
def readyState (env : Env) (component : Component) (request : Request) (reply : Option Nat)
    (s : State) : State :=
  let t := { s with nextObject := s.nextObject + 1 }
  let t := t.emit (Event.create component.id (some s.nextObject))
  let t := if !env.cacheQml then t.emit (Event.connect Signal.httpDestroyed s.nextObject) else t
  { t with component2http := QMap.insert t.component2http component.id s.nextObject,
           http2request := QMap.insert t.http2request s.nextObject (some request),
           http2reply := QMap.insert t.http2reply s.nextObject reply }

end QmlHandler

/-! ## Observations on the log -/

/-- How many times QHttpReply::close was called on `reply`. -/
def closeCount (reply : Nat) (log : List Event) : Nat := log.count (Event.close reply)

/-- How many correlation entries still hold `reply`: entries of
component2reply (a compilation is outstanding) and of http2reply (an
execution object is outstanding). -/
def pendingCount (reply : Nat) (s : State) : Nat :=
  s.component2reply.countP (fun e => decide (e.2 = some reply))
    + s.http2reply.countP (fun e => decide (e.2 = some reply))

/-- Every reply has been closed or is held by a correlation entry at most
once, counting both. -/
def AtMostOnce (s : State) : Prop := ∀ reply, closeCount reply s.log + pendingCount reply s ≤ 1

/-- The reply is neither closed nor held by a correlation entry, and every
other reply is closed or held at most once. -/
def Free (reply : Nat) (s : State) : Prop :=
  AtMostOnce s ∧ closeCount reply s.log = 0 ∧ pendingCount reply s = 0

/-- The error continuation keeps `AtMostOnce` when it is entered for a reply
that is free. -/
def ErrorOk (error : ErrorFn) : Prop :=
  ∀ st rq rp m s, Free rp s → AtMostOnce (error st rq rp m s)

/-- What the script engine and the execution objects tell the handler after
the router has returned: the slots of QmlHandler::Private with their sender. -/
inductive Notification where
  | statusChanged (component : Component)
  | loadingChanged (http : HttpObject) (loading : Bool)
  | componentDestroyed (object : Nat)
  | clearQmlCache

/-- Deliver one notification to its slot. -/
def deliver (env : Env) (fuel : Nat) (n : Notification) (s : State) : State :=
  match n with
  | Notification.statusChanged component =>
    QmlHandler.statusChanged env (SilkServer.error env fuel) component s
  | Notification.loadingChanged http loading => QmlHandler.loadingChanged env http loading s
  | Notification.componentDestroyed object => QmlHandler.componentDestroyed object s
  | Notification.clearQmlCache => QmlHandler.clearQmlCache s

/-- Deliver a sequence of notifications in order. -/
def deliverAll (env : Env) (fuel : Nat) (ns : List Notification) (s : State) : State :=
  ns.foldl (fun acc n => deliver env fuel n acc) s

/-- The log of `t` extends the log of `s` by events that all satisfy `P`. -/
def Ext (P : Event → Prop) (s t : State) : Prop :=
  ∃ es, t.log = s.log ++ es ∧ ∀ e ∈ es, P e

/-- An event other than an entry into SilkServer::Private::error. -/
def Event.notCallError (e : Event) : Prop := ∀ st r m, e ≠ Event.callError st r m

/-! ## Concrete inputs -/

namespace Example

/-- The files that exist. -/
def files : List String :=
  ["/srv/www/hello.txt", "/srv/www/.htaccess", "/srv/www/.hidden.qml", "/srv/www/secret.txt",
   "/srv/www/page.qml", "/srv/www/Library.qml", "/srv/www/errors/404.qml",
   ":/errors/301.qml", ":/errors/403.qml", ":/errors/404.qml", ":/errors/500.qml"]

/-- The directories that exist. -/
def directories : List String := ["/srv/www/blog", "/srv/www/blog/"]

/-- The files the server process may not read. -/
def unreadable : List String := ["/srv/www/secret.txt"]

/-- An execution object as the engine creates it, before it is populated. -/
def blankHttp : HttpObject :=
  { id := 0, method := "", scheme := "", host := "", path := "", query := "", data := "",
    requestHeader := [], requestCookies := [], message := "", status := 200,
    responseHeader := [], responseCookies := [], out := "", loading := false }

/-- A script that answers at once with a page naming the requested path. -/
def script (http : HttpObject) : HttpObject :=
  { http with status := 200, out := "<html>" ++ http.path ++ "</html>",
              responseHeader := [("Content-Type", Variant.string "text/html")],
              loading := false }

/-- A server with no plugins at all: every file is served statically. -/
def staticEnv : Env :=
  { documentRoots := [("example.org", "/srv/www"), ("remote.example", "s3://bucket/base"),
                      ("*", "/srv/default")],
    mimeHandlers := [],
    protocolHandlers := [],
    errorConnected := false,
    isDir := fun p => decide (p ∈ directories),
    fileExists := fun p => decide (p ∈ files) || decide (p ∈ directories),
    isReadable := fun p => decide (p ∈ files) && !decide (p ∈ unreadable),
    canOpen := fun p => decide (p ∈ files) && !decide (p ∈ unreadable),
    readAll := fun p => "contents of " ++ p,
    lastModified := fun _ => 1351728000,
    toUTC := fun t => t,
    dateToString := fun t format => toString t ++ " as " ++ format,
    absoluteFilePath := fun p => p,
    dirPath := fun p => ⟨((p.data.reverse.dropWhile (fun c => c != '/')).drop 1).reverse⟩,
    absoluteDirPath := fun p => ⟨((p.data.reverse.dropWhile (fun c => c != '/')).drop 1).reverse⟩,
    mimeTypeForFile := fun name =>
      if endsWith name ".qml" then "text/x-qml"
      else if endsWith name ".txt" then "text/plain"
      else "application/octet-stream",
    urlToString := fun u =>
      u.scheme ++ "://" ++ u.host ++ u.path ++ (if u.query = "" then "" else "?" ++ u.query),
    parseUrl := fun text =>
      if text = "s3://bucket/base" then ⟨"s3", "bucket", "/base", "", ""⟩
      else ⟨"", "", text, "", ""⟩,
    fromLocalFile := fun p => ⟨"file", "", p, "", ""⟩,
    fileInfoOfUrl := fun u => u.path,
    isUpper := Char.isUpper,
    cacheQml := true,
    compile := fun _ _ => (ComponentStatus.Ready, ""),
    instantiate := fun _ => some blankHttp,
    ready := script,
    variantToString := fun _ => "",
    variantToDateTime := fun _ => none }

/-- The same server with the QML plugin registered for its MIME type. -/
def qmlEnv : Env := { staticEnv with mimeHandlers := [("text/x-qml", MimeHandler.qml)] }

/-- The QML server with scripts that keep working after the ready signal. -/
def deferredEnv : Env :=
  { qmlEnv with ready := fun http => { script http with loading := true } }

/-- The plugin-free server with a custom 403 page that exists but cannot be
opened by the server process. -/
def lockedEnv : Env :=
  { staticEnv with
    fileExists := fun p => staticEnv.fileExists p || decide (p = "/srv/www/errors/403.qml") }

/-- The plugin-free server with a document root whose name holds a place
marker, and a custom 404 page under that root. -/
def markerEnv : Env :=
  { staticEnv with
    documentRoots := [("*", "/srv/%1")],
    fileExists := fun p => decide (p = "/srv/%1/errors/404.qml") || staticEnv.fileExists p }

/-- A GET request for a path on example.org. -/
def get (path : String) : Request :=
  { method := "GET", url := ⟨"http", "example.org", path, "", ""⟩,
    rawHeaders := [("Host", "example.org")], cookies := [], body := "" }

/-- A GET request for a path on remote.example. -/
def getRemote (path : String) : Request :=
  { method := "GET", url := ⟨"http", "remote.example", path, "", ""⟩,
    rawHeaders := [], cookies := [], body := "" }

end Example

/-! ## Observations on the drain of an execution object -/

namespace QmlHandler

/-- The setRawHeader calls of the header loop of QmlHandler::Private::close,
in order. -/
def headerEvents (env : Env) (reply : Nat) (header : List (String × Variant)) : List Event :=
  (QMap.keys header).map
    (fun key => Event.setRawHeader reply key
      (variantToString env ((QMap.value header key).getD Variant.invalid)))

end QmlHandler

/-- The byte strings written to the body of `reply`, in order. -/
def writes (reply : Nat) (log : List Event) : List String :=
  log.filterMap (fun e =>
    match e with
    | Event.write r d => if r = reply then some d else none
    | _ => none)

namespace Example

/-- A HEAD request for a path on example.org. -/
def head (path : String) : Request := { get path with method := "HEAD" }

/-- An execution object whose script has finished. -/
def finished : HttpObject := script { blankHttp with id := 7, path := "/page.qml" }

/-- A handler state in which execution object 7, created from component 6,
is correlated with `request` and reply 3. -/
def draining (request : Request) : State :=
  { State.initial with
    nextObject := 8, component2http := [(6, 7)],
    http2request := [(7, some request)], http2reply := [(7, some 3)] }

end Example

namespace Example

/-- An outbound cookie-map entry with every field the engine knows. -/
def fullCookie : List (String × Variant) :=
  [("value", Variant.string "abc"), ("expires", Variant.dateTime (some 1700000000)),
   ("domain", Variant.string "example.org"), ("path", Variant.string "/app"),
   ("secure", Variant.bool true), ("session", Variant.bool false)]

/-- An outbound cookie-map entry that only sets the expiry. -/
def expiringCookie : List (String × Variant) :=
  [("expires", Variant.dateTime (some 1700000000))]

end Example

namespace Example

/-- The QML server with components that are still compiling when the handler
first looks at them. -/
def loadingEnv : Env :=
  { qmlEnv with compile := fun _ _ => (ComponentStatus.Loading, "") }

/-- The component the handler creates for the first request, as the script
engine reports it at a later moment. -/
def pageComponent (status : ComponentStatus) (errorString : String) : Component :=
  { id := 0, url := ⟨"file", "", "/srv/www/page.qml", "", ""⟩, status := status,
    errorString := errorString }

/-- The handler state after a request for a component that is still compiling. -/
def compiling : State :=
  SilkServer.incomingConnection loadingEnv 2 (get "/page.qml") 0 State.initial

/-- The handler state after the first status change resumed that request. -/
def resumed : State :=
  QmlHandler.statusChanged loadingEnv (SilkServer.error loadingEnv 2)
    (pageComponent ComponentStatus.Ready "") compiling

end Example

/-- The boolean a Mime Handler's load returns is false: an external handler
says so; the QmlHandler returns false exactly for a file whose name starts
with an upper-case letter. -/
def MimeHandler.declines (env : Env) (handler : MimeHandler) (url : Url) (request : Request)
    (message : String) : Bool :=
  match handler with
  | MimeHandler.qml =>
    match (fileName (env.fileInfoOfUrl url)).data with
    | [] => false
    | c :: _ => env.isUpper c
  | MimeHandler.external handled => !handled url request message

namespace SilkServer

/-- SilkServer::Private::load hands the file to loadFile: no Mime Handler is
registered for its MIME type, or the registered handler declines. -/
def passedToLoadFile (env : Env) (file : String) (request : Request) (message : String) : Bool :=
  match QMap.value env.mimeHandlers (env.mimeTypeForFile (fileName file)) with
  | none => true
  | some handler => handler.declines env (handlerUrl env file) request message

/-- The events of SilkServer::Private::load and loadFile for a file that is
handed to loadFile and can be opened. -/
def staticEvents (env : Env) (file : String) (reply : Nat) (message : String) : List Event :=
  [Event.callLoad file reply message, Event.setStatus reply 200,
   Event.setRawHeader reply "Content-Type" (env.mimeTypeForFile (fileName file))]
  ++ (match QMap.value env.mimeHandlers (env.mimeTypeForFile (fileName file)) with
      | none => []
      | some _ =>
        [Event.mimeHandlerLoad (env.mimeTypeForFile (fileName file)) (handlerUrl env file)
          reply message])
  ++ [Event.callLoadFile file reply, Event.fileOpen (env.absoluteFilePath file),
      Event.setRawHeader reply "Last-Modified"
        (env.dateToString (env.toUTC (env.lastModified file)) "ddd, d, MMM yyyy hh:mm:ss UTC"),
      Event.write reply (env.readAll (env.absoluteFilePath file)), Event.close reply]

end SilkServer

/-- The status values set on `reply`, in order; the last one is the wire
status. -/
def statuses (reply : Nat) (log : List Event) : List Int :=
  log.filterMap (fun e =>
    match e with
    | Event.setStatus r st => if r = reply then some st else none
    | _ => none)

/-- The status codes with which SilkServer::Private::error was entered, in order. -/
def errorCalls (log : List Event) : List Int :=
  log.filterMap (fun e =>
    match e with
    | Event.callError st _ _ => some st
    | _ => none)

/-- An event other than a call of QHttpReply::setStatus. -/
def Event.notSetStatus (e : Event) : Prop := ∀ r st, e ≠ Event.setStatus r st

/-- A status value is set by SilkServer::Private::load (200) or is the status
an execution object holds after its ready signal. -/
def StatusFromLoadOrObject (env : Env) (e : Event) : Prop :=
  ∀ r v, e = Event.setStatus r v → v = 200 ∨ ∃ http, v = (env.ready http).status

/-! ## tablemodel.cpp: removing a row

The database is outside the file: whether a statement executes, how two
QVariants compare and how a QVariant converts to an int are fields of
`SqlEnv`. -/

/-- What TableModel tells its views and the log. -/
inductive TableSignal where
  /-- beginRemoveRows(QModelIndex(), first, last) -/
  | beginRemoveRows (first last : Nat)
  /-- endRemoveRows() -/
  | endRemoveRows
  /-- countChanged(count) -/
  | countChanged (count : Nat)
  /-- qWarning() after a failed statement -/
  | warning (statement : String)
  deriving DecidableEq, Repr

/-- Everything TableModel::remove asks of Qt and of the database. -/
structure SqlEnv where
  /-- QSqlQuery::exec of the statement succeeds -/
  exec : String → Bool
  /-- operator== on two QVariants -/
  variantEq : Variant → Variant → Bool
  /-- the number QVariant::toInt reads from a value that holds no integer,
  before it is narrowed to 32 bits -/
  variantToInt : Variant → Int

/-- TableModel::Private, the fields TableModel::remove reads and writes;
`roleNames` lists the QHash in its iteration order. -/
structure TableModel where
  name : String
  primaryKey : String
  data : List (List Variant)
  roleNames : List (Int × String)
  signals : List TableSignal

namespace TableModel

/-- Qt::UserRole. -/
def userRole : Int := 256

/-- The narrowing of a number to a 32-bit int (two's complement). -/
def toInt32 (n : Int) : Int := (n + 2147483648) % 4294967296 - 2147483648

/-- QVariant::toInt: the result is a 32-bit int. -/
def variantToInt (sql : SqlEnv) (v : Variant) : Int :=
  match v with
  | .int n => toInt32 n
  | other => toInt32 (sql.variantToInt other)

/-- TableModel::rowCount. -/
def rowCount (m : TableModel) : Nat := m.data.length

/-- The value `data.value(primaryKey())` of TableModel::remove. -/
def target (m : TableModel) (data : List (String × Variant)) : Variant :=
  (QMap.value data m.primaryKey).getD Variant.invalid

/-- The DELETE statement TableModel::remove builds. -/
def deleteStatement (sql : SqlEnv) (m : TableModel) (data : List (String × Variant)) : String :=
  argInt (arg (arg "DELETE FROM %1 WHERE %2=%3;" m.name) m.primaryKey)
    (variantToInt sql (target m data))

/-- The search for the role whose name is the primary key: the first such
role in the iteration order of the role names, or -1. -/
def primaryKeyIndex (m : TableModel) : Int :=
  match (QMap.keys m.roleNames).find?
      (fun role => decide (QMap.value m.roleNames role = some m.primaryKey)) with
  | some role => role
  | none => -1

/-- QList::at on a row; none when the index is out of range. -/
def cell (row : List Variant) (k : Int) : Option Variant :=
  if 0 ≤ k then row.get? k.toNat else none

/-- The row loop of TableModel::remove from index `i` on: the index of the
first row whose cell in column `k` compares equal to `value`, if there is one;
the outer none is an out-of-range QList::at. -/
def findRow (sql : SqlEnv) (k : Int) (value : Variant) :
    List (List Variant) → Nat → Option (Option Nat)
  | [], _ => some none
  | row :: rest, i =>
    match cell row k with
    | none => none
    | some v => if sql.variantEq v value then some (some i) else findRow sql k value rest (i + 1)

/-- TableModel::remove: the boolean it returns and the model afterwards;
none when a QList::at is out of range. -/
def remove (sql : SqlEnv) (m : TableModel) (data : List (String × Variant)) :
    Option (Bool × TableModel) :=
  let ret := sql.exec (deleteStatement sql m data)
  if ret then
    let count := rowCount m
    let primaryKeyIndex := primaryKeyIndex m
    if primaryKeyIndex > -1 then
      match findRow sql (primaryKeyIndex - userRole) (target m data) (m.data.take count) 0 with
      | none => none
      | some none => some (ret, m)
      | some (some i) =>
        some (ret, { m with
          data := m.data.eraseIdx i,
          signals := m.signals ++ [TableSignal.beginRemoveRows i i, TableSignal.endRemoveRows,
            TableSignal.countChanged (m.data.eraseIdx i).length] })
    else some (ret, m)
  else
    some (ret, { m with signals := m.signals ++ [TableSignal.warning (deleteStatement sql m data)] })

end TableModel

namespace Example

/-- A database that executes every statement; values compare equal when they
are the same int or the same string. -/
def sqlOk : SqlEnv :=
  { exec := fun _ => true,
    variantEq := fun a b =>
      match a, b with
      | Variant.int x, Variant.int y => decide (x = y)
      | Variant.string x, Variant.string y => decide (x = y)
      | _, _ => false,
    variantToInt := fun _ => 0 }

/-- A database that refuses every statement. -/
def sqlDown : SqlEnv := { sqlOk with exec := fun _ => false }

/-- A table of three rows with the columns id and title, two rows sharing
the id 2. -/
def notes : TableModel :=
  { name := "notes", primaryKey := "id",
    data := [[Variant.int 1, Variant.string "a"], [Variant.int 2, Variant.string "b"],
             [Variant.int 2, Variant.string "c"]],
    roleNames := [(256, "id"), (257, "title")],
    signals := [] }

end Example

/-! ## Names for the ways a run can end -/

namespace QmlHandler

/-- The component QmlHandler::Private::load constructs for a file when the
next free object identity is `id`. -/
def componentFor (env : Env) (fileInfo : String) (id : Nat) : Component :=
  let url : Url :=
    if startsWith (env.dirPath fileInfo) ":" then
      env.parseUrl (arg "qrc%1" (env.dirPath fileInfo))
    else
      env.fromLocalFile (env.absoluteDirPath fileInfo)
  let url := url.setPath (url.path ++ "/" ++ fileName fileInfo)
  { id := id, url := url, status := (env.compile id url).1, errorString := (env.compile id url).2 }

end QmlHandler

namespace SilkServer

/-- SilkServer::Private::load hands the file to the QmlHandler and the handler
takes it: the handler is registered for the file's MIME type and the name it
sees is not empty and does not start with an upper-case letter. -/
def TakenByQml (env : Env) (file : String) : Prop :=
  QMap.value env.mimeHandlers (env.mimeTypeForFile (fileName file)) = some MimeHandler.qml
  ∧ ∃ c rest, (fileName (env.fileInfoOfUrl (handlerUrl env file))).data = c :: rest
      ∧ env.isUpper c = false

/-- The component the QmlHandler constructs for a file the router loads. -/
def qmlComponent (env : Env) (file : String) (id : Nat) : Component :=
  QmlHandler.componentFor env (env.fileInfoOfUrl (handlerUrl env file)) id

/-- The file is a readable component that is Ready at once, instantiates to
an execution object, and that object is not working any more after its ready
signal: it is drained inline. -/
def RunsInline (env : Env) (file : String) (request : Request) (message : String) (id : Nat) :
    Prop :=
  TakenByQml env file
  ∧ env.isReadable (env.fileInfoOfUrl (handlerUrl env file)) = true
  ∧ (qmlComponent env file id).status = ComponentStatus.Ready
  ∧ ∃ created, env.instantiate (qmlComponent env file id) = some created
      ∧ (env.ready (QmlHandler.populate { created with id := id + 1 } request message)).loading
          = false

/-- As RunsInline, but the execution object is still working after its ready
signal. -/
def RunsDeferred (env : Env) (file : String) (request : Request) (message : String) (id : Nat) :
    Prop :=
  TakenByQml env file
  ∧ env.isReadable (env.fileInfoOfUrl (handlerUrl env file)) = true
  ∧ (qmlComponent env file id).status = ComponentStatus.Ready
  ∧ ∃ created, env.instantiate (qmlComponent env file id) = some created
      ∧ (env.ready (QmlHandler.populate { created with id := id + 1 } request message)).loading
          = true

/-- The file is a readable component that is still compiling when the handler
looks at it. -/
def StartsLoading (env : Env) (file : String) (id : Nat) : Prop :=
  TakenByQml env file
  ∧ env.isReadable (env.fileInfoOfUrl (handlerUrl env file)) = true
  ∧ (qmlComponent env file id).status = ComponentStatus.Loading

/-- The file goes to loadFile and is refused there: its name starts with a
dot or it cannot be opened. -/
def RefusedByLoadFile (env : Env) (file : String) (request : Request) (message : String) : Prop :=
  passedToLoadFile env file request message = true
  ∧ (startsWith (fileName file) "." = true ∨ env.canOpen (env.absoluteFilePath file) = false)

/-- The error document selected for a status is served: it goes to loadFile
and can be opened, or it is a component that is drained inline. -/
def PageServed (env : Env) (request : Request) (statusCode : Int) (message : String) (id : Nat) :
    Prop :=
  (passedToLoadFile env (selectedErrorDocument env request statusCode) request message = true
    ∧ env.canOpen (env.absoluteFilePath (selectedErrorDocument env request statusCode)) = true)
  ∨ RunsInline env (selectedErrorDocument env request statusCode) request message id

/-- The error document selected for a status goes to loadFile and cannot be
opened. -/
def PageRefused (env : Env) (request : Request) (statusCode : Int) (message : String) : Prop :=
  passedToLoadFile env (selectedErrorDocument env request statusCode) request message = true
  ∧ env.canOpen (env.absoluteFilePath (selectedErrorDocument env request statusCode)) = false

end SilkServer

/-- The events after which the router and the engine call close on `reply` no
more although no correlation entry holds it: the nesting of error calls was
cut off, a null pointer was dereferenced, a component reported the status
Null, the QmlHandler emitted its error signal with no receiver connected, or
an external Mime Handler or a Protocol Handler accepted the request. -/
def Handed (env : Env) (request : Request) (reply : Nat) (es : List Event) : Prop :=
  Event.outOfFuel ∈ es
  ∨ Event.fault ∈ es
  ∨ (∃ id url, Event.newComponent id url ∈ es
      ∧ (env.compile id url).1 = ComponentStatus.Null)
  ∨ (env.errorConnected = false ∧ ∃ st m, Event.emitError st (some reply) m ∈ es)
  ∨ (∃ mime url m handled, Event.mimeHandlerLoad mime url reply m ∈ es
      ∧ QMap.value env.mimeHandlers mime = some (MimeHandler.external handled)
      ∧ handled url request m = true)
  ∨ (∃ scheme url m handler, Event.protocolHandlerLoad scheme url reply m ∈ es
      ∧ QMap.value env.protocolHandlers scheme = some handler
      ∧ handler.handled url request m = true)

/-- A correlation entry holds the request and the reply, and the slot that
resumes it was connected: statusChanged for a component, loadingChanged for an
execution object. -/
def Awaited (request : Request) (reply : Nat) (es : List Event) (t : State) : Prop :=
  (∃ c, Event.connect Signal.componentStatusChanged c ∈ es
    ∧ QMap.value t.component2request c = some (some request)
    ∧ QMap.value t.component2reply c = some (some reply))
  ∨ (∃ h, Event.connect Signal.httpLoadingChanged h ∈ es
    ∧ QMap.value t.http2request h = some (some request)
    ∧ QMap.value t.http2reply h = some (some reply))

/-- The log of `t` extends `base` by events among which close is called on
the reply, or after which an entry holds it, or which hand it off. -/
def Lands (env : Env) (request : Request) (reply : Nat) (base : List Event) (t : State) : Prop :=
  ∃ es, t.log = base ++ es
    ∧ (Event.close reply ∈ es ∨ Awaited request reply es t ∨ Handed env request reply es)

namespace Example

/-- A server on which only page.qml is a component and the handler's error
signal reaches SilkServer::Private::error; page.qml is readable or not, and
its component is in error. -/
def signalEnv (readable : Bool) : Env :=
  { staticEnv with
    mimeHandlers := [("text/x-qml", MimeHandler.qml)],
    errorConnected := true,
    mimeTypeForFile := fun name => if name = "page.qml" then "text/x-qml" else "text/plain",
    isReadable := fun p => staticEnv.isReadable p && (readable || decide (p ≠ "/srv/www/page.qml")),
    compile := fun _ _ => (ComponentStatus.Error, "page.qml:1 syntax error") }

end Example

/-! # Theorems -/

open SilkServer

@[simp] theorem State.emit_log (s : State) (e : Event) : (s.emit e).log = s.log ++ [e] := rfl

/-! ## QMap -/

theorem QMap.contains_iff_mem_keys {κ υ : Type} [DecidableEq κ] (m : QMap κ υ) (k : κ) :
    QMap.contains m k = true ↔ k ∈ QMap.keys m := by
  induction m with
  | nil => simp [QMap.contains, QMap.keys]
  | cons e rest ih =>
    simp only [QMap.contains, QMap.keys, List.any_cons, List.map_cons, List.mem_cons,
      Bool.or_eq_true, decide_eq_true_eq] at ih ⊢
    rw [ih]
    constructor
    · rintro (h | h)
      · exact Or.inl h.symm
      · exact Or.inr h
    · rintro (h | h)
      · exact Or.inl h.symm
      · exact Or.inr h

theorem QMap.value_of_mem_keys {κ υ : Type} [DecidableEq κ] (m : QMap κ υ) (k : κ)
    (h : k ∈ QMap.keys m) : ∃ v, QMap.value m k = some v := by
  induction m with
  | nil => simp [QMap.keys] at h
  | cons e rest ih =>
    unfold QMap.value
    by_cases hk : e.1 = k
    · exact ⟨e.2, by simp [hk]⟩
    · have : k ∈ QMap.keys rest := by
        simp only [QMap.keys, List.map_cons, List.mem_cons] at h
        rcases h with h | h
        · exact absurd h.symm hk
        · exact h
      obtain ⟨v, hv⟩ := ih this
      exact ⟨v, by simp [hk, hv]⟩

theorem QMap.value_of_not_mem_keys {κ υ : Type} [DecidableEq κ] (m : QMap κ υ) (k : κ)
    (h : k ∉ QMap.keys m) : QMap.value m k = none := by
  induction m with
  | nil => rfl
  | cons e rest ih =>
    simp only [QMap.keys, List.map_cons, List.mem_cons, not_or] at h
    unfold QMap.value
    rw [if_neg (fun hk => h.1 hk.symm)]
    exact ih h.2

/-! ## The log only grows -/

theorem Ext.refl (P : Event → Prop) (s : State) : Ext P s s := ⟨[], by simp, by simp⟩

theorem Ext.of_log_eq {P : Event → Prop} {s t u : State} (h : Ext P s t) (hu : u.log = t.log) :
    Ext P s u := by
  obtain ⟨es, he, hes⟩ := h
  exact ⟨es, by rw [hu, he], hes⟩

theorem Ext.snoc {P : Event → Prop} {s t : State} {e : Event} (h : Ext P s t) (he : P e) :
    Ext P s (t.emit e) := by
  obtain ⟨es, hl, hes⟩ := h
  refine ⟨es ++ [e], by simp [hl], ?_⟩
  intro x hx
  rcases List.mem_append.1 hx with hx | hx
  · exact hes x hx
  · simp at hx; subst hx; exact he

theorem writeHeaders_ext {P : Event → Prop} (hP : ∀ e, e.notCallError → P e) (env : Env)
    (reply : Nat) (header : List (String × Variant)) (s0 s : State) (h : Ext P s0 s) :
    Ext P s0 (QmlHandler.writeHeaders env reply header s) := by
  unfold QmlHandler.writeHeaders
  generalize QMap.keys header = ks
  induction ks generalizing s with
  | nil => exact h
  | cons k ks ih =>
    simp only [List.foldl_cons]
    exact ih _ (h.snoc (hP _ (by intro st r m h; cases h)))

theorem close_ext {P : Event → Prop} (hP : ∀ e, e.notCallError → P e) (env : Env)
    (http : HttpObject) (s0 s : State) (h : Ext P s0 s) :
    Ext P s0 (QmlHandler.close env http s) := by
  unfold QmlHandler.close
  dsimp only
  repeat (first
    | exact h
    | apply Ext.snoc _ (hP _ (by intro st r m h; cases h))
    | apply writeHeaders_ext hP
    | exact Ext.of_log_eq h rfl
    | split)

theorem emitError_ext {P : Event → Prop} (hP : ∀ e, e.notCallError → P e) (env : Env)
    (error : ErrorFn) (st : Int)
    (herr : ∀ rq rp m s0 s, Ext P s0 s → Ext P s0 (error st rq rp m s))
    (request : Option Request) (reply : Option Nat) (message : String) (s0 s : State)
    (h : Ext P s0 s) :
    Ext P s0 (QmlHandler.emitError env error st request reply message s) := by
  unfold QmlHandler.emitError
  dsimp only
  repeat (first
    | exact h
    | apply herr
    | apply Ext.snoc _ (hP _ (by intro st r m h; cases h))
    | split)

theorem exec_ext {P : Event → Prop} (hP : ∀ e, e.notCallError → P e) (env : Env)
    (error : ErrorFn)
    (herr : ∀ rq rp m s0 s, Ext P s0 s → Ext P s0 (error 500 rq rp m s))
    (component : Component) (request : Option Request) (reply : Option Nat) (message : String)
    (s0 s : State) (h : Ext P s0 s) :
    Ext P s0 (QmlHandler.exec env error component request reply message s) := by
  unfold QmlHandler.exec
  dsimp only
  repeat (first
    | exact h
    | apply emitError_ext hP env error 500 herr
    | apply close_ext hP
    | apply Ext.snoc _ (hP _ (by intro st r m h; cases h))
    | exact Ext.of_log_eq h rfl
    | split)

theorem qmlHandler_load_ext {P : Event → Prop} (hP : ∀ e, e.notCallError → P e) (env : Env)
    (error : ErrorFn)
    (h403 : ∀ rq rp m s0 s, Ext P s0 s → Ext P s0 (error 403 rq rp m s))
    (h500 : ∀ rq rp m s0 s, Ext P s0 s → Ext P s0 (error 500 rq rp m s))
    (fileInfo : String) (request : Request) (reply : Nat) (message : String)
    (s0 s : State) (h : Ext P s0 s) :
    Ext P s0 (QmlHandler.load env error fileInfo request reply message s).2 := by
  unfold QmlHandler.load QmlHandler.Private.load
  dsimp only
  repeat (first
    | exact h
    | apply emitError_ext hP env error 403 h403
    | apply exec_ext hP env error h500
    | apply Ext.snoc _ (hP _ (by intro st r m h; cases h))
    | exact Ext.of_log_eq h rfl
    | split)

theorem mimeHandler_load_ext {P : Event → Prop} (hP : ∀ e, e.notCallError → P e) (env : Env)
    (error : ErrorFn)
    (h403 : ∀ rq rp m s0 s, Ext P s0 s → Ext P s0 (error 403 rq rp m s))
    (h500 : ∀ rq rp m s0 s, Ext P s0 s → Ext P s0 (error 500 rq rp m s))
    (handler : MimeHandler) (url : Url) (request : Request) (reply : Nat) (message : String)
    (s0 s : State) (h : Ext P s0 s) :
    Ext P s0 (MimeHandler.load env error handler url request reply message s).2 := by
  unfold MimeHandler.load
  split
  · exact qmlHandler_load_ext hP env error h403 h500 _ _ _ _ _ _ h
  · exact h

theorem loadFile_ext {P : Event → Prop} (hP : ∀ e, e.notCallError → P e) (env : Env)
    (error : ErrorFn)
    (h403 : ∀ rq rp m s0 s, Ext P s0 s → Ext P s0 (error 403 rq rp m s))
    (fileInfo : String) (request : Request) (reply : Nat)
    (s0 s : State) (h : Ext P s0 s) :
    Ext P s0 (loadFile env error fileInfo request reply s) := by
  unfold loadFile
  dsimp only
  repeat (first
    | exact h
    | apply h403
    | apply Ext.snoc _ (hP _ (by intro st r m h; cases h))
    | split)

theorem server_load_ext {P : Event → Prop} (hP : ∀ e, e.notCallError → P e) (env : Env)
    (error : ErrorFn)
    (h403 : ∀ rq rp m s0 s, Ext P s0 s → Ext P s0 (error 403 rq rp m s))
    (h500 : ∀ rq rp m s0 s, Ext P s0 s → Ext P s0 (error 500 rq rp m s))
    (fileInfo : String) (request : Request) (reply : Nat) (message : String)
    (s0 s : State) (h : Ext P s0 s) :
    Ext P s0 (load env error fileInfo request reply message s) := by
  unfold load
  dsimp only
  repeat (first
    | exact h
    | apply loadFile_ext hP env error h403
    | apply mimeHandler_load_ext hP env error h403 h500
    | apply Ext.snoc _ (hP _ (by intro st r m h; cases h))
    | split)

theorem error_ext {P : Event → Prop} (hP : ∀ e, e.notCallError → P e) (env : Env)
    (h403 : ∀ r m, P (Event.callError 403 r m)) (h500 : ∀ r m, P (Event.callError 500 r m))
    (fuel : Nat) (st : Int) (hst : ∀ r m, P (Event.callError st r m))
    (request : Request) (reply : Nat) (message : String) (s0 s : State) (h : Ext P s0 s) :
    Ext P s0 (error env fuel st request reply message s) := by
  induction fuel generalizing st request reply message s0 s with
  | zero => exact h.snoc (hP _ (by intro st r m h; cases h))
  | succ n ih =>
    unfold error
    dsimp only
    split
    · apply server_load_ext hP env _ (fun rq rp m s0 s h => ih 403 h403 rq rp m s0 s h)
        (fun rq rp m s0 s h => ih 500 h500 rq rp m s0 s h)
      exact (h.snoc (hst _ _)).snoc (hP _ (by intro st r m h; cases h))
    · apply server_load_ext hP env _ (fun rq rp m s0 s h => ih 403 h403 rq rp m s0 s h)
        (fun rq rp m s0 s h => ih 500 h500 rq rp m s0 s h)
      exact (h.snoc (hst _ _)).snoc (hP _ (by intro st r m h; cases h))

/-! ## Document root lookup -/

/-- C7: documentRootForRequest returns the table entry for the request host
when the host is a key; otherwise the entry for the wildcard key when that is
a key; otherwise the built-in root.  An exact host entry thus takes precedence
over the wildcard entry. -/
theorem documentRootForRequest_lookup (env : Env) (request : Request) :
    (request.url.host ∈ QMap.keys env.documentRoots →
      some (documentRootForRequest env request)
        = QMap.value env.documentRoots request.url.host) ∧
    (request.url.host ∉ QMap.keys env.documentRoots → "*" ∈ QMap.keys env.documentRoots →
      some (documentRootForRequest env request) = QMap.value env.documentRoots "*") ∧
    (request.url.host ∉ QMap.keys env.documentRoots → "*" ∉ QMap.keys env.documentRoots →
      documentRootForRequest env request = ":/contents") := by
  refine ⟨fun h => ?_, fun h hs => ?_, fun h hs => ?_⟩
  · obtain ⟨v, hv⟩ := QMap.value_of_mem_keys _ _ h
    simp [documentRootForRequest, (QMap.contains_iff_mem_keys _ _).2 h, hv]
  · obtain ⟨v, hv⟩ := QMap.value_of_mem_keys _ _ hs
    have h1 : QMap.contains env.documentRoots request.url.host = false := by
      rw [Bool.eq_false_iff]; intro hc; exact h ((QMap.contains_iff_mem_keys _ _).1 hc)
    simp [documentRootForRequest, h1, (QMap.contains_iff_mem_keys _ _).2 hs, hv]
  · have h1 : QMap.contains env.documentRoots request.url.host = false := by
      rw [Bool.eq_false_iff]; intro hc; exact h ((QMap.contains_iff_mem_keys _ _).1 hc)
    have h2 : QMap.contains env.documentRoots "*" = false := by
      rw [Bool.eq_false_iff]; intro hc; exact hs ((QMap.contains_iff_mem_keys _ _).1 hc)
    simp [documentRootForRequest, h1, h2]

/-! ## The router: redirect and not-found -/

theorem error_ext_true (env : Env) (fuel : Nat) (st : Int) (rq : Request) (rp : Nat) (m : String)
    (s0 s : State) (h : Ext (fun _ => True) s0 s) :
    Ext (fun _ => True) s0 (error env fuel st rq rp m s) :=
  error_ext (fun _ _ => trivial) env (fun _ _ => trivial) (fun _ _ => trivial) fuel st
    (fun _ _ => trivial) rq rp m s0 s h

theorem load_log (env : Env) (fuel : Nat) (doc : String) (request : Request) (reply : Nat)
    (message : String) (t : State) :
    ∃ rest, (load env (error env fuel) doc request reply message t).log
      = t.log ++ [Event.callLoad doc reply message, Event.setStatus reply 200,
          Event.setRawHeader reply "Content-Type" (env.mimeTypeForFile (fileName doc))]
        ++ rest := by
  have h : Ext (fun _ => True)
      (((t.emit (Event.callLoad doc reply message)).emit (Event.setStatus reply 200)).emit
        (Event.setRawHeader reply "Content-Type" (env.mimeTypeForFile (fileName doc))))
      (load env (error env fuel) doc request reply message t) := by
    have hT : ∀ e : Event, e.notCallError → True := fun _ _ => trivial
    unfold load
    dsimp only
    repeat (first
      | exact Ext.refl _ _
      | apply loadFile_ext hT env _ (error_ext_true env fuel 403)
      | apply mimeHandler_load_ext hT env _ (error_ext_true env fuel 403)
          (error_ext_true env fuel 500)
      | apply Ext.snoc _ trivial
      | split)
  obtain ⟨es, he, _⟩ := h
  exact ⟨es, by rw [he]; simp⟩

theorem error_succ_log (env : Env) (fuel : Nat) (st : Int) (request : Request) (reply : Nat)
    (message : String) (s : State) :
    ∃ rest, (error env (fuel + 1) st request reply message s).log
      = s.log ++ [Event.callError st reply message,
          Event.fileExists (errorDocument (documentRootForRequest env request) st),
          Event.callLoad (selectedErrorDocument env request st) reply message,
          Event.setStatus reply 200,
          Event.setRawHeader reply "Content-Type"
            (env.mimeTypeForFile (fileName (selectedErrorDocument env request st)))] ++ rest := by
  unfold error selectedErrorDocument
  dsimp only
  split
  · obtain ⟨rest, hr⟩ := load_log env fuel (errorDocument (documentRootForRequest env request) st)
      request reply message ((s.emit (Event.callError st reply message)).emit
        (Event.fileExists (errorDocument (documentRootForRequest env request) st)))
    exact ⟨rest, by rw [hr]; simp⟩
  · obtain ⟨rest, hr⟩ := load_log env fuel (defaultErrorDocument st)
      request reply message ((s.emit (Event.callError st reply message)).emit
        (Event.fileExists (errorDocument (documentRootForRequest env request) st)))
    exact ⟨rest, by rw [hr]; simp⟩

/-- C3: for a local document root, a candidate path that is a directory and a
request path not ending in a slash, incomingConnection does nothing but call
error with status 301 and the request URL whose path alone is replaced by the
path followed by a slash; what is then loaded is the selected error document. -/
theorem incomingConnection_redirect (env : Env) (fuel : Nat) (request : Request) (reply : Nat)
    (s : State)
    (hlocal : ¬ indexOf (documentRootForRequest env request) "://" > 0)
    (hdir : env.isDir (documentRootForRequest env request ++ request.url.path) = true)
    (hslash : endsWith request.url.path "/" = false) :
    incomingConnection env fuel request reply s
      = error env fuel 301 request reply
          (env.urlToString (request.url.setPath (request.url.path ++ "/")))
          (s.emit (Event.fileIsDir (documentRootForRequest env request ++ request.url.path)))
    ∧ request.url.setPath (request.url.path ++ "/")
        = { scheme := request.url.scheme, host := request.url.host,
            path := request.url.path ++ "/", query := request.url.query,
            fragment := request.url.fragment }
    ∧ ∃ rest, (incomingConnection env (fuel + 1) request reply s).log
        = s.log ++ [Event.fileIsDir (documentRootForRequest env request ++ request.url.path),
            Event.callError 301 reply
              (env.urlToString (request.url.setPath (request.url.path ++ "/"))),
            Event.fileExists (errorDocument (documentRootForRequest env request) 301),
            Event.callLoad (selectedErrorDocument env request 301) reply
              (env.urlToString (request.url.setPath (request.url.path ++ "/"))),
            Event.setStatus reply 200,
            Event.setRawHeader reply "Content-Type"
              (env.mimeTypeForFile (fileName (selectedErrorDocument env request 301)))]
          ++ rest := by
  have h1 : ∀ fuel, incomingConnection env fuel request reply s
      = error env fuel 301 request reply
          (env.urlToString (request.url.setPath (request.url.path ++ "/")))
          (s.emit (Event.fileIsDir (documentRootForRequest env request ++ request.url.path))) := by
    intro fuel
    simp only [incomingConnection, if_neg hlocal, hdir, hslash, if_true]
    simp
  refine ⟨h1 fuel, rfl, ?_⟩
  rw [h1 (fuel + 1)]
  obtain ⟨rest, hr⟩ := error_succ_log env fuel 301 request reply
    (env.urlToString (request.url.setPath (request.url.path ++ "/")))
    (s.emit (Event.fileIsDir (documentRootForRequest env request ++ request.url.path)))
  exact ⟨rest, by rw [hr]; simp⟩

theorem incomingConnection_redirect_witness :
    incomingConnection Example.staticEnv 1 (Example.get "/blog") 7 State.initial
      = error Example.staticEnv 1 301 (Example.get "/blog") 7 "http://example.org/blog/"
          (State.initial.emit (Event.fileIsDir "/srv/www/blog")) :=
  (incomingConnection_redirect Example.staticEnv 1 (Example.get "/blog") 7 State.initial
    (by decide) (by decide) (by decide)).1


theorem incomingConnection_local (env : Env) (fuel : Nat) (request : Request) (reply : Nat)
    (s : State)
    (hlocal : ¬ indexOf (documentRootForRequest env request) "://" > 0)
    (hslash : env.isDir (documentRootForRequest env request ++ request.url.path) = true →
      endsWith request.url.path "/" = true) :
    incomingConnection env fuel request reply s
      = if env.fileExists (candidateFile env request) then
          load env (error env fuel) (candidateFile env request) request reply ""
            ((s.emit (Event.fileIsDir (documentRootForRequest env request ++ request.url.path))).emit
              (Event.fileExists (candidateFile env request)))
        else
          error env fuel 404 request reply (env.urlToString request.url)
            ((s.emit (Event.fileIsDir (documentRootForRequest env request ++ request.url.path))).emit
              (Event.fileExists (candidateFile env request))) := by
  unfold incomingConnection candidateFile
  simp only [if_neg hlocal]
  by_cases hdir : env.isDir (documentRootForRequest env request ++ request.url.path) = true
  · simp only [hdir, hslash hdir, if_true]
  · simp only [hdir]
    simp

/-- C4: for a local document root (the redirect case apart), when the
candidate file does not exist incomingConnection calls error with status 404
and the request URL as message, and what is loaded next is the selected error
document; when it exists incomingConnection calls load on it and no error with
status 404 is raised afterwards. -/
theorem incomingConnection_not_found (env : Env) (fuel : Nat) (request : Request) (reply : Nat)
    (s : State)
    (hlocal : ¬ indexOf (documentRootForRequest env request) "://" > 0)
    (hslash : env.isDir (documentRootForRequest env request ++ request.url.path) = true →
      endsWith request.url.path "/" = true) :
    (env.fileExists (candidateFile env request) = false →
      incomingConnection env fuel request reply s
        = error env fuel 404 request reply (env.urlToString request.url)
            ((s.emit (Event.fileIsDir (documentRootForRequest env request ++ request.url.path))).emit
              (Event.fileExists (candidateFile env request)))
      ∧ ∃ rest, (incomingConnection env (fuel + 1) request reply s).log
          = s.log ++ [Event.fileIsDir (documentRootForRequest env request ++ request.url.path),
              Event.fileExists (candidateFile env request),
              Event.callError 404 reply (env.urlToString request.url),
              Event.fileExists (errorDocument (documentRootForRequest env request) 404),
              Event.callLoad (selectedErrorDocument env request 404) reply
                (env.urlToString request.url),
              Event.setStatus reply 200,
              Event.setRawHeader reply "Content-Type"
                (env.mimeTypeForFile (fileName (selectedErrorDocument env request 404)))]
            ++ rest)
    ∧ (env.fileExists (candidateFile env request) = true →
      incomingConnection env fuel request reply s
        = load env (error env fuel) (candidateFile env request) request reply ""
            ((s.emit (Event.fileIsDir (documentRootForRequest env request ++ request.url.path))).emit
              (Event.fileExists (candidateFile env request)))
      ∧ ∃ rest, (incomingConnection env fuel request reply s).log
          = s.log ++ [Event.fileIsDir (documentRootForRequest env request ++ request.url.path),
              Event.fileExists (candidateFile env request),
              Event.callLoad (candidateFile env request) reply "",
              Event.setStatus reply 200,
              Event.setRawHeader reply "Content-Type"
                (env.mimeTypeForFile (fileName (candidateFile env request)))]
            ++ rest
          ∧ ∀ e ∈ rest, ∀ r m, e ≠ Event.callError 404 r m) := by
  constructor
  · intro hex
    have h1 : ∀ fuel, incomingConnection env fuel request reply s
        = error env fuel 404 request reply (env.urlToString request.url)
            ((s.emit (Event.fileIsDir (documentRootForRequest env request ++ request.url.path))).emit
              (Event.fileExists (candidateFile env request))) := by
      intro fuel
      rw [incomingConnection_local env fuel request reply s hlocal hslash, hex]
      simp
    refine ⟨h1 fuel, ?_⟩
    rw [h1 (fuel + 1)]
    obtain ⟨rest, hr⟩ := error_succ_log env fuel 404 request reply (env.urlToString request.url)
      ((s.emit (Event.fileIsDir (documentRootForRequest env request ++ request.url.path))).emit
        (Event.fileExists (candidateFile env request)))
    exact ⟨rest, by rw [hr]; simp⟩
  · intro hex
    have h1 : incomingConnection env fuel request reply s
        = load env (error env fuel) (candidateFile env request) request reply ""
            ((s.emit (Event.fileIsDir (documentRootForRequest env request ++ request.url.path))).emit
              (Event.fileExists (candidateFile env request))) := by
      rw [incomingConnection_local env fuel request reply s hlocal hslash, hex]
      simp
    refine ⟨h1, ?_⟩
    rw [h1]
    have hP : ∀ e : Event, e.notCallError → (fun e => ∀ r m, e ≠ Event.callError 404 r m) e :=
      fun e he r m => he 404 r m
    have hne : ∀ st : Int, st ≠ 404 → ∀ (rq : Request) (rp : Nat) (m : String) (s0 t : State),
        Ext (fun e => ∀ r m, e ≠ Event.callError 404 r m) s0 t →
        Ext (fun e => ∀ r m, e ≠ Event.callError 404 r m) s0 (error env fuel st rq rp m t) := by
      intro st hst rq rp m s0 t h
      refine error_ext hP env ?_ ?_ fuel st ?_ rq rp m s0 t h
      · intro r m r2 m2 h; injection h with h; omega
      · intro r m r2 m2 h; injection h with h; omega
      · intro r m r2 m2 h; injection h with h; exact hst h
    have h : Ext (fun e => ∀ r m, e ≠ Event.callError 404 r m)
        ((((((s.emit (Event.fileIsDir (documentRootForRequest env request ++ request.url.path))).emit
              (Event.fileExists (candidateFile env request))).emit
            (Event.callLoad (candidateFile env request) reply "")).emit
            (Event.setStatus reply 200)).emit
            (Event.setRawHeader reply "Content-Type"
              (env.mimeTypeForFile (fileName (candidateFile env request))))))
        (load env (error env fuel) (candidateFile env request) request reply ""
            ((s.emit (Event.fileIsDir (documentRootForRequest env request ++ request.url.path))).emit
              (Event.fileExists (candidateFile env request)))) := by
      unfold load
      dsimp only
      repeat (first
        | exact Ext.refl _ _
        | apply loadFile_ext hP env _ (hne 403 (by omega))
        | apply mimeHandler_load_ext hP env _ (hne 403 (by omega)) (hne 500 (by omega))
        | apply Ext.snoc _ (hP _ (by intro st r m h; cases h))
        | split)
    obtain ⟨es, he, hes⟩ := h
    exact ⟨es, by rw [he]; simp, hes⟩

theorem incomingConnection_not_found_witness :
    incomingConnection Example.staticEnv 2 (Example.get "/missing.txt") 0 State.initial
      = error Example.staticEnv 2 404 (Example.get "/missing.txt") 0
          "http://example.org/missing.txt"
          ((State.initial.emit (Event.fileIsDir "/srv/www/missing.txt")).emit
            (Event.fileExists "/srv/www/missing.txt")) :=
  ((incomingConnection_not_found Example.staticEnv 2 (Example.get "/missing.txt") 0 State.initial
    (by decide) (by decide)).1 (by decide)).1

/-! ## The router: dispatch, static files, remote roots -/

/-- C5: load looks the MIME type of the file name up among the Mime Handlers.
With no handler registered it invokes none and serves the file statically.
With a handler registered it invokes that handler once, with the context
message, and then serves the file statically exactly when the handler
returned "not handled". -/
theorem load_dispatch (env : Env) (error : ErrorFn) (fileInfo : String) (request : Request)
    (reply : Nat) (message : String) (s : State) :
    (QMap.value env.mimeHandlers (env.mimeTypeForFile (fileName fileInfo)) = none →
      load env error fileInfo request reply message s
        = loadFile env error fileInfo request reply
            (((s.emit (Event.callLoad fileInfo reply message)).emit
              (Event.setStatus reply 200)).emit
              (Event.setRawHeader reply "Content-Type"
                (env.mimeTypeForFile (fileName fileInfo)))))
    ∧ (∀ handler,
        QMap.value env.mimeHandlers (env.mimeTypeForFile (fileName fileInfo)) = some handler →
        ∀ outcome,
          outcome = MimeHandler.load env error handler (handlerUrl env fileInfo) request reply
            message
            ((((s.emit (Event.callLoad fileInfo reply message)).emit
              (Event.setStatus reply 200)).emit
              (Event.setRawHeader reply "Content-Type"
                (env.mimeTypeForFile (fileName fileInfo)))).emit
              (Event.mimeHandlerLoad (env.mimeTypeForFile (fileName fileInfo))
                (handlerUrl env fileInfo) reply message)) →
          (outcome.1 = true → load env error fileInfo request reply message s = outcome.2)
          ∧ (outcome.1 = false →
              load env error fileInfo request reply message s
                = loadFile env error fileInfo request reply outcome.2))
    ∧ (∀ handled,
        QMap.value env.mimeHandlers (env.mimeTypeForFile (fileName fileInfo))
          = some (MimeHandler.external handled) →
        handled (handlerUrl env fileInfo) request message = true →
        (load env error fileInfo request reply message s).log
          = s.log ++ [Event.callLoad fileInfo reply message, Event.setStatus reply 200,
              Event.setRawHeader reply "Content-Type" (env.mimeTypeForFile (fileName fileInfo)),
              Event.mimeHandlerLoad (env.mimeTypeForFile (fileName fileInfo))
                (handlerUrl env fileInfo) reply message]) := by
  refine ⟨?_, ?_, ?_⟩
  · intro h
    simp only [load, h]
  · intro handler h outcome ho
    subst ho
    constructor
    · intro h1
      simp only [load, h, h1]
      simp
    · intro h1
      simp only [load, h, h1]
      simp
  · intro handled h h1
    simp only [load, h, MimeHandler.load] at h1 ⊢
    simp [h1]

/-- C6: a request on a local root for an existing non-directory file with no
registered Mime Handler, a name not starting with a dot and openable for
reading sets status 200, the Last-Modified header built from the UTC
modification time with the format "ddd, d, MMM yyyy hh:mm:ss UTC", writes the
file's bytes once and closes the reply; the error path is not entered and the
correlation tables are left alone. -/
theorem static_file_served (env : Env) (fuel : Nat) (request : Request) (reply : Nat) (s : State)
    (hlocal : ¬ indexOf (documentRootForRequest env request) "://" > 0)
    (hfile : env.isDir (documentRootForRequest env request ++ request.url.path) = false)
    (hexists : env.fileExists (documentRootForRequest env request ++ request.url.path) = true)
    (hplain : QMap.value env.mimeHandlers
      (env.mimeTypeForFile (fileName (documentRootForRequest env request ++ request.url.path)))
        = none)
    (hdot : startsWith (fileName (documentRootForRequest env request ++ request.url.path)) "."
        = false)
    (hopen : env.canOpen
      (env.absoluteFilePath (documentRootForRequest env request ++ request.url.path)) = true) :
    incomingConnection env fuel request reply s
      = { s with log := s.log ++
          [Event.fileIsDir (documentRootForRequest env request ++ request.url.path),
           Event.fileExists (documentRootForRequest env request ++ request.url.path),
           Event.callLoad (documentRootForRequest env request ++ request.url.path) reply "",
           Event.setStatus reply 200,
           Event.setRawHeader reply "Content-Type"
             (env.mimeTypeForFile
               (fileName (documentRootForRequest env request ++ request.url.path))),
           Event.callLoadFile (documentRootForRequest env request ++ request.url.path) reply,
           Event.fileOpen
             (env.absoluteFilePath (documentRootForRequest env request ++ request.url.path)),
           Event.setRawHeader reply "Last-Modified"
             (env.dateToString
               (env.toUTC
                 (env.lastModified (documentRootForRequest env request ++ request.url.path)))
               "ddd, d, MMM yyyy hh:mm:ss UTC"),
           Event.write reply
             (env.readAll
               (env.absoluteFilePath (documentRootForRequest env request ++ request.url.path))),
           Event.close reply] } := by
  simp only [incomingConnection, if_neg hlocal, hfile, hexists, load, hplain, loadFile, hdot,
    hopen, State.emit]
  simp

theorem static_file_served_witness :
    (incomingConnection Example.staticEnv 0 (Example.get "/hello.txt") 3 State.initial).log
      = [Event.fileIsDir "/srv/www/hello.txt",
         Event.fileExists "/srv/www/hello.txt",
         Event.callLoad "/srv/www/hello.txt" 3 "",
         Event.setStatus 3 200,
         Event.setRawHeader 3 "Content-Type" "text/plain",
         Event.callLoadFile "/srv/www/hello.txt" 3,
         Event.fileOpen "/srv/www/hello.txt",
         Event.setRawHeader 3 "Last-Modified" "1351728000 as ddd, d, MMM yyyy hh:mm:ss UTC",
         Event.write 3 "contents of /srv/www/hello.txt",
         Event.close 3] :=
  congrArg State.log
    (static_file_served Example.staticEnv 0 (Example.get "/hello.txt") 3 State.initial
      (by decide) (by decide) (by decide) rfl (by decide) (by decide))

theorem error_succ_head (env : Env) (fuel : Nat) (st : Int) (request : Request) (reply : Nat)
    (message : String) (s : State) :
    ∃ rest, (error env (fuel + 1) st request reply message s).log
      = s.log ++ [Event.callError st reply message] ++ rest := by
  obtain ⟨rest, hr⟩ := error_succ_log env fuel st request reply message s
  exact ⟨[Event.fileExists (errorDocument (documentRootForRequest env request) st),
          Event.callLoad (selectedErrorDocument env request st) reply message,
          Event.setStatus reply 200,
          Event.setRawHeader reply "Content-Type"
            (env.mimeTypeForFile (fileName (selectedErrorDocument env request st)))] ++ rest,
    by rw [hr]; simp⟩

/-- C8: for a remote document root incomingConnection consults no file: it
calls loadUrl with the root URL whose path is replaced by the request path.
With no Protocol Handler for the scheme, or one that returns "not handled",
the outcome is error 403 with the request URL as message; a handler that
handles the request ends the router's work. -/
theorem remote_root_delegates (env : Env) (fuel : Nat) (request : Request) (reply : Nat)
    (s : State)
    (hremote : indexOf (documentRootForRequest env request) "://" > 0) :
    (QMap.value env.protocolHandlers (env.parseUrl (documentRootForRequest env request)).scheme
        = none →
      incomingConnection env fuel request reply s
        = error env fuel 403 request reply (env.urlToString request.url)
            (s.emit (Event.callLoadUrl
              ((env.parseUrl (documentRootForRequest env request)).setPath request.url.path)
              reply)))
    ∧ (∀ handler,
        QMap.value env.protocolHandlers (env.parseUrl (documentRootForRequest env request)).scheme
          = some handler →
        (handler.handled
            ((env.parseUrl (documentRootForRequest env request)).setPath request.url.path)
            request "" = false →
          incomingConnection env fuel request reply s
            = error env fuel 403 request reply (env.urlToString request.url)
                ((s.emit (Event.callLoadUrl
                  ((env.parseUrl (documentRootForRequest env request)).setPath request.url.path)
                  reply)).emit
                  (Event.protocolHandlerLoad
                    (env.parseUrl (documentRootForRequest env request)).scheme
                    ((env.parseUrl (documentRootForRequest env request)).setPath
                      request.url.path)
                    reply "")))
        ∧ (handler.handled
            ((env.parseUrl (documentRootForRequest env request)).setPath request.url.path)
            request "" = true →
          incomingConnection env fuel request reply s
            = (s.emit (Event.callLoadUrl
                  ((env.parseUrl (documentRootForRequest env request)).setPath request.url.path)
                  reply)).emit
                  (Event.protocolHandlerLoad
                    (env.parseUrl (documentRootForRequest env request)).scheme
                    ((env.parseUrl (documentRootForRequest env request)).setPath
                      request.url.path)
                    reply "")))
    ∧ ((∀ handler,
          QMap.value env.protocolHandlers
            (env.parseUrl (documentRootForRequest env request)).scheme = some handler →
          handler.handled
            ((env.parseUrl (documentRootForRequest env request)).setPath request.url.path)
            request "" = false) →
        ∃ consulted rest,
          (incomingConnection env (fuel + 1) request reply s).log
            = s.log ++ [Event.callLoadUrl
                ((env.parseUrl (documentRootForRequest env request)).setPath request.url.path)
                reply] ++ consulted
              ++ [Event.callError 403 reply (env.urlToString request.url)] ++ rest
          ∧ (consulted = [] ∨ consulted = [Event.protocolHandlerLoad
                (env.parseUrl (documentRootForRequest env request)).scheme
                ((env.parseUrl (documentRootForRequest env request)).setPath request.url.path)
                reply ""])) := by
  refine ⟨?_, ?_, ?_⟩
  · intro h
    simp only [incomingConnection, if_pos hremote, loadUrl, Url.setPath] at h ⊢
    simp only [h]
  · intro handler h
    constructor
    · intro h1
      simp only [incomingConnection, if_pos hremote, loadUrl, Url.setPath] at h h1 ⊢
      simp [h, h1]
    · intro h1
      simp only [incomingConnection, if_pos hremote, loadUrl, Url.setPath] at h h1 ⊢
      simp [h, h1]
  · intro hdecl
    cases hv : QMap.value env.protocolHandlers
        (env.parseUrl (documentRootForRequest env request)).scheme with
    | none =>
      obtain ⟨rest, hr⟩ := error_succ_head env fuel 403 request reply (env.urlToString request.url)
        (s.emit (Event.callLoadUrl
          ((env.parseUrl (documentRootForRequest env request)).setPath request.url.path) reply))
      refine ⟨[], rest, ?_, Or.inl rfl⟩
      simp only [incomingConnection, if_pos hremote, loadUrl, Url.setPath] at hv hr ⊢
      simp only [hv]
      rw [hr]; simp
    | some handler =>
      have h1 := hdecl handler hv
      obtain ⟨rest, hr⟩ := error_succ_head env fuel 403 request reply (env.urlToString request.url)
        ((s.emit (Event.callLoadUrl
          ((env.parseUrl (documentRootForRequest env request)).setPath request.url.path)
          reply)).emit
          (Event.protocolHandlerLoad (env.parseUrl (documentRootForRequest env request)).scheme
            ((env.parseUrl (documentRootForRequest env request)).setPath request.url.path)
            reply ""))
      refine ⟨_, rest, ?_, Or.inr rfl⟩
      simp only [incomingConnection, if_pos hremote, loadUrl, Url.setPath] at hv h1 hr ⊢
      simp only [hv, h1, Bool.not_false, if_true]
      rw [hr]; simp

theorem remote_root_delegates_witness :
    incomingConnection Example.staticEnv 1 (Example.getRemote "/key") 0 State.initial
      = error Example.staticEnv 1 403 (Example.getRemote "/key") 0 "http://remote.example/key"
          (State.initial.emit (Event.callLoadUrl ⟨"s3", "bucket", "/key", "", ""⟩ 0)) :=
  (remote_root_delegates Example.staticEnv 1 (Example.getRemote "/key") 0 State.initial
    (by decide)).1 rfl

/-! ## QString::arg and the error documents -/

theorem arg_root (root : String) : arg "%1/errors/%2.qml" root = root ++ "/errors/%2.qml" := by
  rfl

theorem scanPieces_text (pre rest : List Char) (n : Nat) (h : '%' ∉ pre) :
    scanPieces (pre.length + n) (pre ++ rest) = pre.map Piece.text ++ scanPieces n rest := by
  induction pre with
  | nil => simp
  | cons c cs ih =>
    have hc : c ≠ '%' := fun hc => h (by simp [hc])
    have hcs : '%' ∉ cs := fun hcs => h (by simp [hcs])
    have : (c :: cs).length + n = (cs.length + n) + 1 := by simp; omega
    rw [this]
    simp only [List.cons_append, scanPieces, if_neg hc, List.map_cons]
    exact congrArg _ (ih hcs)

theorem lowestMarker_text (pre : List Char) (ps : List Piece) :
    lowestMarker (pre.map Piece.text ++ ps) = lowestMarker ps := by
  induction pre with
  | nil => rfl
  | cons c cs ih => simpa [lowestMarker] using ih

theorem fillPieces_text (n : Nat) (a pre : List Char) (ps : List Piece) :
    fillPieces n a (pre.map Piece.text ++ ps) = pre ++ fillPieces n a ps := by
  induction pre with
  | nil => rfl
  | cons c cs ih => simpa [fillPieces] using ih

theorem arg_after_root (root a : String) (h : '%' ∉ root.data) :
    arg (root ++ "/errors/%2.qml") a = root ++ "/errors/" ++ a ++ ".qml" := by
  have hs : scanPieces (root ++ "/errors/%2.qml").data.length (root ++ "/errors/%2.qml").data
      = root.data.map Piece.text ++ scanPieces 14 "/errors/%2.qml".data := by
    have : (root ++ "/errors/%2.qml").data = root.data ++ "/errors/%2.qml".data := rfl
    rw [this, List.length_append]
    exact scanPieces_text root.data _ 14 h
  unfold arg
  rw [hs, lowestMarker_text]
  have hl : lowestMarker (scanPieces 14 "/errors/%2.qml".data) = some 2 := by decide
  rw [hl]
  simp only [fillPieces_text]
  have hf : fillPieces 2 a.data (scanPieces 14 "/errors/%2.qml".data)
      = "/errors/".data ++ (a.data ++ ".qml".data) := rfl
  rw [hf]
  apply String.ext
  simp only [String.data_append, List.append_assoc]

theorem errorDocument_plain (root : String) (st : Int) (h : '%' ∉ root.data) :
    errorDocument root st = root ++ "/errors/" ++ toString st ++ ".qml" := by
  unfold errorDocument argInt
  rw [arg_root, arg_after_root root _ h]

theorem defaultErrorDocument_plain (st : Int) :
    defaultErrorDocument st = ":/errors/" ++ toString st ++ ".qml" := rfl

/-- C9, the failing input: with the document root "/srv/%1" the second `arg`
call replaces the marker inside the root, so error asks for the file
"/srv/404/errors/%2.qml" and, although the per-root document
"/srv/%1/errors/404.qml" exists, loads the built-in default. -/
theorem error_document_marker_root :
    Example.markerEnv.fileExists "/srv/%1/errors/404.qml" = true
    ∧ documentRootForRequest Example.markerEnv (Example.get "/nothing") = "/srv/%1"
    ∧ (error Example.markerEnv 1 404 (Example.get "/nothing") 0 "http://example.org/nothing"
        State.initial).log.take 3
      = [Event.callError 404 0 "http://example.org/nothing",
         Event.fileExists "/srv/404/errors/%2.qml",
         Event.callLoad ":/errors/404.qml" 0 "http://example.org/nothing"] := by
  decide

/-- X1: when the resolved document root holds no percent sign, error calls
load once, on "<root>/errors/<status>.qml" when that file exists and on
":/errors/<status>.qml" otherwise, passing the message on unchanged. -/
theorem error_loads_error_document (env : Env) (fuel : Nat) (st : Int) (request : Request)
    (reply : Nat) (message : String) (s : State)
    (hroot : '%' ∉ (documentRootForRequest env request).data) :
    (env.fileExists (documentRootForRequest env request ++ "/errors/" ++ toString st ++ ".qml")
        = true →
      error env (fuel + 1) st request reply message s
        = load env (error env fuel)
            (documentRootForRequest env request ++ "/errors/" ++ toString st ++ ".qml")
            request reply message
            ((s.emit (Event.callError st reply message)).emit
              (Event.fileExists
                (documentRootForRequest env request ++ "/errors/" ++ toString st ++ ".qml"))))
    ∧ (env.fileExists (documentRootForRequest env request ++ "/errors/" ++ toString st ++ ".qml")
        = false →
      error env (fuel + 1) st request reply message s
        = load env (error env fuel) (":/errors/" ++ toString st ++ ".qml") request reply message
            ((s.emit (Event.callError st reply message)).emit
              (Event.fileExists
                (documentRootForRequest env request ++ "/errors/" ++ toString st ++ ".qml")))) := by
  constructor
  · intro h
    simp only [error, errorDocument_plain _ st hroot, h, if_true]
  · intro h
    simp only [error, errorDocument_plain _ st hroot, h, defaultErrorDocument_plain]
    simp

theorem error_loads_error_document_witness :
    error Example.staticEnv 1 404 (Example.get "/missing.txt") 0 "not here" State.initial
      = load Example.staticEnv (error Example.staticEnv 0) "/srv/www/errors/404.qml"
          (Example.get "/missing.txt") 0 "not here"
          ((State.initial.emit (Event.callError 404 0 "not here")).emit
            (Event.fileExists "/srv/www/errors/404.qml")) :=
  (error_loads_error_document Example.staticEnv 0 404 (Example.get "/missing.txt") 0 "not here"
    State.initial (by decide)).1 (by decide)

/-! ## The QML handler's file-name conventions -/

/-- C10: for a non-empty file name QmlHandler::load returns false exactly when
the first character is upper case; it then returns the state untouched (no
component, no error signal, no correlation entry), and the router goes on to
loadFile. -/
theorem qmlHandler_load_declines_upper (env : Env) (error : ErrorFn) (fileInfo : String)
    (request : Request) (reply : Nat) (message : String) (s : State) (c : Char)
    (rest : List Char) (hname : (fileName fileInfo).data = c :: rest) :
    ((QmlHandler.load env error fileInfo request reply message s).1 = false
        ↔ env.isUpper c = true)
    ∧ ((QmlHandler.load env error fileInfo request reply message s).1 = false →
        (QmlHandler.load env error fileInfo request reply message s).2 = s)
    ∧ (∀ file,
        QMap.value env.mimeHandlers (env.mimeTypeForFile (fileName file))
          = some MimeHandler.qml →
        env.fileInfoOfUrl (handlerUrl env file) = fileInfo →
        env.isUpper c = true →
        load env error file request reply message s
          = loadFile env error file request reply
              ((((s.emit (Event.callLoad file reply message)).emit
                (Event.setStatus reply 200)).emit
                (Event.setRawHeader reply "Content-Type"
                  (env.mimeTypeForFile (fileName file)))).emit
                (Event.mimeHandlerLoad (env.mimeTypeForFile (fileName file))
                  (handlerUrl env file) reply message))) := by
  have h1 : (QmlHandler.load env error fileInfo request reply message s).1 = !env.isUpper c := by
    unfold QmlHandler.load
    rw [hname]
    dsimp only
    cases env.isUpper c <;> cases env.isReadable fileInfo <;> simp
  have h2 : env.isUpper c = true →
      (QmlHandler.load env error fileInfo request reply message s).2 = s := by
    intro hu
    unfold QmlHandler.load
    rw [hname]
    simp [hu]
  refine ⟨?_, ?_, ?_⟩
  · rw [h1]; cases env.isUpper c <;> simp
  · intro h
    rw [h1] at h
    exact h2 (by cases hu : env.isUpper c <;> simp [hu] at h ⊢)
  · intro file hq hfi hu
    simp only [load, hq, MimeHandler.load, hfi, QmlHandler.load, hname, hu]
    simp

theorem qmlHandler_load_declines_upper_witness :
    (QmlHandler.load Example.qmlEnv (error Example.qmlEnv 1) "/srv/www/Library.qml"
        (Example.get "/Library.qml") 0 "" State.initial).1 = false
      ↔ Example.qmlEnv.isUpper 'L' = true :=
  (qmlHandler_load_declines_upper Example.qmlEnv (error Example.qmlEnv 1) "/srv/www/Library.qml"
    (Example.get "/Library.qml") 0 "" State.initial 'L' "ibrary.qml".data (by decide)).1

theorem closeCount_snoc (reply : Nat) (log : List Event) (e : Event) :
    closeCount reply (log ++ [e]) = closeCount reply log + (if e = Event.close reply then 1 else 0) := by
  unfold closeCount
  rw [List.count_append]
  by_cases h : e = Event.close reply
  · simp [h]
  · simp [h, List.count_singleton]

theorem closeCount_snoc_other (reply : Nat) (log : List Event) (e : Event)
    (h : ∀ r, e ≠ Event.close r) : closeCount reply (log ++ [e]) = closeCount reply log := by
  rw [closeCount_snoc, if_neg (h reply)]; rfl

theorem AtMostOnce.of_same {s t : State} (h : AtMostOnce s) (hl : t.log = s.log)
    (hc : t.component2reply = s.component2reply) (hh : t.http2reply = s.http2reply) :
    AtMostOnce t := by
  intro r
  have := h r
  simpa [pendingCount, hl, hc, hh] using this

theorem AtMostOnce.emit_other {s : State} {e : Event} (h : AtMostOnce s) (he : ∀ r, e ≠ Event.close r) :
    AtMostOnce (s.emit e) := by
  intro r
  have := h r
  simp only [State.emit_log, closeCount_snoc_other r s.log e he]
  exact this

theorem Free.atMostOnce {reply : Nat} {s : State} (h : Free reply s) : AtMostOnce s := h.1

theorem Free.of_eq {reply : Nat} {s t : State} (h : Free reply s) (hl : t.log = s.log)
    (hc : t.component2reply = s.component2reply) (hh : t.http2reply = s.http2reply) :
    Free reply t := by
  refine ⟨h.1.of_same hl hc hh, ?_, ?_⟩
  · rw [hl]; exact h.2.1
  · simpa [pendingCount, hc, hh] using h.2.2

theorem Free.emit {reply : Nat} {s : State} {e : Event} (h : Free reply s)
    (he : ∀ r, e ≠ Event.close r) : Free reply (s.emit e) := by
  refine ⟨h.1.emit_other he, ?_, h.2.2⟩
  simp only [State.emit_log, closeCount_snoc_other reply s.log e he]
  exact h.2.1

theorem Free.close {reply : Nat} {s : State} (h : Free reply s) :
    AtMostOnce (s.emit (Event.close reply)) := by
  intro r
  simp only [State.emit_log, closeCount_snoc]
  by_cases hr : r = reply
  · subst hr
    have h1 := h.2.1
    have h2 : pendingCount r (s.emit (Event.close r)) = 0 := h.2.2
    simp [h1, h2]
  · have := h.1 r
    have hne : Event.close reply ≠ Event.close r := by
      intro h; injection h with h; exact hr h.symm
    simp only [if_neg hne]
    exact this

/-! QMap counting -/

theorem QMap.countP_remove_le {κ υ : Type} [DecidableEq κ] (p : κ × υ → Bool) (m : QMap κ υ)
    (k : κ) : List.countP p (QMap.remove m k) ≤ List.countP p m := by
  unfold QMap.remove
  induction m with
  | nil => simp
  | cons e rest ih =>
    simp only [List.filter_cons]
    split
    · simp only [List.countP_cons]; omega
    · simp only [List.countP_cons]; omega

theorem QMap.countP_insert_le {κ υ : Type} [DecidableEq κ] (p : κ × υ → Bool) (m : QMap κ υ)
    (k : κ) (v : υ) :
    List.countP p (QMap.insert m k v) ≤ List.countP p m + (if p (k, v) then 1 else 0) := by
  unfold QMap.insert
  simp only [List.countP_cons]
  have := QMap.countP_remove_le p m k
  omega

theorem QMap.countP_remove_pointer {κ υ : Type} [DecidableEq κ] [DecidableEq υ]
    (m : QMap κ (Option υ)) (k : κ) (v : υ) (h : QMap.pointer m k = some v) :
    List.countP (fun e => decide (e.2 = some v)) (QMap.remove m k) + 1
      ≤ List.countP (fun e => decide (e.2 = some v)) m := by
  induction m with
  | nil => simp [QMap.pointer, QMap.value] at h
  | cons e rest ih =>
    unfold QMap.pointer QMap.value at h
    by_cases hk : e.1 = k
    · simp only [hk, if_true, Option.getD_some] at h
      have := QMap.countP_remove_le (fun e : κ × Option υ => decide (e.2 = some v)) rest k
      simp only [QMap.remove, List.filter_cons, hk, decide_True, Bool.not_true,
        List.countP_cons, h] at this ⊢
      simp
      omega
    · simp only [hk, if_false] at h
      have := ih h
      simp only [QMap.remove, List.filter_cons, hk, decide_False, Bool.not_false,
        List.countP_cons, if_true] at this ⊢
      omega

theorem QMap.value_insert_self {κ υ : Type} [DecidableEq κ] (m : QMap κ υ) (k : κ) (v : υ) :
    QMap.value (QMap.insert m k v) k = some v := by
  simp [QMap.insert, QMap.value]


/-! Invariant: table updates -/

theorem AtMostOnce.of_le {s t : State} (h : AtMostOnce s) (hl : t.log = s.log)
    (hp : ∀ r, pendingCount r t ≤ pendingCount r s) : AtMostOnce t := by
  intro r
  have h1 := h r
  have h2 := hp r
  rw [hl]
  omega

theorem Free.of_take_http {s t : State} {reply k : Nat} (h : AtMostOnce s)
    (hp : QMap.pointer s.http2reply k = some reply) (hl : t.log = s.log)
    (hc : t.component2reply = s.component2reply)
    (hh : t.http2reply = QMap.remove s.http2reply k) : Free reply t := by
  have hle : ∀ r, pendingCount r t ≤ pendingCount r s := by
    intro r
    unfold pendingCount
    rw [hc, hh]
    have := QMap.countP_remove_le (fun e : Nat × Option Nat => decide (e.2 = some r))
      s.http2reply k
    omega
  have h1 := h reply
  have h2 := QMap.countP_remove_pointer s.http2reply k reply hp
  have h3 : pendingCount reply t + 1 ≤ pendingCount reply s := by
    unfold pendingCount
    rw [hc, hh]
    omega
  refine ⟨h.of_le hl hle, ?_, ?_⟩
  · rw [hl]; omega
  · omega

theorem Free.of_take_component {s t : State} {reply k : Nat} (h : AtMostOnce s)
    (hp : QMap.pointer s.component2reply k = some reply) (hl : t.log = s.log)
    (hc : t.component2reply = QMap.remove s.component2reply k)
    (hh : t.http2reply = s.http2reply) : Free reply t := by
  have hle : ∀ r, pendingCount r t ≤ pendingCount r s := by
    intro r
    unfold pendingCount
    rw [hc, hh]
    have := QMap.countP_remove_le (fun e : Nat × Option Nat => decide (e.2 = some r))
      s.component2reply k
    omega
  have h1 := h reply
  have h2 := QMap.countP_remove_pointer s.component2reply k reply hp
  have h3 : pendingCount reply t + 1 ≤ pendingCount reply s := by
    unfold pendingCount
    rw [hc, hh]
    omega
  refine ⟨h.of_le hl hle, ?_, ?_⟩
  · rw [hl]; omega
  · omega

theorem Free.hold_component {s t : State} {reply k : Nat} (h : Free reply s)
    (hl : t.log = s.log)
    (hc : t.component2reply = QMap.insert s.component2reply k (some reply))
    (hh : t.http2reply = s.http2reply) : AtMostOnce t := by
  intro r
  have h1 := h.1 r
  have h2 := QMap.countP_insert_le (fun e : Nat × Option Nat => decide (e.2 = some r))
    s.component2reply k (some reply)
  unfold pendingCount at h1 ⊢
  rw [hl, hc, hh]
  by_cases hr : reply = r
  · subst hr
    have h3 := h.2.1
    have h4 := h.2.2
    unfold pendingCount at h4
    simp only [decide_True, if_true] at h2
    omega
  · have : (some reply = some r) = False := by simp [hr]
    simp only [this, decide_False] at h2
    simp at h2
    omega

theorem Free.hold_http {s t : State} {reply k : Nat} (h : Free reply s)
    (hl : t.log = s.log)
    (hc : t.component2reply = s.component2reply)
    (hh : t.http2reply = QMap.insert s.http2reply k (some reply)) : AtMostOnce t := by
  intro r
  have h1 := h.1 r
  have h2 := QMap.countP_insert_le (fun e : Nat × Option Nat => decide (e.2 = some r))
    s.http2reply k (some reply)
  unfold pendingCount at h1 ⊢
  rw [hl, hc, hh]
  by_cases hr : reply = r
  · subst hr
    have h3 := h.2.1
    have h4 := h.2.2
    unfold pendingCount at h4
    simp only [decide_True, if_true] at h2
    omega
  · have : (some reply = some r) = False := by simp [hr]
    simp only [this, decide_False] at h2
    simp at h2
    omega

theorem AtMostOnce.hold_null {s t : State} (h : AtMostOnce s) (hl : t.log = s.log)
    (hch : (∃ k, t.component2reply = QMap.insert s.component2reply k none
              ∧ t.http2reply = s.http2reply)
          ∨ (∃ k, t.http2reply = QMap.insert s.http2reply k none
              ∧ t.component2reply = s.component2reply)) : AtMostOnce t := by
  refine h.of_le hl ?_
  intro r
  unfold pendingCount
  rcases hch with ⟨k, hc, hh⟩ | ⟨k, hh, hc⟩
  · rw [hc, hh]
    have h2 := QMap.countP_insert_le (fun e : Nat × Option Nat => decide (e.2 = some r))
      s.component2reply k none
    simp at h2
    omega
  · rw [hc, hh]
    have h2 := QMap.countP_insert_le (fun e : Nat × Option Nat => decide (e.2 = some r))
      s.http2reply k none
    simp at h2
    omega


/-! Invariant: the handler -/

theorem writeHeaders_free (env : Env) (rp : Nat) (header : List (String × Variant))
    (reply : Nat) (s : State) (h : Free reply s) :
    Free reply (QmlHandler.writeHeaders env rp header s) := by
  unfold QmlHandler.writeHeaders
  generalize QMap.keys header = ks
  induction ks generalizing s with
  | nil => exact h
  | cons k ks ih =>
    simp only [List.foldl_cons]
    exact ih _ (h.emit (by intro r h; cases h))

theorem close_atMostOnce (env : Env) (http : HttpObject) (s : State) (h : AtMostOnce s) :
    AtMostOnce (QmlHandler.close env http s) := by
  unfold QmlHandler.close
  split
  · dsimp only
    cases hp : QMap.pointer s.http2reply http.id with
    | none =>
      dsimp only
      refine AtMostOnce.emit_other (h.of_le rfl ?_) (by intro r h; cases h)
      intro r
      unfold pendingCount
      have := QMap.countP_remove_le (fun e : Nat × Option Nat => decide (e.2 = some r))
        s.http2reply http.id
      dsimp only
      omega
    | some rp =>
      dsimp only
      have hf : Free rp { s with http2request := QMap.remove s.http2request http.id,
                                 http2reply := QMap.remove s.http2reply http.id } :=
        Free.of_take_http h hp rfl rfl rfl
      have hx := (writeHeaders_free env rp http.responseHeader rp _
        (hf.emit (e := Event.setStatus rp http.status) (by intro r h; cases h))).emit
        (e := Event.setCookies rp (QmlHandler.wireCookies env http.responseCookies))
        (by intro r h; cases h)
      split
      · exact hx.atMostOnce.emit_other (by intro r h; cases h)
      · refine AtMostOnce.emit_other (Free.close ?_) (by intro r h; cases h)
        split
        · exact hx.emit (by intro r h; cases h)
        · exact hx
  · exact h.emit_other (by intro r h; cases h)

theorem emitError_atMostOnce (env : Env) (error : ErrorFn) (herr : ErrorOk error) (st : Int)
    (request : Option Request) (reply : Nat) (message : String) (s : State)
    (h : Free reply s) :
    AtMostOnce (QmlHandler.emitError env error st request (some reply) message s) := by
  unfold QmlHandler.emitError
  dsimp only
  split
  · split
    · rename_i rq rp heq1 heq2
      injection heq2 with heq2
      subst heq2
      exact herr _ _ _ _ _ (h.emit (by intro r h; cases h))
    · exact (h.emit (by intro r h; cases h)).atMostOnce.emit_other (by intro r h; cases h)
  · exact (h.emit (by intro r h; cases h)).atMostOnce

theorem emitError_null_atMostOnce (env : Env) (error : ErrorFn) (st : Int)
    (request : Option Request) (message : String) (s : State) (h : AtMostOnce s) :
    AtMostOnce (QmlHandler.emitError env error st request none message s) := by
  unfold QmlHandler.emitError
  dsimp only
  split
  · split
    · rename_i rq rp heq1 heq2
      cases heq2
    · exact (h.emit_other (by intro r h; cases h)).emit_other (by intro r h; cases h)
  · exact h.emit_other (by intro r h; cases h)

theorem exec_atMostOnce (env : Env) (error : ErrorFn) (herr : ErrorOk error)
    (component : Component) (request : Option Request) (reply : Nat) (message : String)
    (s : State) (h : Free reply s) :
    AtMostOnce (QmlHandler.exec env error component request (some reply) message s) := by
  unfold QmlHandler.exec
  split
  · exact h.atMostOnce
  · exact emitError_atMostOnce env error herr 500 request reply _ s h
  · exact AtMostOnce.emit_other (h.hold_component rfl rfl rfl) (by intro r h; cases h)
  · split
    · exact (h.emit (by intro r h; cases h)).atMostOnce.emit_other (by intro r h; cases h)
    · dsimp only
      have h1 : Free reply ({ s with nextObject := s.nextObject + 1 }.emit
          (Event.create component.id (some s.nextObject))) :=
        (h.of_eq rfl rfl rfl).emit (by intro r h; cases h)
      have h2 : Free reply (if (!env.cacheQml) = true then
          ({ s with nextObject := s.nextObject + 1 }.emit
            (Event.create component.id (some s.nextObject))).emit
            (Event.connect Signal.httpDestroyed s.nextObject)
          else { s with nextObject := s.nextObject + 1 }.emit
            (Event.create component.id (some s.nextObject))) := by
        split
        · exact h1.emit (by intro r h; cases h)
        · exact h1
      split
      · exact h2.atMostOnce.emit_other (by intro r h; cases h)
      · split
        · exact close_atMostOnce env _ _ (h2.hold_http rfl rfl rfl)
        · exact AtMostOnce.emit_other (h2.hold_http rfl rfl rfl) (by intro r h; cases h)


theorem exec_null_atMostOnce (env : Env) (error : ErrorFn)
    (component : Component) (request : Option Request) (message : String)
    (s : State) (h : AtMostOnce s) :
    AtMostOnce (QmlHandler.exec env error component request none message s) := by
  unfold QmlHandler.exec
  split
  · exact h
  · exact emitError_null_atMostOnce env error 500 request _ s h
  · exact AtMostOnce.emit_other (h.hold_null rfl (Or.inl ⟨_, rfl, rfl⟩)) (by intro r h; cases h)
  · split
    · exact (h.emit_other (by intro r h; cases h)).emit_other (by intro r h; cases h)
    · dsimp only
      have h1 : AtMostOnce ({ s with nextObject := s.nextObject + 1 }.emit
          (Event.create component.id (some s.nextObject))) :=
        (h.of_same rfl rfl rfl).emit_other (by intro r h; cases h)
      have h2 : AtMostOnce (if (!env.cacheQml) = true then
          ({ s with nextObject := s.nextObject + 1 }.emit
            (Event.create component.id (some s.nextObject))).emit
            (Event.connect Signal.httpDestroyed s.nextObject)
          else { s with nextObject := s.nextObject + 1 }.emit
            (Event.create component.id (some s.nextObject))) := by
        split
        · exact h1.emit_other (by intro r h; cases h)
        · exact h1
      split
      · exact h2.emit_other (by intro r h; cases h)
      · split
        · exact close_atMostOnce env _ _ (h2.hold_null rfl (Or.inr ⟨_, rfl, rfl⟩))
        · exact AtMostOnce.emit_other (h2.hold_null rfl (Or.inr ⟨_, rfl, rfl⟩))
            (by intro r h; cases h)

theorem qmlHandler_load_atMostOnce (env : Env) (error : ErrorFn) (herr : ErrorOk error)
    (fileInfo : String) (request : Request) (reply : Nat) (message : String) (s : State)
    (h : Free reply s) :
    AtMostOnce (QmlHandler.load env error fileInfo request reply message s).2 := by
  unfold QmlHandler.load QmlHandler.Private.load
  split
  · exact h.atMostOnce.emit_other (by intro r h; cases h)
  · split
    · exact h.atMostOnce
    · dsimp only
      split
      · exact emitError_atMostOnce env error herr 403 _ reply _ _
          (h.emit (by intro r h; cases h))
      · apply exec_atMostOnce env error herr
        exact ((Free.of_eq (h.emit (by intro r h; cases h)) rfl rfl rfl).emit
          (by intro r h; cases h)).emit (by intro r h; cases h)

theorem mimeHandler_declined (env : Env) (error : ErrorFn) (handler : MimeHandler) (url : Url)
    (request : Request) (reply : Nat) (message : String) (s : State)
    (h : (MimeHandler.load env error handler url request reply message s).1 = false) :
    (MimeHandler.load env error handler url request reply message s).2 = s := by
  unfold MimeHandler.load at h ⊢
  split at h
  · unfold QmlHandler.load at h ⊢
    split at h
    · simp at h
    · split at h
      · rename_i c rest heq hu
        simp only [heq, hu, if_true]
      · split at h <;> simp at h
  · rfl

theorem mimeHandler_load_atMostOnce (env : Env) (error : ErrorFn) (herr : ErrorOk error)
    (handler : MimeHandler) (url : Url) (request : Request) (reply : Nat) (message : String)
    (s : State) (h : Free reply s) :
    AtMostOnce (MimeHandler.load env error handler url request reply message s).2 := by
  unfold MimeHandler.load
  split
  · exact qmlHandler_load_atMostOnce env error herr _ request reply message s h
  · exact h.atMostOnce

theorem loadFile_atMostOnce (env : Env) (error : ErrorFn) (herr : ErrorOk error)
    (fileInfo : String) (request : Request) (reply : Nat) (s : State) (h : Free reply s) :
    AtMostOnce (loadFile env error fileInfo request reply s) := by
  unfold loadFile
  dsimp only
  split
  · exact herr _ _ _ _ _ (h.emit (by intro r h; cases h))
  · split
    · exact Free.close
        ((((h.emit (by intro r h; cases h)).emit (by intro r h; cases h)).emit
          (by intro r h; cases h)).emit (by intro r h; cases h))
    · exact herr _ _ _ _ _
        ((h.emit (by intro r h; cases h)).emit (by intro r h; cases h))

theorem server_load_atMostOnce (env : Env) (error : ErrorFn) (herr : ErrorOk error)
    (fileInfo : String) (request : Request) (reply : Nat) (message : String) (s : State)
    (h : Free reply s) :
    AtMostOnce (load env error fileInfo request reply message s) := by
  unfold load
  dsimp only
  have h3 : Free reply (((s.emit (Event.callLoad fileInfo reply message)).emit
      (Event.setStatus reply 200)).emit
      (Event.setRawHeader reply "Content-Type" (env.mimeTypeForFile (fileName fileInfo)))) :=
    ((h.emit (by intro r h; cases h)).emit (by intro r h; cases h)).emit
      (by intro r h; cases h)
  split
  · rename_i handler heq
    have h4 := h3.emit (e := Event.mimeHandlerLoad (env.mimeTypeForFile (fileName fileInfo))
      (handlerUrl env fileInfo) reply message) (by intro r h; cases h)
    split
    · rename_i hd
      rw [mimeHandler_declined env error handler _ request reply message _ (by simpa using hd)]
      exact loadFile_atMostOnce env error herr fileInfo request reply _ h4
    · exact mimeHandler_load_atMostOnce env error herr handler _ request reply message _ h4
  · exact loadFile_atMostOnce env error herr fileInfo request reply _ h3

theorem loadUrl_atMostOnce (env : Env) (error : ErrorFn) (herr : ErrorOk error)
    (url : Url) (request : Request) (reply : Nat) (message : String) (s : State)
    (h : Free reply s) :
    AtMostOnce (loadUrl env error url request reply message s) := by
  unfold loadUrl
  dsimp only
  split
  · split
    · exact herr _ _ _ _ _ ((h.emit (by intro r h; cases h)).emit (by intro r h; cases h))
    · exact ((h.emit (by intro r h; cases h)).emit (by intro r h; cases h)).atMostOnce
  · exact herr _ _ _ _ _ (h.emit (by intro r h; cases h))

theorem error_ok (env : Env) (fuel : Nat) : ErrorOk (error env fuel) := by
  induction fuel with
  | zero =>
    intro st rq rp m s h
    exact h.atMostOnce.emit_other (by intro r h; cases h)
  | succ n ih =>
    intro st rq rp m s h
    unfold error
    dsimp only
    split
    · exact server_load_atMostOnce env _ ih _ rq rp m _
        ((h.emit (by intro r h; cases h)).emit (by intro r h; cases h))
    · exact server_load_atMostOnce env _ ih _ rq rp m _
        ((h.emit (by intro r h; cases h)).emit (by intro r h; cases h))

theorem incomingConnection_atMostOnce (env : Env) (fuel : Nat) (request : Request) (reply : Nat)
    (s : State) (h : Free reply s) :
    AtMostOnce (incomingConnection env fuel request reply s) := by
  unfold incomingConnection
  dsimp only
  split
  · exact loadUrl_atMostOnce env _ (error_ok env fuel) _ request reply "" s h
  · split
    · split
      · split
        · exact server_load_atMostOnce env _ (error_ok env fuel) _ request reply "" _
            ((h.emit (by intro r h; cases h)).emit (by intro r h; cases h))
        · exact error_ok env fuel _ _ _ _ _
            ((h.emit (by intro r h; cases h)).emit (by intro r h; cases h))
      · exact error_ok env fuel _ _ _ _ _ (h.emit (by intro r h; cases h))
    · split
      · exact server_load_atMostOnce env _ (error_ok env fuel) _ request reply "" _
          ((h.emit (by intro r h; cases h)).emit (by intro r h; cases h))
      · exact error_ok env fuel _ _ _ _ _
          ((h.emit (by intro r h; cases h)).emit (by intro r h; cases h))


/-! Invariant: the notifications -/

theorem statusChanged_atMostOnce (env : Env) (error : ErrorFn) (herr : ErrorOk error)
    (component : Component) (s : State) (h : AtMostOnce s) :
    AtMostOnce (QmlHandler.statusChanged env error component s) := by
  unfold QmlHandler.statusChanged
  dsimp only
  cases hp : QMap.pointer s.component2reply component.id with
  | none =>
    apply exec_null_atMostOnce
    refine h.of_le rfl ?_
    intro r
    unfold pendingCount
    have := QMap.countP_remove_le (fun e : Nat × Option Nat => decide (e.2 = some r))
      s.component2reply component.id
    dsimp only
    omega
  | some rp =>
    apply exec_atMostOnce env error herr
    exact Free.of_take_component h hp rfl rfl rfl

theorem componentDestroyed_atMostOnce (object : Nat) (s : State) (h : AtMostOnce s) :
    AtMostOnce (QmlHandler.componentDestroyed object s) := by
  have key : ∀ t : State, t.log = s.log →
      (∀ r, pendingCount r t ≤ pendingCount r s) → AtMostOnce t :=
    fun t hl hp => h.of_le hl hp
  have hrem : ∀ (r : Nat) (m : QMap Nat (Option Nat)) (k : Nat),
      List.countP (fun e : Nat × Option Nat => decide (e.2 = some r)) (QMap.remove m k)
        ≤ List.countP (fun e : Nat × Option Nat => decide (e.2 = some r)) m :=
    fun r m k => QMap.countP_remove_le _ m k
  unfold QmlHandler.componentDestroyed
  dsimp only
  cases hv : QMap.value s.component2http object with
  | none =>
    by_cases h1 : QMap.contains s.component2request object = true <;>
    by_cases h2 : QMap.contains s.component2reply object = true <;>
    by_cases h3 : QMap.contains s.component2message object = true <;>
    by_cases h4 : QMap.contains s.component2http object = true <;>
    simp only [h1, h2, h3, h4, hv, if_true, if_false, Bool.false_eq_true] <;>
    apply key <;>
    first
      | rfl
      | (intro r
         unfold pendingCount
         try dsimp only
         have a1 := hrem r s.component2reply object
         omega)
  | some http =>
    by_cases h1 : QMap.contains s.component2request object = true <;>
    by_cases h2 : QMap.contains s.component2reply object = true <;>
    by_cases h3 : QMap.contains s.component2message object = true <;>
    by_cases h4 : QMap.contains s.component2http object = true <;>
    simp only [h1, h2, h3, h4, hv, if_true, if_false, Bool.false_eq_true] <;>
    apply key <;>
    first
      | rfl
      | (intro r
         unfold pendingCount
         try dsimp only
         have a1 := hrem r s.component2reply object
         have a2 := hrem r s.http2reply http
         omega)

theorem deliver_atMostOnce (env : Env) (fuel : Nat) (n : Notification) (s : State)
    (h : AtMostOnce s) : AtMostOnce (deliver env fuel n s) := by
  cases n with
  | statusChanged component =>
    exact statusChanged_atMostOnce env _ (error_ok env fuel) component s h
  | loadingChanged http loading =>
    simp only [deliver, QmlHandler.loadingChanged]
    split
    · exact close_atMostOnce env http s h
    · exact h
  | componentDestroyed object => exact componentDestroyed_atMostOnce object s h
  | clearQmlCache => exact h.emit_other (by intro r h; cases h)

theorem deliverAll_atMostOnce (env : Env) (fuel : Nat) (ns : List Notification) (s : State)
    (h : AtMostOnce s) : AtMostOnce (deliverAll env fuel ns s) := by
  unfold deliverAll
  induction ns generalizing s with
  | nil => exact h
  | cons n ns ih => exact ih _ (deliver_atMostOnce env fuel n s h)

theorem closeCount_le_one {s : State} (h : AtMostOnce s) (reply : Nat) :
    closeCount reply s.log ≤ 1 := by
  have := h reply
  omega

theorem never_closed_twice (env : Env) (fuel fuel2 : Nat) (request : Request) (reply : Nat)
    (s : State) (h : Free reply s) (ns : List Notification) :
    closeCount reply
      (deliverAll env fuel2 ns (incomingConnection env fuel request reply s)).log ≤ 1 :=
  closeCount_le_one
    (deliverAll_atMostOnce env fuel2 ns _ (incomingConnection_atMostOnce env fuel request reply s h))
    reply

/-! ## Every reply is closed exactly once on the completing paths -/

@[simp] theorem closeCount_emit_other (reply : Nat) (s : State) (e : Event)
    (h : ∀ r, e ≠ Event.close r) : closeCount reply (s.emit e).log = closeCount reply s.log :=
  closeCount_snoc_other reply s.log e h

theorem closeCount_emit_close (reply : Nat) (s : State) :
    closeCount reply (s.emit (Event.close reply)).log = closeCount reply s.log + 1 := by
  rw [State.emit_log, closeCount_snoc, if_pos rfl]

theorem writeHeaders_closeCount (env : Env) (rp : Nat) (header : List (String × Variant))
    (reply : Nat) (s : State) :
    closeCount reply (QmlHandler.writeHeaders env rp header s).log = closeCount reply s.log := by
  unfold QmlHandler.writeHeaders
  generalize QMap.keys header = ks
  induction ks generalizing s with
  | nil => rfl
  | cons k ks ih =>
    simp only [List.foldl_cons]
    rw [ih, closeCount_emit_other _ _ _ (by intro r h; cases h)]

theorem load_served_statically (env : Env) (error : ErrorFn) (file : String) (request : Request)
    (reply : Nat) (message : String) (s : State) (h : ServedStatically env file) :
    closeCount reply (load env error file request reply message s).log
      = closeCount reply s.log + 1 := by
  obtain ⟨h1, h2, h3⟩ := h
  simp only [load, h1, loadFile, h2, h3, if_true, Bool.false_eq_true, if_false]
  rw [closeCount_emit_close]
  repeat rw [closeCount_emit_other _ _ _ (by intro r h; cases h)]

theorem load_refused_statically (env : Env) (error : ErrorFn) (file : String)
    (request : Request) (reply : Nat) (message : String) (s : State)
    (h : RefusedStatically env file) :
    ∃ t, load env error file request reply message s
        = error 403 request reply (env.urlToString request.url) t
      ∧ closeCount reply t.log = closeCount reply s.log := by
  obtain ⟨h1, h2⟩ := h
  by_cases hd : startsWith (fileName file) "." = true
  · refine ⟨((((s.emit (Event.callLoad file reply message)).emit (Event.setStatus reply 200)).emit
        (Event.setRawHeader reply "Content-Type" (env.mimeTypeForFile (fileName file)))).emit
        (Event.callLoadFile file reply)), ?_, ?_⟩
    · simp only [load, h1, loadFile, hd, if_true]
    · repeat rw [closeCount_emit_other _ _ _ (by intro r h; cases h)]
  · have h3 : env.canOpen (env.absoluteFilePath file) = false := by
      rcases h2 with h2 | h2
      · exact absurd h2 hd
      · exact h2
    refine ⟨(((((s.emit (Event.callLoad file reply message)).emit
        (Event.setStatus reply 200)).emit
        (Event.setRawHeader reply "Content-Type" (env.mimeTypeForFile (fileName file)))).emit
        (Event.callLoadFile file reply)).emit (Event.fileOpen (env.absoluteFilePath file))),
      ?_, ?_⟩
    · simp only [load, h1, loadFile, hd, h3, if_false, Bool.false_eq_true]
    · repeat rw [closeCount_emit_other _ _ _ (by intro r h; cases h)]

theorem error_served_statically (env : Env) (fuel : Nat) (st : Int) (request : Request)
    (reply : Nat) (message : String) (s : State)
    (h : ServedStatically env (selectedErrorDocument env request st)) :
    closeCount reply (error env (fuel + 1) st request reply message s).log
      = closeCount reply s.log + 1 := by
  unfold selectedErrorDocument at h
  unfold error
  dsimp only
  split
  · rename_i hex
    rw [if_pos hex] at h
    rw [load_served_statically env _ _ request reply message _ h]
    repeat rw [closeCount_emit_other _ _ _ (by intro r h; cases h)]
  · rename_i hex
    rw [if_neg hex] at h
    rw [load_served_statically env _ _ request reply message _ h]
    repeat rw [closeCount_emit_other _ _ _ (by intro r h; cases h)]

theorem close_present (env : Env) (http : HttpObject) (s : State) (rq : Request) (rp : Nat)
    (h1 : QMap.value s.http2request http.id = some (some rq))
    (h2 : QMap.value s.http2reply http.id = some (some rp)) :
    closeCount rp (QmlHandler.close env http s).log = closeCount rp s.log + 1 := by
  have c1 : QMap.contains s.http2request http.id = true :=
    (QMap.contains_iff_mem_keys _ _).2 (by
      by_contra hn
      rw [QMap.value_of_not_mem_keys _ _ hn] at h1
      cases h1)
  have c2 : QMap.contains s.http2reply http.id = true :=
    (QMap.contains_iff_mem_keys _ _).2 (by
      by_contra hn
      rw [QMap.value_of_not_mem_keys _ _ hn] at h2
      cases h2)
  simp only [QmlHandler.close, c1, c2, Bool.and_self, if_true, QMap.pointer, h1, h2,
    Option.getD_some]
  rw [closeCount_emit_other _ _ _ (by intro r h; cases h), closeCount_emit_close]
  split
  · rw [closeCount_emit_other _ _ _ (by intro r h; cases h),
      closeCount_emit_other _ _ _ (by intro r h; cases h), writeHeaders_closeCount,
      closeCount_emit_other _ _ _ (by intro r h; cases h)]
  · rw [closeCount_emit_other _ _ _ (by intro r h; cases h), writeHeaders_closeCount,
      closeCount_emit_other _ _ _ (by intro r h; cases h)]


theorem exec_ready (env : Env) (error : ErrorFn) (component : Component) (rq : Request)
    (reply : Option Nat) (message : String) (s : State) (created : HttpObject)
    (hst : component.status = ComponentStatus.Ready)
    (hc : env.instantiate component = some created) :
    QmlHandler.exec env error component (some rq) reply message s
      = (if !(QmlHandler.readyObject env created rq message s).loading then
          QmlHandler.close env (QmlHandler.readyObject env created rq message s)
            (QmlHandler.readyState env component rq reply s)
         else (QmlHandler.readyState env component rq reply s).emit
            (Event.connect Signal.httpLoadingChanged s.nextObject)) := by
  simp only [QmlHandler.exec, hst, hc, QmlHandler.readyObject, QmlHandler.readyState]

theorem readyState_closeCount (env : Env) (component : Component) (rq : Request)
    (reply : Option Nat) (s : State) (r : Nat) :
    closeCount r (QmlHandler.readyState env component rq reply s).log = closeCount r s.log := by
  unfold QmlHandler.readyState
  dsimp only
  split
  · rw [closeCount_emit_other _ _ _ (by intro r h; cases h),
      closeCount_emit_other _ _ _ (by intro r h; cases h)]
  · rw [closeCount_emit_other _ _ _ (by intro r h; cases h)]

theorem readyState_request (env : Env) (component : Component) (rq : Request)
    (reply : Option Nat) (s : State) :
    QMap.value (QmlHandler.readyState env component rq reply s).http2request s.nextObject
      = some (some rq) := QMap.value_insert_self _ _ _

theorem readyState_reply (env : Env) (component : Component) (rq : Request)
    (reply : Option Nat) (s : State) :
    QMap.value (QmlHandler.readyState env component rq reply s).http2reply s.nextObject
      = some reply := QMap.value_insert_self _ _ _

theorem qmlHandler_load_executes (env : Env) (error : ErrorFn) (file : String)
    (request : Request) (reply : Nat) (message : String) (s : State)
    (h : ExecutedByQml env file) :
    ∃ (component : Component) (created : HttpObject) (t : State),
      load env error file request reply message s
        = (if !(QmlHandler.readyObject env created request message t).loading then
            QmlHandler.close env (QmlHandler.readyObject env created request message t)
              (QmlHandler.readyState env component request (some reply) t)
           else (QmlHandler.readyState env component request (some reply) t).emit
              (Event.connect Signal.httpLoadingChanged t.nextObject))
      ∧ t.nextObject = s.nextObject + 1
      ∧ closeCount reply t.log = closeCount reply s.log := by
  obtain ⟨h1, ⟨c, rest, hname, hup⟩, hread, hcompile, hinst⟩ := h
  let url : Url :=
    (if startsWith (env.dirPath (env.fileInfoOfUrl (handlerUrl env file))) ":" then
      env.parseUrl (arg "qrc%1" (env.dirPath (env.fileInfoOfUrl (handlerUrl env file))))
    else env.fromLocalFile (env.absoluteDirPath (env.fileInfoOfUrl (handlerUrl env file))))
  let component : Component :=
    { id := s.nextObject,
      url := url.setPath (url.path ++ "/" ++ fileName (env.fileInfoOfUrl (handlerUrl env file))),
      status := (env.compile s.nextObject
        (url.setPath (url.path ++ "/" ++ fileName (env.fileInfoOfUrl (handlerUrl env file))))).1,
      errorString := (env.compile s.nextObject
        (url.setPath (url.path ++ "/" ++ fileName (env.fileInfoOfUrl (handlerUrl env file))))).2 }
  obtain ⟨created, hcr⟩ := Option.isSome_iff_exists.1 (hinst component)
  let t : State :=
    (({ (((((s.emit (Event.callLoad file reply message)).emit (Event.setStatus reply 200)).emit
        (Event.setRawHeader reply "Content-Type" (env.mimeTypeForFile (fileName file)))).emit
        (Event.mimeHandlerLoad (env.mimeTypeForFile (fileName file)) (handlerUrl env file) reply
          message)).emit (Event.fileIsReadable (env.fileInfoOfUrl (handlerUrl env file)))) with
        nextObject := s.nextObject + 1 }.emit (Event.newComponent s.nextObject component.url)).emit
      (Event.connect Signal.componentDestroyed s.nextObject))
  refine ⟨component, created, t, ?_, rfl, ?_⟩
  · have hex := exec_ready env error component request (some reply) message t created
      (hcompile _ _) hcr
    rw [← hex]
    simp only [load, h1, MimeHandler.load, QmlHandler.load, hname, hup, hread,
      QmlHandler.Private.load]
    rfl
  · show closeCount reply (State.emit _ _).log = _
    rw [closeCount_emit_other _ _ _ (by intro r h; cases h)]
    show closeCount reply (State.emit _ _).log = _
    rw [closeCount_emit_other _ _ _ (by intro r h; cases h)]
    show closeCount reply (State.emit _ _).log = _
    repeat rw [closeCount_emit_other _ _ _ (by intro r h; cases h)]


theorem free_initial (reply : Nat) : Free reply State.initial := by
  refine ⟨?_, rfl, rfl⟩
  intro r
  simp [closeCount, pendingCount, State.initial]

theorem locked_error_step (n : Nat) (s : State) :
    error Example.lockedEnv (n + 1) 403 (Example.get "/secret.txt") 0
        "http://example.org/secret.txt" s
      = error Example.lockedEnv n 403 (Example.get "/secret.txt") 0
          "http://example.org/secret.txt"
          (((((((s.emit (Event.callError 403 0 "http://example.org/secret.txt")).emit
            (Event.fileExists "/srv/www/errors/403.qml")).emit
            (Event.callLoad "/srv/www/errors/403.qml" 0 "http://example.org/secret.txt")).emit
            (Event.setStatus 0 200)).emit
            (Event.setRawHeader 0 "Content-Type" "text/x-qml")).emit
            (Event.callLoadFile "/srv/www/errors/403.qml" 0)).emit
            (Event.fileOpen "/srv/www/errors/403.qml")) := by
  rfl

theorem locked_error_loops (n : Nat) (s : State) (h : closeCount 0 s.log = 0) :
    closeCount 0 (error Example.lockedEnv n 403 (Example.get "/secret.txt") 0
        "http://example.org/secret.txt" s).log = 0
    ∧ Event.outOfFuel ∈ (error Example.lockedEnv n 403 (Example.get "/secret.txt") 0
        "http://example.org/secret.txt" s).log := by
  induction n generalizing s with
  | zero =>
    constructor
    · show closeCount 0 (s.emit Event.outOfFuel).log = 0
      rw [closeCount_emit_other _ _ _ (by intro r h; cases h), h]
    · show Event.outOfFuel ∈ (s.emit Event.outOfFuel).log
      simp
  | succ n ih =>
    rw [locked_error_step]
    apply ih
    repeat rw [closeCount_emit_other _ _ _ (by intro r h; cases h)]
    exact h

theorem locked_start (fuel : Nat) :
    incomingConnection Example.lockedEnv fuel (Example.get "/secret.txt") 0 State.initial
      = error Example.lockedEnv fuel 403 (Example.get "/secret.txt") 0
          "http://example.org/secret.txt"
          (((((((State.initial.emit (Event.fileIsDir "/srv/www/secret.txt")).emit
            (Event.fileExists "/srv/www/secret.txt")).emit
            (Event.callLoad "/srv/www/secret.txt" 0 "")).emit
            (Event.setStatus 0 200)).emit
            (Event.setRawHeader 0 "Content-Type" "text/plain")).emit
            (Event.callLoadFile "/srv/www/secret.txt" 0)).emit
            (Event.fileOpen "/srv/www/secret.txt")) := by
  rfl

/-- C1, counterexample: the requested file and the custom 403 page both exist
but cannot be opened.  The static failure re-enters error, which selects the
same unopenable page again: for every amount of fuel the run is cut off inside
nested error calls and close has not been called. -/
theorem unreadable_error_page_never_closes :
    Example.lockedEnv.fileExists "/srv/www/secret.txt" = true
    ∧ Example.lockedEnv.fileExists "/srv/www/errors/403.qml" = true
    ∧ ¬ ∃ fuel,
      closeCount 0
        (incomingConnection Example.lockedEnv fuel (Example.get "/secret.txt") 0
          State.initial).log ≠ 0
      ∨ Event.outOfFuel ∉
        (incomingConnection Example.lockedEnv fuel (Example.get "/secret.txt") 0
          State.initial).log := by
  refine ⟨by decide, by decide, ?_⟩
  rintro ⟨fuel, h⟩
  rw [locked_start] at h
  have := locked_error_loops fuel _ (by decide :
    closeCount 0 (((((((State.initial.emit (Event.fileIsDir "/srv/www/secret.txt")).emit
            (Event.fileExists "/srv/www/secret.txt")).emit
            (Event.callLoad "/srv/www/secret.txt" 0 "")).emit
            (Event.setStatus 0 200)).emit
            (Event.setRawHeader 0 "Content-Type" "text/plain")).emit
            (Event.callLoadFile "/srv/www/secret.txt" 0)).emit
            (Event.fileOpen "/srv/www/secret.txt")).log = 0)
  rcases h with h | h
  · exact h this.1
  · exact h this.2

/-! ## Draining an execution object -/

theorem writeHeaders_log (env : Env) (reply : Nat) (header : List (String × Variant))
    (s : State) :
    QmlHandler.writeHeaders env reply header s
      = { s with log := s.log ++ QmlHandler.headerEvents env reply header } := by
  unfold QmlHandler.writeHeaders QmlHandler.headerEvents
  generalize QMap.keys header = ks
  induction ks generalizing s with
  | nil => simp
  | cons k ks ih =>
    simp only [List.foldl_cons, List.map_cons]
    rw [ih]
    simp [State.emit]

theorem writes_headerEvents (env : Env) (reply rp : Nat) (header : List (String × Variant)) :
    writes reply (QmlHandler.headerEvents env rp header) = [] := by
  unfold writes QmlHandler.headerEvents
  generalize QMap.keys header = ks
  induction ks with
  | nil => rfl
  | cons k ks ih => simp [List.filterMap_cons]

theorem writes_append (reply : Nat) (a b : List Event) :
    writes reply (a ++ b) = writes reply a ++ writes reply b := by
  simp [writes, List.filterMap_append]

theorem closeCount_append (reply : Nat) (a b : List Event) :
    closeCount reply (a ++ b) = closeCount reply a + closeCount reply b := by
  simp [closeCount, List.count_append]

theorem closeCount_headerEvents (env : Env) (reply rp : Nat) (header : List (String × Variant)) :
    closeCount reply (QmlHandler.headerEvents env rp header) = 0 := by
  unfold closeCount QmlHandler.headerEvents
  generalize QMap.keys header = ks
  induction ks with
  | nil => rfl
  | cons k ks ih => simp [List.count_cons, ih]

theorem contains_of_value {κ υ : Type} [DecidableEq κ] (m : QMap κ υ) (k : κ) (v : υ)
    (h : QMap.value m k = some v) : QMap.contains m k = true := by
  rw [QMap.contains_iff_mem_keys]
  by_contra hn
  rw [QMap.value_of_not_mem_keys _ _ hn] at h
  cases h

theorem close_drains (env : Env) (http : HttpObject) (s : State) (rq : Request) (rp : Nat)
    (hrq : QMap.value s.http2request http.id = some (some rq))
    (hrp : QMap.value s.http2reply http.id = some (some rp)) :
    QmlHandler.close env http s
      = { s with
          http2request := QMap.remove s.http2request http.id,
          http2reply := QMap.remove s.http2reply http.id,
          log := s.log ++ [Event.setStatus rp http.status]
            ++ QmlHandler.headerEvents env rp http.responseHeader
            ++ [Event.setCookies rp (QmlHandler.wireCookies env http.responseCookies)]
            ++ (if rq.method = "GET" ∨ rq.method = "POST" then [Event.write rp http.out] else [])
            ++ [Event.close rp, Event.deleteLater http.id] } := by
  have hc1 := contains_of_value _ _ _ hrq
  have hc2 := contains_of_value _ _ _ hrp
  unfold QmlHandler.close
  simp only [hc1, hc2, QMap.pointer, hrq, hrp, Option.getD_some, Bool.and_self, if_true]
  by_cases hm : rq.method = "GET" ∨ rq.method = "POST"
  · simp [hm, writeHeaders_log, State.emit]
  · simp [hm, writeHeaders_log, State.emit]

/-- C11: when close drains an execution object whose two correlation entries
are present (request rq, reply rp), it sets the status, the headers and the
cookies, writes the output bytes to the body exactly when the request method
is "GET" or "POST" and nothing otherwise, and closes the reply. -/
theorem close_writes_body_iff_get_or_post (env : Env) (http : HttpObject) (s : State)
    (rq : Request) (rp : Nat)
    (hrq : QMap.value s.http2request http.id = some (some rq))
    (hrp : QMap.value s.http2reply http.id = some (some rp)) :
    QmlHandler.close env http s
      = { s with
          http2request := QMap.remove s.http2request http.id,
          http2reply := QMap.remove s.http2reply http.id,
          log := s.log ++ [Event.setStatus rp http.status]
            ++ QmlHandler.headerEvents env rp http.responseHeader
            ++ [Event.setCookies rp (QmlHandler.wireCookies env http.responseCookies)]
            ++ (if rq.method = "GET" ∨ rq.method = "POST" then [Event.write rp http.out] else [])
            ++ [Event.close rp, Event.deleteLater http.id] }
    ∧ writes rp (QmlHandler.close env http s).log
      = writes rp s.log ++ (if rq.method = "GET" ∨ rq.method = "POST" then [http.out] else [])
    ∧ closeCount rp (QmlHandler.close env http s).log = closeCount rp s.log + 1 := by
  have heq := close_drains env http s rq rp hrq hrp
  refine ⟨heq, ?_, ?_⟩
  · rw [heq]
    simp only [writes_append, writes_headerEvents]
    by_cases hm : rq.method = "GET" ∨ rq.method = "POST"
    · simp [hm, writes]
    · simp [hm, writes]
  · rw [heq]
    simp only [closeCount_append, closeCount_headerEvents]
    by_cases hm : rq.method = "GET" ∨ rq.method = "POST"
    · simp [hm, closeCount, List.count_cons]
    · simp [hm, closeCount, List.count_cons]

theorem close_writes_body_iff_get_or_post_witness :
    (writes 3 (QmlHandler.close Example.qmlEnv Example.finished
        (Example.draining (Example.head "/page.qml"))).log = []
      ∧ closeCount 3 (QmlHandler.close Example.qmlEnv Example.finished
        (Example.draining (Example.head "/page.qml"))).log = 1)
    ∧ writes 3 (QmlHandler.close Example.qmlEnv Example.finished
        (Example.draining (Example.get "/page.qml"))).log = ["<html>/page.qml</html>"] :=
  ⟨(close_writes_body_iff_get_or_post Example.qmlEnv Example.finished
      (Example.draining (Example.head "/page.qml")) (Example.head "/page.qml") 3 rfl rfl).2,
   (close_writes_body_iff_get_or_post Example.qmlEnv Example.finished
      (Example.draining (Example.get "/page.qml")) (Example.get "/page.qml") 3 rfl rfl).2.1⟩

theorem contains_remove_self {κ υ : Type} [DecidableEq κ] (m : QMap κ υ) (k : κ) :
    QMap.contains (QMap.remove m k) k = false := by
  simp [QMap.contains, QMap.remove]

theorem close_guard_after (env : Env) (http : HttpObject) (s : State) :
    (QMap.contains (QmlHandler.close env http s).http2request http.id
      && QMap.contains (QmlHandler.close env http s).http2reply http.id) = false := by
  by_cases hc : (QMap.contains s.http2request http.id
      && QMap.contains s.http2reply http.id) = true
  · have h1 : (QmlHandler.close env http s).http2request = QMap.remove s.http2request http.id := by
      unfold QmlHandler.close
      simp only [hc, if_true]
      split
      · rfl
      · simp only [writeHeaders_log]
        split
        · rfl
        · split <;> rfl
    rw [h1, contains_remove_self]
    rfl
  · have h1 : QmlHandler.close env http s = s.emit (Event.deleteLater http.id) := by
      unfold QmlHandler.close
      simp only [hc, if_false]
      rfl
    rw [h1]
    simpa [State.emit] using hc

theorem close_tables_in_step (env : Env) (http : HttpObject) (s : State)
    (hsync : QMap.contains s.http2request http.id = QMap.contains s.http2reply http.id) :
    QMap.contains (QmlHandler.close env http s).http2request http.id = false
    ∧ QMap.contains (QmlHandler.close env http s).http2reply http.id = false := by
  by_cases hc : (QMap.contains s.http2request http.id
      && QMap.contains s.http2reply http.id) = true
  · have h1 : (QmlHandler.close env http s).http2request = QMap.remove s.http2request http.id
        ∧ (QmlHandler.close env http s).http2reply = QMap.remove s.http2reply http.id := by
      unfold QmlHandler.close
      simp only [hc, if_true]
      split
      · exact ⟨rfl, rfl⟩
      · simp only [writeHeaders_log]
        split
        · exact ⟨rfl, rfl⟩
        · split <;> exact ⟨rfl, rfl⟩
    rw [h1.1, h1.2, contains_remove_self, contains_remove_self]
    exact ⟨rfl, rfl⟩
  · have h1 : QmlHandler.close env http s = s.emit (Event.deleteLater http.id) := by
      unfold QmlHandler.close
      simp only [hc, if_false]
      rfl
    rw [h1]
    rw [← hsync] at hc
    simp only [Bool.and_self] at hc
    simp only [State.emit]
    rw [← hsync]
    simpa using hc

/-- C13: a second close for the same execution object (whatever its
properties hold by then) finds the guard of close false, so it sets no
status, header or cookie, writes nothing and closes nothing: the state after
the second call is the state after the first with one more deleteLater
scheduled for the object.  When the two tables agreed on the object before the
first call, neither holds an entry for it afterwards. -/
theorem close_idempotent (env : Env) (http again : HttpObject) (s : State)
    (hid : again.id = http.id) :
    (QMap.contains (QmlHandler.close env http s).http2request http.id
      && QMap.contains (QmlHandler.close env http s).http2reply http.id) = false
    ∧ QmlHandler.close env again (QmlHandler.close env http s)
      = (QmlHandler.close env http s).emit (Event.deleteLater http.id)
    ∧ (QMap.contains s.http2request http.id = QMap.contains s.http2reply http.id →
        QMap.contains (QmlHandler.close env http s).http2request http.id = false
        ∧ QMap.contains (QmlHandler.close env http s).http2reply http.id = false) := by
  refine ⟨close_guard_after env http s, ?_, close_tables_in_step env http s⟩
  have hg := close_guard_after env http s
  generalize QmlHandler.close env http s = t at hg
  unfold QmlHandler.close
  rw [hid]
  simp only [hg]
  rfl

theorem close_idempotent_witness :
    QmlHandler.close Example.qmlEnv { Example.finished with out := "late" }
        (QmlHandler.close Example.qmlEnv Example.finished
          (Example.draining (Example.get "/page.qml")))
      = (QmlHandler.close Example.qmlEnv Example.finished
          (Example.draining (Example.get "/page.qml"))).emit (Event.deleteLater 7) :=
  (close_idempotent Example.qmlEnv Example.finished { Example.finished with out := "late" }
    (Example.draining (Example.get "/page.qml")) rfl).2.1

/-! ## Cookies on drain -/

theorem wireCookie_name (env : Env) (name : String) (c : List (String × Variant)) :
    (QmlHandler.wireCookie env name c).name = name := by
  unfold QmlHandler.wireCookie
  dsimp only
  repeat (first | rfl | split)

theorem filter_name_wireCookies (env : Env) (n : String) (rc : List (String × Variant))
    (ks : List String) :
    (ks.map (fun name =>
        QmlHandler.wireCookie env name ((QMap.value rc name).getD Variant.invalid).toMap)).filter
      (fun k => decide (k.name = n))
    = (ks.filter (fun k => decide (k = n))).map (fun name =>
        QmlHandler.wireCookie env name ((QMap.value rc name).getD Variant.invalid).toMap) := by
  induction ks with
  | nil => rfl
  | cons k ks ih =>
    simp only [List.map_cons, List.filter_cons, wireCookie_name]
    by_cases hk : k = n
    · simp [hk, ih]
    · simp [hk, ih]

theorem filter_eq_singleton (n : String) (ks : List String) (hn : n ∈ ks) (hd : ks.Nodup) :
    ks.filter (fun k => decide (k = n)) = [n] := by
  induction ks with
  | nil => cases hn
  | cons k ks ih =>
    rw [List.nodup_cons] at hd
    by_cases hk : k = n
    · subst hk
      have : ks.filter (fun x => decide (x = k)) = [] := by
        rw [List.filter_eq_nil_iff]
        intro x hx hxk
        simp only [decide_eq_true_eq] at hxk
        subst hxk
        exact hd.1 hx
      simp [List.filter_cons, this]
    · have hmem : n ∈ ks := by
        rcases List.mem_cons.1 hn with h | h
        · exact absurd h.symm hk
        · exact h
      simp [List.filter_cons, hk, ih hmem hd.2]

theorem wireCookie_congr (env : Env) (n : String) (c d : List (String × Variant))
    (h : ∀ k ∈ ["value", "expires", "domain", "path", "secure"],
      QMap.contains c k = QMap.contains d k ∧ QMap.value c k = QMap.value d k) :
    QmlHandler.wireCookie env n c = QmlHandler.wireCookie env n d := by
  unfold QmlHandler.wireCookie
  rw [(h "value" (by simp)).1, (h "value" (by simp)).2,
    (h "expires" (by simp)).1, (h "expires" (by simp)).2,
    (h "domain" (by simp)).1, (h "domain" (by simp)).2,
    (h "path" (by simp)).1, (h "path" (by simp)).2,
    (h "secure" (by simp)).1, (h "secure" (by simp)).2]

/-- C12: close turns the outbound cookie map into one wire cookie per name.
An entry that holds value, domain and path as strings, secure as a boolean and
expires as a date gives a wire cookie with exactly these five attributes.  Each
of the five that the entry omits keeps the value of a fresh cookie.  Nothing
else in the entry is read, its session field included: the wire cookie is a
session cookie exactly when its expiry is not a valid date. -/
theorem cookie_round_trip (env : Env) (n : String) (c : List (String × Variant)) :
    (∀ http s rq rp,
      QMap.value s.http2request http.id = some (some rq) →
      QMap.value s.http2reply http.id = some (some rp) →
      Event.setCookies rp (QmlHandler.wireCookies env http.responseCookies)
        ∈ (QmlHandler.close env http s).log) ∧
    (∀ rc : List (String × Variant), (QMap.keys rc).Nodup →
      QMap.value rc n = some (Variant.map c) →
      (QmlHandler.wireCookies env rc).filter (fun k => decide (k.name = n))
        = [QmlHandler.wireCookie env n c]) ∧
    (∀ v d p b t,
      QMap.value c "value" = some (Variant.string v) →
      QMap.value c "expires" = some (Variant.dateTime t) →
      QMap.value c "domain" = some (Variant.string d) →
      QMap.value c "path" = some (Variant.string p) →
      QMap.value c "secure" = some (Variant.bool b) →
      QmlHandler.wireCookie env n c
        = { name := n, value := v, expirationDate := t, domain := d, path := p, secure := b }) ∧
    (QMap.contains c "value" = false →
      (QmlHandler.wireCookie env n c).value = Cookie.fresh.value) ∧
    (QMap.contains c "expires" = false →
      (QmlHandler.wireCookie env n c).expirationDate = Cookie.fresh.expirationDate) ∧
    (QMap.contains c "domain" = false →
      (QmlHandler.wireCookie env n c).domain = Cookie.fresh.domain) ∧
    (QMap.contains c "path" = false →
      (QmlHandler.wireCookie env n c).path = Cookie.fresh.path) ∧
    (QMap.contains c "secure" = false →
      (QmlHandler.wireCookie env n c).secure = Cookie.fresh.secure) ∧
    (∀ d : List (String × Variant),
      (∀ k ∈ ["value", "expires", "domain", "path", "secure"],
        QMap.contains c k = QMap.contains d k ∧ QMap.value c k = QMap.value d k) →
      QmlHandler.wireCookie env n c = QmlHandler.wireCookie env n d) ∧
    ((QmlHandler.wireCookie env n c).isSessionCookie = true
      ↔ (QmlHandler.wireCookie env n c).expirationDate = none) := by
  refine ⟨?_, ?_, ?_, ?_, ?_, ?_, ?_, ?_, wireCookie_congr env n c, ?_⟩
  · intro http s rq rp hrq hrp
    rw [close_drains env http s rq rp hrq hrp]
    simp
  · intro rc hd hv
    have hn : n ∈ QMap.keys rc := by
      rw [← QMap.contains_iff_mem_keys]
      exact contains_of_value _ _ _ hv
    unfold QmlHandler.wireCookies
    rw [filter_name_wireCookies, filter_eq_singleton n _ hn hd]
    simp [hv, Variant.toMap]
  · intro v d p b t hv ht hd hp hb
    unfold QmlHandler.wireCookie
    simp only [contains_of_value _ _ _ hv, contains_of_value _ _ _ ht, contains_of_value _ _ _ hd,
      contains_of_value _ _ _ hp, contains_of_value _ _ _ hb, hv, ht, hd, hp, hb, if_true,
      Option.getD_some, QmlHandler.variantToString, QmlHandler.variantToDateTime,
      Variant.toBool, Cookie.fresh]
  · intro h
    unfold QmlHandler.wireCookie
    simp only [h, Bool.false_eq_true, if_false]
    repeat (first | rfl | split)
  · intro h
    unfold QmlHandler.wireCookie
    simp only [h, Bool.false_eq_true, if_false]
    repeat (first | rfl | split)
  · intro h
    unfold QmlHandler.wireCookie
    simp only [h, Bool.false_eq_true, if_false]
    repeat (first | rfl | split)
  · intro h
    unfold QmlHandler.wireCookie
    simp only [h, Bool.false_eq_true, if_false]
    repeat (first | rfl | split)
  · intro h
    unfold QmlHandler.wireCookie
    simp only [h, Bool.false_eq_true, if_false]
    repeat (first | rfl | split)
  · cases hx : (QmlHandler.wireCookie env n c).expirationDate <;>
      simp [Cookie.isSessionCookie, hx]

/-- Against C12 as stated: an entry that sets only the expiry omits the
session field, yet the wire cookie is not a session cookie, while a fresh
cookie is one. -/
theorem expiring_cookie_is_not_session :
    QMap.contains Example.expiringCookie "session" = false
    ∧ (QmlHandler.wireCookie Example.qmlEnv "sid" Example.expiringCookie).isSessionCookie = false
    ∧ Cookie.fresh.isSessionCookie = true :=
  ⟨by decide, rfl, rfl⟩

theorem cookie_round_trip_example :
    QmlHandler.wireCookies Example.qmlEnv [("sid", Variant.map Example.fullCookie)]
      = [{ name := "sid", value := "abc", expirationDate := some 1700000000,
           domain := "example.org", path := "/app", secure := true }]
    ∧ QmlHandler.wireCookie Example.qmlEnv "sid"
        (("session", Variant.bool true) :: Example.fullCookie)
      = QmlHandler.wireCookie Example.qmlEnv "sid" Example.fullCookie :=
  ⟨rfl, rfl⟩

/-! ## The router: the directory index -/

theorem error_ext_no_redirect (env : Env) (fuel : Nat) (st : Int) (hst : st ≠ 301)
    (rq : Request) (rp : Nat) (m : String) (s0 t : State)
    (h : Ext (fun e => ∀ r m, e ≠ Event.callError 301 r m) s0 t) :
    Ext (fun e => ∀ r m, e ≠ Event.callError 301 r m) s0 (error env fuel st rq rp m t) := by
  have hP : ∀ e : Event, e.notCallError → (fun e => ∀ r m, e ≠ Event.callError 301 r m) e :=
    fun e he r m => he 301 r m
  refine error_ext hP env ?_ ?_ fuel st ?_ rq rp m s0 t h
  · intro r m r2 m2 h; injection h with h; omega
  · intro r m r2 m2 h; injection h with h; omega
  · intro r m r2 m2 h; injection h with h; exact hst h

/-- C14: for a local document root, a candidate path that is a directory and a
request path ending in a slash, the file incomingConnection resolves is
root ++ path ++ "/index.qml": it asks whether that file exists, loads it when
it does and raises 404 otherwise, with the request itself and, for the 404,
the request URL unchanged as message; no error with status 301 is raised
anywhere in the run. -/
theorem incomingConnection_directory_index (env : Env) (fuel : Nat) (request : Request)
    (reply : Nat) (s : State)
    (hlocal : ¬ indexOf (documentRootForRequest env request) "://" > 0)
    (hdir : env.isDir (documentRootForRequest env request ++ request.url.path) = true)
    (hslash : endsWith request.url.path "/" = true) :
    candidateFile env request
      = documentRootForRequest env request ++ request.url.path ++ "/index.qml"
    ∧ incomingConnection env fuel request reply s
      = (if env.fileExists
            (documentRootForRequest env request ++ request.url.path ++ "/index.qml") then
          load env (error env fuel)
            (documentRootForRequest env request ++ request.url.path ++ "/index.qml")
            request reply ""
            ((s.emit (Event.fileIsDir (documentRootForRequest env request ++ request.url.path))).emit
              (Event.fileExists
                (documentRootForRequest env request ++ request.url.path ++ "/index.qml")))
        else
          error env fuel 404 request reply (env.urlToString request.url)
            ((s.emit (Event.fileIsDir (documentRootForRequest env request ++ request.url.path))).emit
              (Event.fileExists
                (documentRootForRequest env request ++ request.url.path ++ "/index.qml"))))
    ∧ Ext (fun e => ∀ r m, e ≠ Event.callError 301 r m) s
        (incomingConnection env fuel request reply s) := by
  have hcand : candidateFile env request
      = documentRootForRequest env request ++ request.url.path ++ "/index.qml" := by
    simp [candidateFile, hdir]
  have heq := incomingConnection_local env fuel request reply s hlocal (fun _ => hslash)
  rw [hcand] at heq
  refine ⟨hcand, heq, ?_⟩
  rw [heq]
  have hP : ∀ e : Event, e.notCallError → (fun e => ∀ r m, e ≠ Event.callError 301 r m) e :=
    fun e he r m => he 301 r m
  have h0 : Ext (fun e => ∀ r m, e ≠ Event.callError 301 r m) s
      ((s.emit (Event.fileIsDir (documentRootForRequest env request ++ request.url.path))).emit
        (Event.fileExists
          (documentRootForRequest env request ++ request.url.path ++ "/index.qml"))) :=
    ((Ext.refl _ s).snoc (hP _ (by intro st r m h; cases h))).snoc
      (hP _ (by intro st r m h; cases h))
  split
  · exact server_load_ext hP env _ (error_ext_no_redirect env fuel 403 (by omega))
      (error_ext_no_redirect env fuel 500 (by omega)) _ _ _ _ _ _ h0
  · exact error_ext_no_redirect env fuel 404 (by omega) _ _ _ _ _ h0

theorem incomingConnection_directory_index_witness :
    incomingConnection Example.staticEnv 2 (Example.get "/blog/") 0 State.initial
      = error Example.staticEnv 2 404 (Example.get "/blog/") 0 "http://example.org/blog/"
          ((State.initial.emit (Event.fileIsDir "/srv/www/blog/")).emit
            (Event.fileExists "/srv/www/blog//index.qml")) :=
  (incomingConnection_directory_index Example.staticEnv 2 (Example.get "/blog/") 0 State.initial
    (by decide) (by decide) (by decide)).2.1

/-! ## Status changes and destruction of components -/

theorem remove_of_not_contains {κ υ : Type} [DecidableEq κ] (m : QMap κ υ) (k : κ)
    (h : QMap.contains m k = false) : QMap.remove m k = m := by
  unfold QMap.remove
  rw [List.filter_eq_self]
  intro e he
  by_contra hne
  have hk : e.1 = k := by simpa using hne
  have : QMap.contains m k = true := by
    simp only [QMap.contains, List.any_eq_true]
    exact ⟨e, he, by simp [hk]⟩
  rw [h] at this
  cases this

theorem value_of_not_contains {κ υ : Type} [DecidableEq κ] (m : QMap κ υ) (k : κ)
    (h : QMap.contains m k = false) : QMap.value m k = none := by
  apply QMap.value_of_not_mem_keys
  intro hk
  rw [← QMap.contains_iff_mem_keys, h] at hk
  cases hk

/-- C15, as the code has it: statusChanged has no guard.  For a component
whose entries are no longer in component2request, component2reply and
component2message, a further statusChanged takes null pointers and an empty
message out of the tables and runs exec on them: a Ready component is
instantiated again and the null request is then dereferenced, an Error
component emits error(500) with null request and reply. -/
theorem statusChanged_again_runs_exec (env : Env) (error : ErrorFn) (component : Component)
    (s : State)
    (h1 : QMap.contains s.component2request component.id = false)
    (h2 : QMap.contains s.component2reply component.id = false)
    (h3 : QMap.contains s.component2message component.id = false) :
    QmlHandler.statusChanged env error component s
      = QmlHandler.exec env error component none none "" s
    ∧ (component.status = ComponentStatus.Ready →
        ∀ created, env.instantiate component = some created →
          (QmlHandler.statusChanged env error component s).log
            = s.log ++ [Event.create component.id (some s.nextObject)]
              ++ (if env.cacheQml then [] else [Event.connect Signal.httpDestroyed s.nextObject])
              ++ [Event.fault])
    ∧ (component.status = ComponentStatus.Error →
        (QmlHandler.statusChanged env error component s).log
          = s.log ++ [Event.emitError 500 none component.errorString]
            ++ (if env.errorConnected then [Event.fault] else [])) := by
  have heq : QmlHandler.statusChanged env error component s
      = QmlHandler.exec env error component none none "" s := by
    unfold QmlHandler.statusChanged
    simp only [QMap.pointer, value_of_not_contains _ _ h1, value_of_not_contains _ _ h2,
      value_of_not_contains _ _ h3, remove_of_not_contains _ _ h1, remove_of_not_contains _ _ h2,
      remove_of_not_contains _ _ h3, Option.getD_none]
  refine ⟨heq, ?_, ?_⟩
  · intro hst created hc
    rw [heq]
    unfold QmlHandler.exec
    simp only [hst, hc]
    by_cases hq : env.cacheQml = true
    · simp [hq, State.emit]
    · simp [hq, State.emit]
  · intro hst
    rw [heq]
    unfold QmlHandler.exec QmlHandler.emitError
    simp only [hst]
    by_cases hq : env.errorConnected = true
    · simp [hq, State.emit]
    · simp [hq, State.emit]

theorem statusChanged_again_runs_exec_witness :
    (QmlHandler.statusChanged Example.loadingEnv (error Example.loadingEnv 2)
        (Example.pageComponent ComponentStatus.Ready "") Example.resumed).log
      = Example.resumed.log ++ [Event.create 0 (some 2), Event.fault]
    ∧ (QmlHandler.statusChanged Example.loadingEnv (error Example.loadingEnv 2)
        (Example.pageComponent ComponentStatus.Error "page.qml:3 syntax error")
        Example.resumed).log
      = Example.resumed.log ++ [Event.emitError 500 none "page.qml:3 syntax error"] :=
  ⟨(statusChanged_again_runs_exec Example.loadingEnv (error Example.loadingEnv 2)
      (Example.pageComponent ComponentStatus.Ready "") Example.resumed rfl rfl rfl).2.1 rfl
      Example.blankHttp rfl,
   (statusChanged_again_runs_exec Example.loadingEnv (error Example.loadingEnv 2)
      (Example.pageComponent ComponentStatus.Error "page.qml:3 syntax error")
      Example.resumed rfl rfl rfl).2.2 rfl⟩

theorem takeWhile_append_stop {α : Type} (p : α → Bool) (A : List α) (b : α) (B : List α)
    (hA : ∀ a ∈ A, p a = true) (hb : p b = false) : (A ++ b :: B).takeWhile p = A := by
  induction A with
  | nil => simp [List.takeWhile, hb]
  | cons a A ih =>
    have ha : p a = true := hA a (by simp)
    simp only [List.cons_append, List.takeWhile, ha]
    exact congrArg _ (ih (fun x hx => hA x (by simp [hx])))

theorem fileName_of_split (s : String) (P T : List Char) (h : s.data = P ++ '/' :: T)
    (hT : '/' ∉ T) : fileName s = ⟨T⟩ := by
  unfold fileName
  have hr : s.data.reverse = T.reverse ++ '/' :: P.reverse := by
    rw [h]; simp
  rw [hr, takeWhile_append_stop _ T.reverse '/' P.reverse]
  · simp
  · intro a ha
    have : a ∈ T := by simpa using ha
    simp only [bne_iff_ne, ne_eq]
    intro hc
    exact hT (hc ▸ this)
  · simp

theorem digitChar_decimal (d : Nat) (h : d < 10) : Nat.digitChar d ∈ "0123456789".data := by
  interval_cases d <;> decide

theorem toDigitsCore_decimal (fuel : Nat) : ∀ (n : Nat) (ds : List Char),
    (∀ c ∈ ds, c ∈ "0123456789".data) →
    ∀ c ∈ Nat.toDigitsCore 10 fuel n ds, c ∈ "0123456789".data := by
  induction fuel with
  | zero => intro n ds h; simpa [Nat.toDigitsCore] using h
  | succ f ih =>
    intro n ds h
    have hd : ∀ c ∈ Nat.digitChar (n % 10) :: ds, c ∈ "0123456789".data := by
      intro c hc
      rcases List.mem_cons.1 hc with hc | hc
      · rw [hc]; exact digitChar_decimal _ (Nat.mod_lt _ (by decide))
      · exact h c hc
    unfold Nat.toDigitsCore
    dsimp only
    split
    · exact hd
    · exact ih _ _ hd

theorem toDigitsCore_ne_nil (fuel : Nat) : ∀ (n : Nat) (ds : List Char),
    (ds ≠ [] ∨ 0 < fuel) → Nat.toDigitsCore 10 fuel n ds ≠ [] := by
  induction fuel with
  | zero =>
    intro n ds h
    rcases h with h | h
    · simpa [Nat.toDigitsCore] using h
    · cases h
  | succ f ih =>
    intro n ds _
    unfold Nat.toDigitsCore
    dsimp only
    split
    · simp
    · exact ih _ _ (Or.inl (by simp))

theorem nat_repr_data (n : Nat) :
    (Nat.repr n).data ≠ [] ∧ ∀ c ∈ (Nat.repr n).data, c ∈ "0123456789".data := by
  have h : (Nat.repr n).data = Nat.toDigits 10 n := rfl
  rw [h]
  exact ⟨toDigitsCore_ne_nil _ _ _ (Or.inr (Nat.succ_pos _)),
    toDigitsCore_decimal _ _ _ (by simp)⟩

theorem int_toString_data (st : Int) :
    ∃ c cs, (toString st).data = c :: cs ∧ c ≠ '.' ∧ ∀ x ∈ c :: cs, x ≠ '/' := by
  cases st with
  | ofNat m =>
    have h : (toString (Int.ofNat m)).data = (Nat.repr m).data := rfl
    obtain ⟨hne, hall⟩ := nat_repr_data m
    rw [h]
    cases hd : (Nat.repr m).data with
    | nil => exact absurd hd hne
    | cons c cs =>
      rw [hd] at hall
      refine ⟨c, cs, rfl, ?_, ?_⟩
      · intro hc
        have := hall c (by simp)
        rw [hc] at this
        revert this
        decide
      · intro x hx hc
        have := hall x hx
        rw [hc] at this
        revert this
        decide
  | negSucc m =>
    have h : (toString (Int.negSucc m)).data = '-' :: (Nat.repr (m + 1)).data := rfl
    obtain ⟨_, hall⟩ := nat_repr_data (m + 1)
    rw [h]
    refine ⟨'-', _, rfl, by decide, ?_⟩
    intro x hx hc
    rcases List.mem_cons.1 hx with hx | hx
    · rw [hc] at hx
      revert hx
      decide
    · have := hall x hx
      rw [hc] at this
      revert this
      decide
theorem markerDigits_append (cs t : List Char) (n : Nat) (raw rest : List Char)
    (h : markerDigits (cs ++ '/' :: t) = some (n, raw, rest)) :
    ∃ pre, rest = pre ++ '/' :: t ∧ pre.length ≤ cs.length := by
  have hslash : digitValue '/' = none := by decide
  cases cs with
  | nil =>
    simp only [List.nil_append, markerDigits, hslash] at h
    cases h
  | cons d cs1 =>
    simp only [List.cons_append, markerDigits] at h
    cases hd : digitValue d with
    | none => rw [hd] at h; cases h
    | some v =>
      rw [hd] at h
      cases cs1 with
      | nil =>
        simp only [List.nil_append, hslash] at h
        injection h with h
        injection h with _ h
        injection h with _ h
        exact ⟨[], by simp [← h], by simp⟩
      | cons e cs2 =>
        simp only [List.cons_append] at h
        cases he : digitValue e with
        | none =>
          rw [he] at h
          injection h with h
          injection h with _ h
          injection h with _ h
          exact ⟨e :: cs2, by simp [← h], by simp⟩
        | some w =>
          rw [he] at h
          injection h with h
          injection h with _ h
          injection h with _ h
          exact ⟨cs2, by simp [← h], by simp only [List.length_cons]; omega⟩

theorem markerAt_append (cs t : List Char) (n : Nat) (raw rest : List Char)
    (h : markerAt (cs ++ '/' :: t) = some (n, raw, rest)) :
    ∃ pre, rest = pre ++ '/' :: t ∧ pre.length ≤ cs.length := by
  cases cs with
  | nil =>
    have hslash : digitValue '/' = none := by decide
    simp [markerAt, markerDigits, hslash] at h
  | cons c cs1 =>
    by_cases hL : c = 'L'
    · subst hL
      simp only [List.cons_append, markerAt] at h
      cases hm : markerDigits (cs1 ++ '/' :: t) with
      | none => rw [hm] at h; cases h
      | some r =>
        obtain ⟨n2, raw2, rest2⟩ := r
        rw [hm] at h
        injection h with h
        injection h with _ h
        injection h with _ h
        obtain ⟨pre, hp, hl⟩ := markerDigits_append cs1 t n2 raw2 rest2 hm
        exact ⟨pre, by rw [← h, hp], by simp; omega⟩
    · have hm2 : markerAt (c :: cs1 ++ '/' :: t)
          = match markerDigits (c :: cs1 ++ '/' :: t) with
            | some (n, raw, rest2) => some (n, '%' :: raw, rest2)
            | none => none := by
        simp only [List.cons_append, markerAt]
        split
        · rename_i heq
          injection heq with h1 _
          exact absurd h1 hL
        · rfl
      rw [hm2] at h
      cases hm : markerDigits (c :: cs1 ++ '/' :: t) with
      | none => rw [hm] at h; cases h
      | some r =>
        obtain ⟨n2, raw2, rest2⟩ := r
        rw [hm] at h
        injection h with h
        injection h with _ h
        injection h with _ h
        obtain ⟨pre, hp, hl⟩ := markerDigits_append (c :: cs1) t n2 raw2 rest2 hm
        exact ⟨pre, by rw [← h, hp], hl⟩

theorem scanPieces_split (t : List Char) : ∀ (k : Nat) (pre : List Char) (fuel : Nat),
    pre.length ≤ k → pre.length + (t.length + 1) ≤ fuel →
    ∃ X f, t.length + 1 ≤ f ∧ scanPieces fuel (pre ++ '/' :: t) = X ++ scanPieces f ('/' :: t) := by
  intro k
  induction k with
  | zero =>
    intro pre fuel hk hf
    have : pre = [] := List.length_eq_zero.1 (Nat.le_zero.1 hk)
    subst this
    exact ⟨[], fuel, by simpa using hf, by simp⟩
  | succ k ih =>
    intro pre fuel hk hf
    cases pre with
    | nil => exact ⟨[], fuel, by simpa using hf, by simp⟩
    | cons c cs =>
      cases fuel with
      | zero => simp at hf
      | succ f =>
        have hcs : cs.length ≤ k := by simpa using hk
        have hf2 : cs.length + (t.length + 1) ≤ f := by
          simp only [List.length_cons] at hf; omega
        simp only [List.cons_append, scanPieces]
        by_cases hc : c = '%'
        · simp only [hc, if_true]
          cases hm : markerAt (cs ++ '/' :: t) with
          | none =>
            obtain ⟨X, f2, h1, h2⟩ := ih cs f hcs hf2
            exact ⟨Piece.text '%' :: X, f2, h1, by simp [h2]⟩
          | some r =>
            obtain ⟨n, raw, rest⟩ := r
            obtain ⟨pre2, hp, hl⟩ := markerAt_append cs t n raw rest hm
            obtain ⟨X, f2, h1, h2⟩ := ih pre2 f (by omega) (by omega)
            exact ⟨Piece.marker n raw :: X, f2, h1, by simp [hp, h2]⟩
        · simp only [hc, if_false]
          obtain ⟨X, f2, h1, h2⟩ := ih cs f hcs hf2
          exact ⟨Piece.text c :: X, f2, h1, by simp [h2]⟩

theorem scanPieces_tail (f : Nat) (h : 14 ≤ f) :
    scanPieces f "/errors/%2.qml".data = scanPieces 14 "/errors/%2.qml".data := by
  obtain ⟨k, rfl⟩ := Nat.exists_eq_add_of_le h
  have : 14 + k = k + 14 := by omega
  rw [this]
  cases k <;> rfl

theorem fillPieces_append (n : Nat) (a : List Char) (X Y : List Piece) :
    fillPieces n a (X ++ Y) = fillPieces n a X ++ fillPieces n a Y := by
  induction X with
  | nil => rfl
  | cons p X ih =>
    cases p with
    | text c => simp [fillPieces, ih]
    | marker m raw => by_cases hm : m = n <;> simp [fillPieces, hm, ih]

theorem fillPieces_tail (n : Nat) (a : List Char) :
    fillPieces n a (scanPieces 14 "/errors/%2.qml".data)
      = "/errors".data ++ '/' :: ((if 2 = n then a else "%2".data) ++ ".qml".data) := by
  have hs : scanPieces 14 "/errors/%2.qml".data
      = "/errors/".data.map Piece.text ++ Piece.marker 2 "%2".data :: ".qml".data.map Piece.text := by
    decide
  rw [hs, fillPieces_text]
  by_cases hn : 2 = n
  · simp only [fillPieces, hn, if_true]
    simp
  · simp only [fillPieces, hn, if_false]
    simp
theorem errorDocument_split (root : String) (st : Int) :
    ∃ P Y, (errorDocument root st).data = P ++ '/' :: (Y ++ ".qml".data)
      ∧ (Y = (toString st).data ∨ Y = "%2".data) := by
  unfold errorDocument argInt
  rw [arg_root]
  have hd : (root ++ "/errors/%2.qml").data = root.data ++ '/' :: "errors/%2.qml".data := rfl
  obtain ⟨X, f, hf, hs⟩ := scanPieces_split "errors/%2.qml".data root.data.length root.data
    (root ++ "/errors/%2.qml").data.length (Nat.le_refl _) (by rw [hd]; simp)
  have ht : scanPieces f ('/' :: "errors/%2.qml".data) = scanPieces 14 "/errors/%2.qml".data :=
    scanPieces_tail f hf
  unfold arg
  rw [← hd] at hs
  rw [hs, ht]
  cases lowestMarker (X ++ scanPieces 14 "/errors/%2.qml".data) with
  | none =>
    exact ⟨root.data ++ "/errors".data, "%2".data, by rw [hd]; simp, Or.inr rfl⟩
  | some n =>
    dsimp only
    rw [fillPieces_append, fillPieces_tail]
    by_cases hn : 2 = n
    · exact ⟨fillPieces n (toString st).data X ++ "/errors".data, (toString st).data,
        by simp [hn], Or.inl rfl⟩
    · exact ⟨fillPieces n (toString st).data X ++ "/errors".data, "%2".data,
        by simp [hn], Or.inr rfl⟩

theorem not_dotfile_of_split (st : Int) (s : String) (P Y : List Char)
    (h : s.data = P ++ '/' :: (Y ++ ".qml".data))
    (hY : Y = (toString st).data ∨ Y = "%2".data) :
    startsWith (fileName s) "." = false := by
  obtain ⟨c, cs, hc, hdot, hall⟩ := int_toString_data st
  have hslash : '/' ∉ Y ++ ".qml".data := by
    intro hm
    rcases List.mem_append.1 hm with hm | hm
    · rcases hY with hY | hY
      · rw [hY, hc] at hm
        exact hall _ hm rfl
      · rw [hY] at hm
        revert hm
        decide
    · revert hm
      decide
  rw [fileName_of_split s P _ h hslash]
  rcases hY with hY | hY
  · rw [hY, hc]
    simp only [startsWith, List.cons_append]
    simp only [List.isPrefixOf, Bool.and_true, beq_eq_false_iff_ne, ne_eq]
    exact fun h => hdot h.symm
  · rw [hY]
    decide

theorem errorDocument_not_dotfile (root : String) (st : Int) :
    startsWith (fileName (errorDocument root st)) "." = false := by
  obtain ⟨P, Y, h, hY⟩ := errorDocument_split root st
  exact not_dotfile_of_split st _ P Y h hY

theorem defaultErrorDocument_not_dotfile (st : Int) :
    startsWith (fileName (defaultErrorDocument st)) "." = false := by
  have h : (defaultErrorDocument st).data
      = ":/errors".data ++ '/' :: ((toString st).data ++ ".qml".data) := rfl
  exact not_dotfile_of_split st _ _ _ h (Or.inl rfl)

theorem selectedErrorDocument_not_dotfile (env : Env) (request : Request) (st : Int) :
    startsWith (fileName (selectedErrorDocument env request st)) "." = false := by
  unfold selectedErrorDocument
  split
  · exact errorDocument_not_dotfile _ _
  · exact defaultErrorDocument_not_dotfile _
/-! ## Error rendering ends on an error document that is served statically -/

theorem mimeHandler_load_of_declines (env : Env) (error : ErrorFn) (handler : MimeHandler)
    (url : Url) (request : Request) (reply : Nat) (message : String) (s : State)
    (h : handler.declines env url request message = true) :
    MimeHandler.load env error handler url request reply message s = (false, s) := by
  unfold MimeHandler.declines at h
  unfold MimeHandler.load
  cases handler with
  | qml =>
    dsimp only at h ⊢
    unfold QmlHandler.load
    cases hd : (fileName (env.fileInfoOfUrl url)).data with
    | nil => rw [hd] at h; cases h
    | cons c cs =>
      rw [hd] at h
      dsimp only at h ⊢
      simp only [h, if_true]
  | external handled =>
    dsimp only at h ⊢
    have : handled url request message = false := by simpa using h
    rw [this]

theorem load_static (env : Env) (error : ErrorFn) (file : String) (request : Request)
    (reply : Nat) (message : String) (s : State)
    (hpass : passedToLoadFile env file request message = true)
    (hdot : startsWith (fileName file) "." = false)
    (hopen : env.canOpen (env.absoluteFilePath file) = true) :
    load env error file request reply message s
      = { s with log := s.log ++ staticEvents env file reply message } := by
  unfold passedToLoadFile at hpass
  unfold load staticEvents
  cases hv : QMap.value env.mimeHandlers (env.mimeTypeForFile (fileName file)) with
  | none =>
    simp only [hv, loadFile, hdot, hopen, if_true, Bool.false_eq_true, if_false, State.emit]
    simp
  | some handler =>
    rw [hv] at hpass
    simp only [hv] at hpass ⊢
    rw [mimeHandler_load_of_declines env error handler _ request reply message _ hpass]
    simp only [loadFile, hdot, hopen, if_true, Bool.false_eq_true, if_false, State.emit,
      Bool.not_false]
    simp

theorem error_static (env : Env) (fuel : Nat) (st : Int) (request : Request) (reply : Nat)
    (message : String) (s : State)
    (hpass : passedToLoadFile env (selectedErrorDocument env request st) request message = true)
    (hopen : env.canOpen (env.absoluteFilePath (selectedErrorDocument env request st)) = true) :
    error env (fuel + 1) st request reply message s
      = { s with log := s.log
            ++ [Event.callError st reply message,
                Event.fileExists (errorDocument (documentRootForRequest env request) st)]
            ++ staticEvents env (selectedErrorDocument env request st) reply message } := by
  have hdot := selectedErrorDocument_not_dotfile env request st
  unfold selectedErrorDocument at hpass hopen hdot ⊢
  unfold error
  dsimp only
  split
  · rename_i hex
    rw [if_pos hex] at hpass hopen hdot
    rw [load_static env _ _ request reply message _ hpass hdot hopen]
    simp [State.emit]
  · rename_i hex
    rw [if_neg hex] at hpass hopen hdot
    rw [load_static env _ _ request reply message _ hpass hdot hopen]
    simp [State.emit]

theorem staticEvents_observed (env : Env) (file : String) (reply : Nat) (message : String) :
    errorCalls (staticEvents env file reply message) = []
    ∧ closeCount reply (staticEvents env file reply message) = 1
    ∧ writes reply (staticEvents env file reply message)
        = [env.readAll (env.absoluteFilePath file)]
    ∧ statuses reply (staticEvents env file reply message) = [200]
    ∧ (staticEvents env file reply message).count Event.outOfFuel = 0 := by
  unfold staticEvents
  cases QMap.value env.mimeHandlers (env.mimeTypeForFile (fileName file)) <;>
    simp [errorCalls, closeCount, writes, statuses, List.count_cons]

theorem errorCalls_append (a b : List Event) :
    errorCalls (a ++ b) = errorCalls a ++ errorCalls b := by
  simp [errorCalls, List.filterMap_append]

theorem statuses_append (reply : Nat) (a b : List Event) :
    statuses reply (a ++ b) = statuses reply a ++ statuses reply b := by
  simp [statuses, List.filterMap_append]

/-- C17: when the error document that error selects is handed to loadFile (no
Mime Handler is registered for its type, or the registered handler declines)
and can be opened, error returns with any fuel of at least one: it adds to the
log its own entry, the existence test, and the events of load and loadFile
that end in one write of the document and one close of the reply.  error is
entered once, for the given status, and never again. -/
theorem error_terminates_on_static_document (env : Env) (fuel : Nat) (st : Int)
    (request : Request) (reply : Nat) (message : String) (s : State)
    (hpass : passedToLoadFile env (selectedErrorDocument env request st) request message = true)
    (hopen : env.canOpen (env.absoluteFilePath (selectedErrorDocument env request st)) = true) :
    error env (fuel + 1) st request reply message s
      = { s with log := s.log
            ++ [Event.callError st reply message,
                Event.fileExists (errorDocument (documentRootForRequest env request) st)]
            ++ staticEvents env (selectedErrorDocument env request st) reply message }
    ∧ errorCalls (error env (fuel + 1) st request reply message s).log = errorCalls s.log ++ [st]
    ∧ (error env (fuel + 1) st request reply message s).log.count Event.outOfFuel
        = s.log.count Event.outOfFuel
    ∧ writes reply (error env (fuel + 1) st request reply message s).log
        = writes reply s.log
          ++ [env.readAll (env.absoluteFilePath (selectedErrorDocument env request st))]
    ∧ closeCount reply (error env (fuel + 1) st request reply message s).log
        = closeCount reply s.log + 1 := by
  have heq := error_static env fuel st request reply message s hpass hopen
  obtain ⟨h1, h2, h3, _, h5⟩ :=
    staticEvents_observed env (selectedErrorDocument env request st) reply message
  refine ⟨heq, ?_, ?_, ?_, ?_⟩
  · rw [heq]
    simp only [errorCalls_append, h1]
    simp [errorCalls]
  · rw [heq]
    simp only [List.count_append, h5]
    simp [List.count_cons]
  · rw [heq]
    simp only [writes_append, h3]
    simp [writes]
  · rw [heq]
    simp only [closeCount_append, h2]
    simp [closeCount, List.count_cons]

theorem error_terminates_on_static_document_witness :
    error Example.staticEnv 1 404 (Example.get "/missing.txt") 0 "http://example.org/missing.txt"
        State.initial
      = { State.initial with log :=
          [Event.callError 404 0 "http://example.org/missing.txt",
           Event.fileExists "/srv/www/errors/404.qml",
           Event.callLoad "/srv/www/errors/404.qml" 0 "http://example.org/missing.txt",
           Event.setStatus 0 200,
           Event.setRawHeader 0 "Content-Type" "text/x-qml",
           Event.callLoadFile "/srv/www/errors/404.qml" 0,
           Event.fileOpen "/srv/www/errors/404.qml",
           Event.setRawHeader 0 "Last-Modified" "1351728000 as ddd, d, MMM yyyy hh:mm:ss UTC",
           Event.write 0 "contents of /srv/www/errors/404.qml",
           Event.close 0] } :=
  (error_terminates_on_static_document Example.staticEnv 0 404 (Example.get "/missing.txt") 0
    "http://example.org/missing.txt" State.initial rfl rfl).1

/-! ## Who sets the status of a reply -/

theorem writeHeaders_sets {P : Event → Prop} (hP : ∀ e, e.notSetStatus → P e) (env : Env)
    (reply : Nat) (header : List (String × Variant)) (s0 s : State) (h : Ext P s0 s) :
    Ext P s0 (QmlHandler.writeHeaders env reply header s) := by
  unfold QmlHandler.writeHeaders
  generalize QMap.keys header = ks
  induction ks generalizing s with
  | nil => exact h
  | cons k ks ih =>
    simp only [List.foldl_cons]
    exact ih _ (h.snoc (hP _ (by intro r st h; cases h)))

theorem close_sets {P : Event → Prop} (hP : ∀ e, e.notSetStatus → P e) (env : Env)
    (http : HttpObject) (hst : ∀ r, P (Event.setStatus r http.status)) (s0 s : State)
    (h : Ext P s0 s) : Ext P s0 (QmlHandler.close env http s) := by
  unfold QmlHandler.close
  dsimp only
  repeat (first
    | exact h
    | apply Ext.snoc _ (hst _)
    | apply Ext.snoc _ (hP _ (by intro r st h; cases h))
    | apply writeHeaders_sets hP
    | exact Ext.of_log_eq h rfl
    | split)

theorem emitError_sets {P : Event → Prop} (hP : ∀ e, e.notSetStatus → P e) (env : Env)
    (error : ErrorFn)
    (herr : ∀ st rq rp m s0 s, Ext P s0 s → Ext P s0 (error st rq rp m s))
    (st : Int) (request : Option Request) (reply : Option Nat) (message : String) (s0 s : State)
    (h : Ext P s0 s) :
    Ext P s0 (QmlHandler.emitError env error st request reply message s) := by
  unfold QmlHandler.emitError
  dsimp only
  repeat (first
    | exact h
    | apply herr
    | apply Ext.snoc _ (hP _ (by intro r st h; cases h))
    | split)

theorem exec_sets {P : Event → Prop} (hP : ∀ e, e.notSetStatus → P e) (env : Env)
    (hobj : ∀ r http, P (Event.setStatus r (env.ready http).status)) (error : ErrorFn)
    (herr : ∀ st rq rp m s0 s, Ext P s0 s → Ext P s0 (error st rq rp m s))
    (component : Component) (request : Option Request) (reply : Option Nat) (message : String)
    (s0 s : State) (h : Ext P s0 s) :
    Ext P s0 (QmlHandler.exec env error component request reply message s) := by
  unfold QmlHandler.exec
  dsimp only
  repeat (first
    | exact h
    | apply emitError_sets hP env error herr
    | exact fun r => hobj r _
    | apply close_sets hP env
    | apply Ext.snoc _ (hP _ (by intro r st h; cases h))
    | exact Ext.of_log_eq h rfl
    | split)

theorem qmlHandler_load_sets {P : Event → Prop} (hP : ∀ e, e.notSetStatus → P e) (env : Env)
    (hobj : ∀ r http, P (Event.setStatus r (env.ready http).status)) (error : ErrorFn)
    (herr : ∀ st rq rp m s0 s, Ext P s0 s → Ext P s0 (error st rq rp m s))
    (fileInfo : String) (request : Request) (reply : Nat) (message : String)
    (s0 s : State) (h : Ext P s0 s) :
    Ext P s0 (QmlHandler.load env error fileInfo request reply message s).2 := by
  unfold QmlHandler.load QmlHandler.Private.load
  dsimp only
  repeat (first
    | exact h
    | apply emitError_sets hP env error herr
    | apply exec_sets hP env hobj error herr
    | apply Ext.snoc _ (hP _ (by intro r st h; cases h))
    | exact Ext.of_log_eq h rfl
    | split)

theorem mimeHandler_load_sets {P : Event → Prop} (hP : ∀ e, e.notSetStatus → P e) (env : Env)
    (hobj : ∀ r http, P (Event.setStatus r (env.ready http).status)) (error : ErrorFn)
    (herr : ∀ st rq rp m s0 s, Ext P s0 s → Ext P s0 (error st rq rp m s))
    (handler : MimeHandler) (url : Url) (request : Request) (reply : Nat) (message : String)
    (s0 s : State) (h : Ext P s0 s) :
    Ext P s0 (MimeHandler.load env error handler url request reply message s).2 := by
  unfold MimeHandler.load
  split
  · exact qmlHandler_load_sets hP env hobj error herr _ _ _ _ _ _ h
  · exact h

theorem loadFile_sets {P : Event → Prop} (hP : ∀ e, e.notSetStatus → P e) (env : Env)
    (error : ErrorFn)
    (herr : ∀ st rq rp m s0 s, Ext P s0 s → Ext P s0 (error st rq rp m s))
    (fileInfo : String) (request : Request) (reply : Nat)
    (s0 s : State) (h : Ext P s0 s) :
    Ext P s0 (loadFile env error fileInfo request reply s) := by
  unfold loadFile
  dsimp only
  repeat (first
    | exact h
    | apply herr
    | apply Ext.snoc _ (hP _ (by intro r st h; cases h))
    | split)

theorem server_load_sets {P : Event → Prop} (hP : ∀ e, e.notSetStatus → P e) (env : Env)
    (h200 : ∀ r, P (Event.setStatus r 200))
    (hobj : ∀ r http, P (Event.setStatus r (env.ready http).status)) (error : ErrorFn)
    (herr : ∀ st rq rp m s0 s, Ext P s0 s → Ext P s0 (error st rq rp m s))
    (fileInfo : String) (request : Request) (reply : Nat) (message : String)
    (s0 s : State) (h : Ext P s0 s) :
    Ext P s0 (load env error fileInfo request reply message s) := by
  unfold load
  dsimp only
  repeat (first
    | exact h
    | apply loadFile_sets hP env error herr
    | apply mimeHandler_load_sets hP env hobj error herr
    | apply Ext.snoc _ (h200 _)
    | apply Ext.snoc _ (hP _ (by intro r st h; cases h))
    | split)

theorem loadUrl_sets {P : Event → Prop} (hP : ∀ e, e.notSetStatus → P e) (env : Env)
    (error : ErrorFn)
    (herr : ∀ st rq rp m s0 s, Ext P s0 s → Ext P s0 (error st rq rp m s))
    (url : Url) (request : Request) (reply : Nat) (message : String)
    (s0 s : State) (h : Ext P s0 s) :
    Ext P s0 (loadUrl env error url request reply message s) := by
  unfold loadUrl
  dsimp only
  repeat (first
    | exact h
    | apply herr
    | apply Ext.snoc _ (hP _ (by intro r st h; cases h))
    | split)

theorem error_sets {P : Event → Prop} (hP : ∀ e, e.notSetStatus → P e) (env : Env)
    (h200 : ∀ r, P (Event.setStatus r 200))
    (hobj : ∀ r http, P (Event.setStatus r (env.ready http).status))
    (fuel : Nat) (st : Int) (request : Request) (reply : Nat) (message : String)
    (s0 s : State) (h : Ext P s0 s) :
    Ext P s0 (error env fuel st request reply message s) := by
  induction fuel generalizing st request reply message s0 s with
  | zero => exact h.snoc (hP _ (by intro r st h; cases h))
  | succ n ih =>
    unfold error
    dsimp only
    split
    · apply server_load_sets hP env h200 hobj _ (fun st rq rp m s0 s h => ih st rq rp m s0 s h)
      exact (h.snoc (hP _ (by intro r st h; cases h))).snoc (hP _ (by intro r st h; cases h))
    · apply server_load_sets hP env h200 hobj _ (fun st rq rp m s0 s h => ih st rq rp m s0 s h)
      exact (h.snoc (hP _ (by intro r st h; cases h))).snoc (hP _ (by intro r st h; cases h))

theorem incomingConnection_sets {P : Event → Prop} (hP : ∀ e, e.notSetStatus → P e) (env : Env)
    (h200 : ∀ r, P (Event.setStatus r 200))
    (hobj : ∀ r http, P (Event.setStatus r (env.ready http).status))
    (fuel : Nat) (request : Request) (reply : Nat) (s : State) :
    Ext P s (incomingConnection env fuel request reply s) := by
  have herr : ∀ st rq rp m s0 s, Ext P s0 s → Ext P s0 (error env fuel st rq rp m s) :=
    fun st rq rp m s0 s h => error_sets hP env h200 hobj fuel st rq rp m s0 s h
  unfold incomingConnection
  dsimp only
  repeat (first
    | exact Ext.refl _ _
    | apply herr
    | apply server_load_sets hP env h200 hobj _ herr
    | apply loadUrl_sets hP env _ herr
    | apply Ext.snoc _ (hP _ (by intro r st h; cases h))
    | split)

/-- C18: load sets status 200 and the Content-Type of the file name's MIME
type before it looks for a handler; in a run of error or of
incomingConnection every status set on a reply is this 200 or the status an
execution object holds after its ready signal, and loadFile sets none of its
own; so when the error document selected for a status is handed to loadFile
and can be opened, the only status set on the reply is 200 and the reply is
closed with it, whatever the status error was called with. -/
theorem status_is_200_unless_object_sets_it (env : Env) (fuel : Nat) (st : Int)
    (request : Request) (reply : Nat) (message : String) (s : State) :
    (∀ (error : ErrorFn) (file : String),
      load env error file request reply message s
        = match QMap.value env.mimeHandlers (env.mimeTypeForFile (fileName file)) with
          | some handler =>
            if !(MimeHandler.load env error handler (handlerUrl env file) request reply message
                ((((s.emit (Event.callLoad file reply message)).emit
                  (Event.setStatus reply 200)).emit
                  (Event.setRawHeader reply "Content-Type"
                    (env.mimeTypeForFile (fileName file)))).emit
                  (Event.mimeHandlerLoad (env.mimeTypeForFile (fileName file))
                    (handlerUrl env file) reply message))).1
            then loadFile env error file request reply
              (MimeHandler.load env error handler (handlerUrl env file) request reply message
                ((((s.emit (Event.callLoad file reply message)).emit
                  (Event.setStatus reply 200)).emit
                  (Event.setRawHeader reply "Content-Type"
                    (env.mimeTypeForFile (fileName file)))).emit
                  (Event.mimeHandlerLoad (env.mimeTypeForFile (fileName file))
                    (handlerUrl env file) reply message))).2
            else (MimeHandler.load env error handler (handlerUrl env file) request reply message
                ((((s.emit (Event.callLoad file reply message)).emit
                  (Event.setStatus reply 200)).emit
                  (Event.setRawHeader reply "Content-Type"
                    (env.mimeTypeForFile (fileName file)))).emit
                  (Event.mimeHandlerLoad (env.mimeTypeForFile (fileName file))
                    (handlerUrl env file) reply message))).2
          | none =>
            loadFile env error file request reply
              (((s.emit (Event.callLoad file reply message)).emit
                (Event.setStatus reply 200)).emit
                (Event.setRawHeader reply "Content-Type"
                  (env.mimeTypeForFile (fileName file)))))
    ∧ Ext (StatusFromLoadOrObject env) s (error env fuel st request reply message s)
    ∧ Ext (StatusFromLoadOrObject env) s (incomingConnection env fuel request reply s)
    ∧ (∀ (error : ErrorFn) (file : String),
        (∀ st rq rp m s0 t, Ext Event.notSetStatus s0 t →
          Ext Event.notSetStatus s0 (error st rq rp m t)) →
        Ext Event.notSetStatus s (loadFile env error file request reply s))
    ∧ (passedToLoadFile env (selectedErrorDocument env request st) request message = true →
        env.canOpen (env.absoluteFilePath (selectedErrorDocument env request st)) = true →
        statuses reply (error env (fuel + 1) st request reply message s).log
          = statuses reply s.log ++ [200]
        ∧ closeCount reply (error env (fuel + 1) st request reply message s).log
          = closeCount reply s.log + 1) := by
  have hP : ∀ e : Event, e.notSetStatus → StatusFromLoadOrObject env e :=
    fun e he r v h => absurd h (he r v)
  have h200 : ∀ r, StatusFromLoadOrObject env (Event.setStatus r 200) := by
    intro r r2 v h
    injection h with _ h
    exact Or.inl h.symm
  have hobj : ∀ r http, StatusFromLoadOrObject env (Event.setStatus r (env.ready http).status) := by
    intro r http r2 v h
    injection h with _ h
    exact Or.inr ⟨http, h.symm⟩
  refine ⟨?_, error_sets hP env h200 hobj fuel st request reply message s s (Ext.refl _ _),
    incomingConnection_sets hP env h200 hobj fuel request reply s, ?_, ?_⟩
  · intro error file
    rfl
  · intro error file herr
    exact loadFile_sets (fun e he => he) env error herr file request reply s s (Ext.refl _ _)
  · intro hpass hopen
    have heq := error_static env fuel st request reply message s hpass hopen
    obtain ⟨_, h2, _, h4, _⟩ :=
      staticEvents_observed env (selectedErrorDocument env request st) reply message
    rw [heq]
    constructor
    · simp only [statuses_append, h4]
      simp [statuses]
    · simp only [closeCount_append, h2]
      simp [closeCount, List.count_cons]

theorem not_found_page_goes_out_with_status_200 :
    statuses 0 (error Example.staticEnv 1 404 (Example.get "/missing.txt") 0
        "http://example.org/missing.txt" State.initial).log = [200]
    ∧ closeCount 0 (error Example.staticEnv 1 404 (Example.get "/missing.txt") 0
        "http://example.org/missing.txt" State.initial).log = 1 :=
  (status_is_200_unless_object_sets_it Example.staticEnv 0 404 (Example.get "/missing.txt") 0
    "http://example.org/missing.txt" State.initial).2.2.2.2 rfl rfl

/-! ## TableModel::remove -/

theorem remove_second_note :
    (TableModel.remove Example.sqlOk Example.notes [("id", Variant.int 2)]).map
        (fun r => (r.1, r.2.data, r.2.signals))
      = some (true, [[Variant.int 1, Variant.string "a"], [Variant.int 2, Variant.string "c"]],
          [TableSignal.beginRemoveRows 1 1, TableSignal.endRemoveRows,
           TableSignal.countChanged 2])
    ∧ (TableModel.remove Example.sqlDown Example.notes [("id", Variant.int 2)]).map
        (fun r => (r.1, r.2.data))
      = some (false, Example.notes.data)
    ∧ TableModel.deleteStatement Example.sqlOk Example.notes [("id", Variant.int 4294967298)]
      = "DELETE FROM notes WHERE id=2;" :=
  ⟨rfl, rfl, by decide⟩

/-! ## Every run lands -/

theorem Lands.of_handed {env : Env} {request : Request} {reply : Nat} {base : List Event}
    {t : State} (es : List Event) (ht : t.log = base ++ es) (h : Handed env request reply es) :
    Lands env request reply base t := ⟨es, ht, Or.inr (Or.inr h)⟩

theorem emit_log_append (s : State) (e : Event) (base es0 : List Event)
    (hs : s.log = base ++ es0) : (s.emit e).log = base ++ (es0 ++ [e]) := by
  simp [State.emit, hs]

theorem emitError_lands (env : Env) (error : ErrorFn) (request : Request) (reply : Nat)
    (base : List Event)
    (herr : ∀ st m (s : State) es0, s.log = base ++ es0 →
      Lands env request reply base (error st request reply m s))
    (st : Int) (m : String) (s : State) (es0 : List Event) (hs : s.log = base ++ es0) :
    Lands env request reply base
      (QmlHandler.emitError env error st (some request) (some reply) m s) := by
  unfold QmlHandler.emitError
  dsimp only
  by_cases hc : env.errorConnected = true
  · rw [if_pos hc]
    exact herr st m _ _ (emit_log_append s _ base es0 hs)
  · rw [if_neg hc]
    refine Lands.of_handed _ (emit_log_append s _ base es0 hs) ?_
    refine Or.inr (Or.inr (Or.inr (Or.inl ⟨by simpa using hc, st, m, by simp⟩)))

theorem readyState_log (env : Env) (component : Component) (rq : Request) (reply : Option Nat)
    (s : State) :
    ∃ es1, (QmlHandler.readyState env component rq reply s).log = s.log ++ es1 := by
  unfold QmlHandler.readyState
  dsimp only
  split
  · exact ⟨_, by simp [State.emit]; rfl⟩
  · exact ⟨_, by simp [State.emit]; rfl⟩

theorem close_drains_mem (env : Env) (http : HttpObject) (s : State) (rq : Request) (rp : Nat)
    (hrq : QMap.value s.http2request http.id = some (some rq))
    (hrp : QMap.value s.http2reply http.id = some (some rp)) :
    ∃ es, (QmlHandler.close env http s).log = s.log ++ es ∧ Event.close rp ∈ es := by
  rw [close_drains env http s rq rp hrq hrp]
  exact ⟨[Event.setStatus rp http.status] ++ QmlHandler.headerEvents env rp http.responseHeader
      ++ [Event.setCookies rp (QmlHandler.wireCookies env http.responseCookies)]
      ++ (if rq.method = "GET" ∨ rq.method = "POST" then [Event.write rp http.out] else [])
      ++ [Event.close rp, Event.deleteLater http.id],
    by simp only [List.append_assoc], by simp⟩

theorem exec_lands (env : Env) (error : ErrorFn) (request : Request) (reply : Nat)
    (base : List Event)
    (herr : ∀ st m (s : State) es0, s.log = base ++ es0 →
      Lands env request reply base (error st request reply m s))
    (component : Component) (message : String) (s : State) (es0 : List Event)
    (hs : s.log = base ++ es0)
    (hnull : component.status = ComponentStatus.Null → Handed env request reply es0) :
    Lands env request reply base
      (QmlHandler.exec env error component (some request) (some reply) message s) := by
  cases hst : component.status with
  | Null =>
    have : QmlHandler.exec env error component (some request) (some reply) message s = s := by
      simp only [QmlHandler.exec, hst]
    rw [this]
    exact Lands.of_handed es0 hs (hnull hst)
  | Error =>
    have : QmlHandler.exec env error component (some request) (some reply) message s
        = QmlHandler.emitError env error 500 (some request) (some reply)
            component.errorString s := by
      simp only [QmlHandler.exec, hst]
    rw [this]
    exact emitError_lands env error request reply base herr 500 _ s es0 hs
  | Loading =>
    simp only [QmlHandler.exec, hst]
    refine ⟨es0 ++ [Event.connect Signal.componentStatusChanged component.id],
      by simp [State.emit, hs], Or.inr (Or.inl (Or.inl ⟨component.id, by simp, ?_, ?_⟩))⟩
    · exact QMap.value_insert_self _ _ _
    · exact QMap.value_insert_self _ _ _
  | Ready =>
    cases hc : env.instantiate component with
    | none =>
      simp only [QmlHandler.exec, hst, hc]
      exact Lands.of_handed (es0 ++ [Event.create component.id none] ++ [Event.fault])
        (by simp [State.emit, hs]) (Or.inr (Or.inl (by simp)))
    | some created =>
      rw [exec_ready env error component request (some reply) message s created hst hc]
      obtain ⟨es1, h1⟩ := readyState_log env component request (some reply) s
      by_cases hl : (QmlHandler.readyObject env created request message s).loading = true
      · simp only [hl, Bool.not_true, Bool.false_eq_true, if_false]
        refine ⟨es0 ++ es1 ++ [Event.connect Signal.httpLoadingChanged s.nextObject],
          by simp [State.emit, h1, hs], Or.inr (Or.inl (Or.inr ⟨s.nextObject, by simp, ?_, ?_⟩))⟩
        · exact readyState_request env component request (some reply) s
        · exact readyState_reply env component request (some reply) s
      · have hl2 : (QmlHandler.readyObject env created request message s).loading = false := by
          simpa using hl
        simp only [hl2, Bool.not_false, if_true]
        have hid : (QmlHandler.readyObject env created request message s).id = s.nextObject := rfl
        obtain ⟨es2, h2, hm⟩ := close_drains_mem env
          (QmlHandler.readyObject env created request message s)
          (QmlHandler.readyState env component request (some reply) s) request reply
          (by rw [hid]; exact readyState_request env component request (some reply) s)
          (by rw [hid]; exact readyState_reply env component request (some reply) s)
        exact ⟨es0 ++ (es1 ++ es2), by rw [h2, h1, hs]; simp, Or.inl (by simp [hm])⟩

theorem private_load_eq (env : Env) (error : ErrorFn) (fileInfo : String) (request : Request)
    (reply : Nat) (message : String) (s : State) :
    QmlHandler.Private.load env error fileInfo request reply message s
      = QmlHandler.exec env error (QmlHandler.componentFor env fileInfo s.nextObject)
          (some request) (some reply) message
          (({ s with nextObject := s.nextObject + 1 }.emit
            (Event.newComponent s.nextObject
              (QmlHandler.componentFor env fileInfo s.nextObject).url)).emit
            (Event.connect Signal.componentDestroyed s.nextObject)) := rfl

theorem qmlHandler_load_lands (env : Env) (error : ErrorFn) (request : Request) (reply : Nat)
    (base : List Event)
    (herr : ∀ st m (s : State) es0, s.log = base ++ es0 →
      Lands env request reply base (error st request reply m s))
    (fileInfo : String) (message : String) (s : State) (es0 : List Event)
    (hs : s.log = base ++ es0) :
    (QmlHandler.load env error fileInfo request reply message s).1 = false
    ∨ Lands env request reply base
        (QmlHandler.load env error fileInfo request reply message s).2 := by
  cases hd : (fileName fileInfo).data with
  | nil =>
    right
    have : QmlHandler.load env error fileInfo request reply message s
        = (true, s.emit Event.fault) := by
      simp only [QmlHandler.load, hd]
    rw [this]
    exact Lands.of_handed _ (emit_log_append s _ base es0 hs) (Or.inr (Or.inl (by simp)))
  | cons c cs =>
    by_cases hu : env.isUpper c = true
    · left
      simp only [QmlHandler.load, hd, hu, if_true]
    · by_cases hr : env.isReadable fileInfo = true
      · right
        have : QmlHandler.load env error fileInfo request reply message s
            = (true, QmlHandler.Private.load env error fileInfo request reply message
                (s.emit (Event.fileIsReadable fileInfo))) := by
          simp only [QmlHandler.load, hd, hu, hr, Bool.not_true, Bool.false_eq_true, if_false]
        rw [this]
        rw [private_load_eq]
        refine exec_lands env error request reply base herr _ message _
          (es0 ++ [Event.fileIsReadable fileInfo]
            ++ [Event.newComponent s.nextObject
              (QmlHandler.componentFor env fileInfo s.nextObject).url]
            ++ [Event.connect Signal.componentDestroyed s.nextObject])
          (by simp [State.emit, hs]) ?_
        intro hn
        exact Or.inr (Or.inr (Or.inl ⟨s.nextObject,
          (QmlHandler.componentFor env fileInfo s.nextObject).url, by simp, hn⟩))
      · right
        have hr2 : env.isReadable fileInfo = false := by simpa using hr
        have : QmlHandler.load env error fileInfo request reply message s
            = (true, QmlHandler.emitError env error 403 (some request) (some reply)
                (env.urlToString request.url) (s.emit (Event.fileIsReadable fileInfo))) := by
          simp only [QmlHandler.load, hd, hu, hr2, Bool.not_false, Bool.false_eq_true, if_false,
            if_true]
        rw [this]
        exact emitError_lands env error request reply base herr 403 _ _ _
          (emit_log_append s _ base es0 hs)

theorem mimeHandler_load_lands (env : Env) (error : ErrorFn) (request : Request) (reply : Nat)
    (base : List Event)
    (herr : ∀ st m (s : State) es0, s.log = base ++ es0 →
      Lands env request reply base (error st request reply m s))
    (mime : String) (handler : MimeHandler) (url : Url) (message : String) (s : State)
    (es0 : List Event) (hs : s.log = base ++ es0)
    (hv : QMap.value env.mimeHandlers mime = some handler)
    (hev : Event.mimeHandlerLoad mime url reply message ∈ es0) :
    (MimeHandler.load env error handler url request reply message s).1 = false
    ∨ Lands env request reply base
        (MimeHandler.load env error handler url request reply message s).2 := by
  cases handler with
  | qml =>
    exact qmlHandler_load_lands env error request reply base herr _ message s es0 hs
  | external handled =>
    by_cases hh : handled url request message = true
    · right
      exact Lands.of_handed es0 hs
        (Or.inr (Or.inr (Or.inr (Or.inr (Or.inl ⟨mime, url, message, handled, hev, hv, hh⟩)))))
    · left
      simpa [MimeHandler.load] using hh

theorem loadFile_lands (env : Env) (error : ErrorFn) (request : Request) (reply : Nat)
    (base : List Event)
    (herr : ∀ st m (s : State) es0, s.log = base ++ es0 →
      Lands env request reply base (error st request reply m s))
    (fileInfo : String) (s : State) (es0 : List Event) (hs : s.log = base ++ es0) :
    Lands env request reply base (loadFile env error fileInfo request reply s) := by
  unfold loadFile
  dsimp only
  split
  · exact herr _ _ _ _ (emit_log_append s _ base es0 hs)
  · split
    · exact ⟨es0 ++ [Event.callLoadFile fileInfo reply]
          ++ [Event.fileOpen (env.absoluteFilePath fileInfo)]
          ++ [Event.setRawHeader reply "Last-Modified"
              (env.dateToString (env.toUTC (env.lastModified fileInfo))
                "ddd, d, MMM yyyy hh:mm:ss UTC")]
          ++ [Event.write reply (env.readAll (env.absoluteFilePath fileInfo))]
          ++ [Event.close reply],
        by simp [State.emit, hs], Or.inl (by simp)⟩
    · exact herr _ _ _ _
        (emit_log_append _ _ base _ (emit_log_append s _ base es0 hs))

theorem server_load_lands (env : Env) (error : ErrorFn) (request : Request) (reply : Nat)
    (base : List Event)
    (herr : ∀ st m (s : State) es0, s.log = base ++ es0 →
      Lands env request reply base (error st request reply m s))
    (fileInfo : String) (message : String) (s : State) (es0 : List Event)
    (hs : s.log = base ++ es0) :
    Lands env request reply base (load env error fileInfo request reply message s) := by
  have h3 := emit_log_append _ (Event.setRawHeader reply "Content-Type"
      (env.mimeTypeForFile (fileName fileInfo))) base _
    (emit_log_append _ (Event.setStatus reply 200) base _
      (emit_log_append s (Event.callLoad fileInfo reply message) base es0 hs))
  unfold load
  dsimp only
  cases hv : QMap.value env.mimeHandlers (env.mimeTypeForFile (fileName fileInfo)) with
  | none => exact loadFile_lands env error request reply base herr fileInfo _ _ h3
  | some handler =>
    dsimp only
    have h4 := emit_log_append _ (Event.mimeHandlerLoad (env.mimeTypeForFile (fileName fileInfo))
      (handlerUrl env fileInfo) reply message) base _ h3
    rcases mimeHandler_load_lands env error request reply base herr _ handler
        (handlerUrl env fileInfo) message _ _ h4 hv (by simp) with hf | hl
    · rw [mimeHandler_declined env error handler _ request reply message _ hf, hf]
      simp only [Bool.not_false, if_true]
      exact loadFile_lands env error request reply base herr fileInfo _ _ h4
    · have ht : (MimeHandler.load env error handler (handlerUrl env fileInfo) request reply
          message ((((s.emit (Event.callLoad fileInfo reply message)).emit
            (Event.setStatus reply 200)).emit (Event.setRawHeader reply "Content-Type"
              (env.mimeTypeForFile (fileName fileInfo)))).emit
            (Event.mimeHandlerLoad (env.mimeTypeForFile (fileName fileInfo))
              (handlerUrl env fileInfo) reply message))).1 = true ∨
          (MimeHandler.load env error handler (handlerUrl env fileInfo) request reply
          message ((((s.emit (Event.callLoad fileInfo reply message)).emit
            (Event.setStatus reply 200)).emit (Event.setRawHeader reply "Content-Type"
              (env.mimeTypeForFile (fileName fileInfo)))).emit
            (Event.mimeHandlerLoad (env.mimeTypeForFile (fileName fileInfo))
              (handlerUrl env fileInfo) reply message))).1 = false := by
        cases (MimeHandler.load env error handler (handlerUrl env fileInfo) request reply
          message ((((s.emit (Event.callLoad fileInfo reply message)).emit
            (Event.setStatus reply 200)).emit (Event.setRawHeader reply "Content-Type"
              (env.mimeTypeForFile (fileName fileInfo)))).emit
            (Event.mimeHandlerLoad (env.mimeTypeForFile (fileName fileInfo))
              (handlerUrl env fileInfo) reply message))).1 <;> simp
      rcases ht with ht | ht
      · rw [ht]
        simp only [Bool.not_true, Bool.false_eq_true, if_false]
        exact hl
      · rw [mimeHandler_declined env error handler _ request reply message _ ht, ht]
        simp only [Bool.not_false, if_true]
        exact loadFile_lands env error request reply base herr fileInfo _ _ h4

theorem loadUrl_lands (env : Env) (error : ErrorFn) (request : Request) (reply : Nat)
    (base : List Event)
    (herr : ∀ st m (s : State) es0, s.log = base ++ es0 →
      Lands env request reply base (error st request reply m s))
    (url : Url) (message : String) (s : State) (es0 : List Event) (hs : s.log = base ++ es0) :
    Lands env request reply base (loadUrl env error url request reply message s) := by
  unfold loadUrl
  dsimp only
  cases hv : QMap.value env.protocolHandlers url.scheme with
  | none => exact herr _ _ _ _ (emit_log_append s _ base es0 hs)
  | some handler =>
    dsimp only
    by_cases hh : handler.handled url request message = true
    · simp only [hh, Bool.not_true, Bool.false_eq_true, if_false]
      exact Lands.of_handed _
        (emit_log_append _ _ base _ (emit_log_append s _ base es0 hs))
        (Or.inr (Or.inr (Or.inr (Or.inr (Or.inr
          ⟨url.scheme, url, message, handler, by simp, hv, hh⟩)))))
    · have hh2 : handler.handled url request message = false := by simpa using hh
      simp only [hh2, Bool.not_false, if_true]
      exact herr _ _ _ _ (emit_log_append _ _ base _ (emit_log_append s _ base es0 hs))

theorem error_lands (env : Env) (request : Request) (reply : Nat) (base : List Event)
    (fuel : Nat) :
    ∀ st m (s : State) es0, s.log = base ++ es0 →
      Lands env request reply base (error env fuel st request reply m s) := by
  induction fuel with
  | zero =>
    intro st m s es0 hs
    exact Lands.of_handed _ (emit_log_append s _ base es0 hs) (Or.inl (by simp))
  | succ n ih =>
    intro st m s es0 hs
    unfold error
    dsimp only
    split
    · exact server_load_lands env _ request reply base ih _ m _ _
        (emit_log_append _ _ base _ (emit_log_append s _ base es0 hs))
    · exact server_load_lands env _ request reply base ih _ m _ _
        (emit_log_append _ _ base _ (emit_log_append s _ base es0 hs))

theorem incomingConnection_lands (env : Env) (fuel : Nat) (request : Request) (reply : Nat)
    (s : State) :
    Lands env request reply s.log (incomingConnection env fuel request reply s) := by
  have herr := error_lands env request reply s.log fuel
  have h0 : s.log = s.log ++ [] := by simp
  unfold incomingConnection
  dsimp only
  split
  · exact loadUrl_lands env _ request reply s.log herr _ _ s [] h0
  · split
    · split
      · split
        · exact server_load_lands env _ request reply s.log herr _ _ _ _
            (emit_log_append _ _ s.log _ (emit_log_append s _ s.log [] h0))
        · exact herr _ _ _ _ (emit_log_append _ _ s.log _ (emit_log_append s _ s.log [] h0))
      · exact herr _ _ _ _ (emit_log_append s _ s.log [] h0)
    · split
      · exact server_load_lands env _ request reply s.log herr _ _ _ _
          (emit_log_append _ _ s.log _ (emit_log_append s _ s.log [] h0))
      · exact herr _ _ _ _ (emit_log_append _ _ s.log _ (emit_log_append s _ s.log [] h0))

/-! ## The runs that end with exactly one close -/

theorem closeCount_pos_of_mem (reply : Nat) (log : List Event) (h : Event.close reply ∈ log) :
    1 ≤ closeCount reply log := by
  unfold closeCount
  exact List.count_pos_iff.2 h

theorem mem_of_value {κ υ : Type} [DecidableEq κ] (m : QMap κ υ) (k : κ) (v : υ)
    (h : QMap.value m k = some v) : (k, v) ∈ m := by
  induction m with
  | nil => cases h
  | cons e rest ih =>
    simp only [QMap.value] at h
    by_cases he : e.1 = k
    · rw [if_pos he] at h
      injection h with h
      have : e = (k, v) := by
        cases e
        simp only at he h
        rw [he, h]
      rw [this]
      simp
    · rw [if_neg he] at h
      exact List.mem_cons_of_mem _ (ih h)

theorem pendingCount_pos_component (reply c : Nat) (t : State)
    (h : QMap.value t.component2reply c = some (some reply)) : 1 ≤ pendingCount reply t := by
  unfold pendingCount
  have : 0 < t.component2reply.countP (fun e => decide (e.2 = some reply)) :=
    List.countP_pos_iff.2 ⟨_, mem_of_value _ _ _ h, by simp⟩
  omega

theorem pendingCount_pos_http (reply k : Nat) (t : State)
    (h : QMap.value t.http2reply k = some (some reply)) : 1 ≤ pendingCount reply t := by
  unfold pendingCount
  have : 0 < t.http2reply.countP (fun e => decide (e.2 = some reply)) :=
    List.countP_pos_iff.2 ⟨_, mem_of_value _ _ _ h, by simp⟩
  omega

theorem Lands.counts {env : Env} {request : Request} {reply : Nat} {s t : State}
    (hl : Lands env request reply s.log t) (ha : AtMostOnce t) :
    ∃ es, t.log = s.log ++ es
      ∧ ((closeCount reply t.log = 1 ∧ pendingCount reply t = 0)
        ∨ (closeCount reply t.log = 0 ∧ pendingCount reply t = 1 ∧ Awaited request reply es t)
        ∨ Handed env request reply es) := by
  obtain ⟨es, ht, h⟩ := hl
  refine ⟨es, ht, ?_⟩
  have hle := ha reply
  rcases h with h | h | h
  · left
    have : 1 ≤ closeCount reply t.log := by
      apply closeCount_pos_of_mem
      rw [ht]
      exact List.mem_append_right _ h
    omega
  · right; left
    have : 1 ≤ pendingCount reply t := by
      rcases h with ⟨c, _, _, hc⟩ | ⟨k, _, _, hk⟩
      · exact pendingCount_pos_component reply c t hc
      · exact pendingCount_pos_http reply k t hk
    exact ⟨by omega, by omega, h⟩
  · right; right; exact h

theorem load_closes_static (env : Env) (error : ErrorFn) (file : String) (request : Request)
    (reply : Nat) (message : String) (s : State)
    (hpass : passedToLoadFile env file request message = true)
    (hdot : startsWith (fileName file) "." = false)
    (hopen : env.canOpen (env.absoluteFilePath file) = true) :
    closeCount reply (load env error file request reply message s).log
      = closeCount reply s.log + 1 := by
  rw [load_static env error file request reply message s hpass hdot hopen]
  simp only [closeCount_append, (staticEvents_observed env file reply message).2.1]

theorem load_refused (env : Env) (error : ErrorFn) (file : String) (request : Request)
    (reply : Nat) (message : String) (s : State)
    (h : RefusedByLoadFile env file request message) :
    ∃ t, load env error file request reply message s
        = error 403 request reply (env.urlToString request.url) t
      ∧ closeCount reply t.log = closeCount reply s.log ∧ t.nextObject = s.nextObject := by
  obtain ⟨hpass, href⟩ := h
  unfold passedToLoadFile at hpass
  have key : ∀ u : State, closeCount reply u.log = closeCount reply s.log →
      u.nextObject = s.nextObject →
      ∃ t, loadFile env error file request reply u
          = error 403 request reply (env.urlToString request.url) t
        ∧ closeCount reply t.log = closeCount reply s.log ∧ t.nextObject = s.nextObject := by
    intro u hu hn
    by_cases hd : startsWith (fileName file) "." = true
    · refine ⟨u.emit (Event.callLoadFile file reply), ?_, ?_, hn⟩
      · simp only [loadFile, hd, if_true]
      · rw [closeCount_emit_other _ _ _ (by intro r h; cases h), hu]
    · have h3 : env.canOpen (env.absoluteFilePath file) = false := by
        rcases href with h2 | h2
        · exact absurd h2 hd
        · exact h2
      refine ⟨(u.emit (Event.callLoadFile file reply)).emit
        (Event.fileOpen (env.absoluteFilePath file)), ?_, ?_, hn⟩
      · simp only [loadFile, hd, h3, if_false, Bool.false_eq_true]
      · rw [closeCount_emit_other _ _ _ (by intro r h; cases h),
          closeCount_emit_other _ _ _ (by intro r h; cases h), hu]
  unfold load
  dsimp only
  cases hv : QMap.value env.mimeHandlers (env.mimeTypeForFile (fileName file)) with
  | none =>
    dsimp only
    apply key
    · repeat rw [closeCount_emit_other _ _ _ (by intro r h; cases h)]
    · rfl
  | some handler =>
    rw [hv] at hpass
    dsimp only at hpass ⊢
    rw [mimeHandler_load_of_declines env error handler _ request reply message _ hpass]
    simp only [Bool.not_false, if_true]
    apply key
    · repeat rw [closeCount_emit_other _ _ _ (by intro r h; cases h)]
    · rfl

theorem load_taken_ready (env : Env) (error : ErrorFn) (file : String) (request : Request)
    (reply : Nat) (message : String) (s : State) (created : HttpObject)
    (htaken : TakenByQml env file)
    (hread : env.isReadable (env.fileInfoOfUrl (handlerUrl env file)) = true)
    (hst : (qmlComponent env file s.nextObject).status = ComponentStatus.Ready)
    (hc : env.instantiate (qmlComponent env file s.nextObject) = some created) :
    ∃ t : State,
      load env error file request reply message s
        = (if !(env.ready (QmlHandler.populate { created with id := s.nextObject + 1 }
                request message)).loading then
            QmlHandler.close env (QmlHandler.readyObject env created request message t)
              (QmlHandler.readyState env (qmlComponent env file s.nextObject) request
                (some reply) t)
           else (QmlHandler.readyState env (qmlComponent env file s.nextObject) request
              (some reply) t).emit (Event.connect Signal.httpLoadingChanged t.nextObject))
      ∧ t.nextObject = s.nextObject + 1
      ∧ closeCount reply t.log = closeCount reply s.log := by
  obtain ⟨h1, c, rest, hname, hup⟩ := htaken
  let t : State :=
    (({ (((((s.emit (Event.callLoad file reply message)).emit (Event.setStatus reply 200)).emit
        (Event.setRawHeader reply "Content-Type" (env.mimeTypeForFile (fileName file)))).emit
        (Event.mimeHandlerLoad (env.mimeTypeForFile (fileName file)) (handlerUrl env file) reply
          message)).emit (Event.fileIsReadable (env.fileInfoOfUrl (handlerUrl env file)))) with
        nextObject := s.nextObject + 1 }.emit
        (Event.newComponent s.nextObject (qmlComponent env file s.nextObject).url)).emit
      (Event.connect Signal.componentDestroyed s.nextObject))
  refine ⟨t, ?_, rfl, ?_⟩
  · have hex := exec_ready env error (qmlComponent env file s.nextObject) request (some reply)
      message t created hst hc
    have hload : load env error file request reply message s
        = QmlHandler.exec env error (qmlComponent env file s.nextObject) (some request)
            (some reply) message t := by
      simp only [load, h1, MimeHandler.load, QmlHandler.load, hname, hup, hread,
        private_load_eq]
      rfl
    rw [hload, hex]
    rfl
  · show closeCount reply (State.emit _ _).log = _
    rw [closeCount_emit_other _ _ _ (by intro r h; cases h)]
    show closeCount reply (State.emit _ _).log = _
    rw [closeCount_emit_other _ _ _ (by intro r h; cases h)]
    show closeCount reply (State.emit _ _).log = _
    repeat rw [closeCount_emit_other _ _ _ (by intro r h; cases h)]

theorem load_closes_inline (env : Env) (error : ErrorFn) (file : String) (request : Request)
    (reply : Nat) (message : String) (s : State)
    (h : RunsInline env file request message s.nextObject) :
    closeCount reply (load env error file request reply message s).log
      = closeCount reply s.log + 1 := by
  obtain ⟨htaken, hread, hst, created, hc, hl⟩ := h
  obtain ⟨t, ht, _, hct⟩ := load_taken_ready env error file request reply message s created
    htaken hread hst hc
  rw [ht, hl]
  simp only [Bool.not_false, if_true]
  rw [close_present env _ _ request reply (readyState_request env _ request _ t)
    (readyState_reply env _ request _ t), readyState_closeCount, hct]

theorem load_defers (env : Env) (error : ErrorFn) (file : String) (request : Request)
    (reply : Nat) (message : String) (s : State)
    (h : RunsDeferred env file request message s.nextObject) :
    closeCount reply (load env error file request reply message s).log = closeCount reply s.log
    ∧ QMap.value (load env error file request reply message s).http2request (s.nextObject + 1)
        = some (some request)
    ∧ QMap.value (load env error file request reply message s).http2reply (s.nextObject + 1)
        = some (some reply) := by
  obtain ⟨htaken, hread, hst, created, hc, hl⟩ := h
  obtain ⟨t, ht, hn, hct⟩ := load_taken_ready env error file request reply message s created
    htaken hread hst hc
  rw [ht, hl]
  simp only [Bool.not_true, Bool.false_eq_true, if_false]
  refine ⟨?_, ?_, ?_⟩
  · rw [closeCount_emit_other _ _ _ (by intro r h; cases h), readyState_closeCount, hct]
  · rw [← hn]
    exact readyState_request env _ request (some reply) t
  · rw [← hn]
    exact readyState_reply env _ request (some reply) t

theorem load_starts_loading (env : Env) (error : ErrorFn) (file : String) (request : Request)
    (reply : Nat) (message : String) (s : State)
    (h : StartsLoading env file s.nextObject) :
    closeCount reply (load env error file request reply message s).log = closeCount reply s.log
    ∧ QMap.value (load env error file request reply message s).component2request s.nextObject
        = some (some request)
    ∧ QMap.value (load env error file request reply message s).component2reply s.nextObject
        = some (some reply)
    ∧ QMap.value (load env error file request reply message s).component2message s.nextObject
        = some message
    ∧ (load env error file request reply message s).nextObject = s.nextObject + 1 := by
  obtain ⟨⟨h1, c, rest, hname, hup⟩, hread, hst⟩ := h
  have hst2 : (QmlHandler.componentFor env (env.fileInfoOfUrl (handlerUrl env file))
      s.nextObject).status = ComponentStatus.Loading := hst
  have hload : load env error file request reply message s
      = QmlHandler.exec env error (qmlComponent env file s.nextObject) (some request)
          (some reply) message
          (({ (((((s.emit (Event.callLoad file reply message)).emit
            (Event.setStatus reply 200)).emit
            (Event.setRawHeader reply "Content-Type" (env.mimeTypeForFile (fileName file)))).emit
            (Event.mimeHandlerLoad (env.mimeTypeForFile (fileName file)) (handlerUrl env file)
              reply message)).emit
            (Event.fileIsReadable (env.fileInfoOfUrl (handlerUrl env file)))) with
            nextObject := s.nextObject + 1 }.emit
            (Event.newComponent s.nextObject (qmlComponent env file s.nextObject).url)).emit
          (Event.connect Signal.componentDestroyed s.nextObject)) := by
    simp only [load, h1, MimeHandler.load, QmlHandler.load, hname, hup, hread,
      private_load_eq]
    rfl
  rw [hload]
  simp only [QmlHandler.exec, hst]
  refine ⟨?_, QMap.value_insert_self _ _ _, QMap.value_insert_self _ _ _,
    QMap.value_insert_self _ _ _, rfl⟩
  show closeCount reply (State.emit _ _).log = _
  rw [closeCount_emit_other _ _ _ (by intro r h; cases h)]
  show closeCount reply (State.emit _ _).log = _
  rw [closeCount_emit_other _ _ _ (by intro r h; cases h)]
  show closeCount reply (State.emit _ _).log = _
  repeat rw [closeCount_emit_other _ _ _ (by intro r h; cases h)]

theorem error_closes_page (env : Env) (fuel : Nat) (st : Int) (request : Request) (reply : Nat)
    (message : String) (s : State) (h : PageServed env request st message s.nextObject) :
    closeCount reply (error env (fuel + 1) st request reply message s).log
      = closeCount reply s.log + 1 := by
  rcases h with ⟨hpass, hopen⟩ | hq
  · rw [error_static env fuel st request reply message s hpass hopen]
    simp only [closeCount_append,
      (staticEvents_observed env (selectedErrorDocument env request st) reply message).2.1]
    simp [closeCount, List.count_cons]
  · unfold selectedErrorDocument at hq
    unfold error
    dsimp only
    split
    · rename_i hex
      rw [if_pos hex] at hq
      rw [load_closes_inline env _ _ request reply message
        ((s.emit (Event.callError st reply message)).emit
          (Event.fileExists (errorDocument (documentRootForRequest env request) st))) hq]
      repeat rw [closeCount_emit_other _ _ _ (by intro r h; cases h)]
    · rename_i hex
      rw [if_neg hex] at hq
      rw [load_closes_inline env _ _ request reply message
        ((s.emit (Event.callError st reply message)).emit
          (Event.fileExists (errorDocument (documentRootForRequest env request) st))) hq]
      repeat rw [closeCount_emit_other _ _ _ (by intro r h; cases h)]

theorem error_succ_eq (env : Env) (fuel : Nat) (st : Int) (request : Request) (reply : Nat)
    (message : String) (s : State) :
    error env (fuel + 1) st request reply message s
      = load env (error env fuel) (selectedErrorDocument env request st) request reply message
          ((s.emit (Event.callError st reply message)).emit
            (Event.fileExists (errorDocument (documentRootForRequest env request) st))) := by
  unfold selectedErrorDocument
  conv_lhs => unfold error
  dsimp only
  split <;> rfl

theorem error_refused_loops (env : Env) (request : Request) (reply : Nat)
    (h403 : PageRefused env request 403 (env.urlToString request.url)) (fuel : Nat) :
    ∀ (st : Int) (message : String) (s : State), PageRefused env request st message →
      closeCount reply (error env fuel st request reply message s).log = closeCount reply s.log
      ∧ Event.outOfFuel ∈ (error env fuel st request reply message s).log := by
  induction fuel with
  | zero =>
    intro st message s _
    constructor
    · show closeCount reply (s.emit Event.outOfFuel).log = _
      rw [closeCount_emit_other _ _ _ (by intro r h; cases h)]
    · show Event.outOfFuel ∈ (s.emit Event.outOfFuel).log
      simp
  | succ n ih =>
    intro st message s href
    rw [error_succ_eq]
    obtain ⟨t, ht, hc, _⟩ := load_refused env (error env n) (selectedErrorDocument env request st)
      request reply message ((s.emit (Event.callError st reply message)).emit
        (Event.fileExists (errorDocument (documentRootForRequest env request) st)))
      ⟨href.1, Or.inr href.2⟩
    rw [ht]
    obtain ⟨h1, h2⟩ := ih 403 (env.urlToString request.url) t h403
    refine ⟨?_, h2⟩
    rw [h1, hc]
    repeat rw [closeCount_emit_other _ _ _ (by intro r h; cases h)]

theorem load_qml_unreadable (env : Env) (error : ErrorFn) (file : String) (request : Request)
    (reply : Nat) (message : String) (s : State)
    (htaken : TakenByQml env file)
    (hread : env.isReadable (env.fileInfoOfUrl (handlerUrl env file)) = false)
    (hconn : env.errorConnected = true) :
    ∃ t, load env error file request reply message s
        = error 403 request reply (env.urlToString request.url) t
      ∧ closeCount reply t.log = closeCount reply s.log ∧ t.nextObject = s.nextObject := by
  obtain ⟨h1, c, rest, hname, hup⟩ := htaken
  refine ⟨((((((s.emit (Event.callLoad file reply message)).emit (Event.setStatus reply 200)).emit
      (Event.setRawHeader reply "Content-Type" (env.mimeTypeForFile (fileName file)))).emit
      (Event.mimeHandlerLoad (env.mimeTypeForFile (fileName file)) (handlerUrl env file) reply
        message)).emit (Event.fileIsReadable (env.fileInfoOfUrl (handlerUrl env file)))).emit
      (Event.emitError 403 (some reply) (env.urlToString request.url))), ?_, ?_, rfl⟩
  · simp only [load, h1, MimeHandler.load, QmlHandler.load, hname, hup, hread,
      QmlHandler.emitError, hconn, Bool.false_eq_true, if_false, Bool.not_false, Bool.not_true,
      if_true]
  · repeat rw [closeCount_emit_other _ _ _ (by intro r h; cases h)]

theorem load_qml_component_error (env : Env) (error : ErrorFn) (file : String)
    (request : Request) (reply : Nat) (message : String) (s : State)
    (htaken : TakenByQml env file)
    (hread : env.isReadable (env.fileInfoOfUrl (handlerUrl env file)) = true)
    (hst : (qmlComponent env file s.nextObject).status = ComponentStatus.Error)
    (hconn : env.errorConnected = true) :
    ∃ t, load env error file request reply message s
        = error 500 request reply (qmlComponent env file s.nextObject).errorString t
      ∧ closeCount reply t.log = closeCount reply s.log ∧ t.nextObject = s.nextObject + 1 := by
  obtain ⟨h1, c, rest, hname, hup⟩ := htaken
  have hst2 : (QmlHandler.componentFor env (env.fileInfoOfUrl (handlerUrl env file))
      s.nextObject).status = ComponentStatus.Error := hst
  refine ⟨((({ (((((s.emit (Event.callLoad file reply message)).emit
      (Event.setStatus reply 200)).emit
      (Event.setRawHeader reply "Content-Type" (env.mimeTypeForFile (fileName file)))).emit
      (Event.mimeHandlerLoad (env.mimeTypeForFile (fileName file)) (handlerUrl env file)
        reply message)).emit
      (Event.fileIsReadable (env.fileInfoOfUrl (handlerUrl env file)))) with
      nextObject := s.nextObject + 1 }.emit
      (Event.newComponent s.nextObject (qmlComponent env file s.nextObject).url)).emit
      (Event.connect Signal.componentDestroyed s.nextObject)).emit
      (Event.emitError 500 (some reply) (qmlComponent env file s.nextObject).errorString)),
    ?_, ?_, rfl⟩
  · simp only [load, h1, MimeHandler.load, QmlHandler.load, hname, hup, hread,
      private_load_eq, QmlHandler.exec, QmlHandler.emitError, hconn, Bool.false_eq_true,
      if_false, Bool.not_false, Bool.not_true, if_true]
    rw [show (QmlHandler.componentFor env (env.fileInfoOfUrl (handlerUrl env file))
      (((((s.emit (Event.callLoad file reply message)).emit (Event.setStatus reply 200)).emit
        (Event.setRawHeader reply "Content-Type" (env.mimeTypeForFile (fileName file)))).emit
        (Event.mimeHandlerLoad (env.mimeTypeForFile (fileName file)) (handlerUrl env file)
          reply message)).emit
        (Event.fileIsReadable (env.fileInfoOfUrl (handlerUrl env file)))).nextObject).status
        = ComponentStatus.Error from hst2]
    rfl
  · show closeCount reply (State.emit _ _).log = _
    rw [closeCount_emit_other _ _ _ (by intro r h; cases h)]
    show closeCount reply (State.emit _ _).log = _
    rw [closeCount_emit_other _ _ _ (by intro r h; cases h)]
    show closeCount reply (State.emit _ _).log = _
    rw [closeCount_emit_other _ _ _ (by intro r h; cases h)]
    show closeCount reply (State.emit _ _).log = _
    repeat rw [closeCount_emit_other _ _ _ (by intro r h; cases h)]

theorem loadingChanged_resumes (env : Env) (http : HttpObject) (rq : Request) (reply : Nat)
    (t : State) (ha : AtMostOnce t)
    (h1 : QMap.value t.http2request http.id = some (some rq))
    (h2 : QMap.value t.http2reply http.id = some (some reply)) :
    closeCount reply (QmlHandler.loadingChanged env http false t).log = 1 := by
  have hp := pendingCount_pos_http reply http.id t h2
  have hle := ha reply
  simp only [QmlHandler.loadingChanged, Bool.not_false, if_true]
  rw [close_present env http t rq reply h1 h2]
  omega

theorem statusChanged_resumes (env : Env) (fuel : Nat) (component : Component) (rq : Request)
    (reply : Nat) (t : State) (ha : AtMostOnce t)
    (h1 : QMap.value t.component2request component.id = some (some rq))
    (h2 : QMap.value t.component2reply component.id = some (some reply)) :
    component.status = ComponentStatus.Null
    ∨ ∃ es, (QmlHandler.statusChanged env (error env fuel) component t).log = t.log ++ es
      ∧ ((closeCount reply (QmlHandler.statusChanged env (error env fuel) component t).log = 1
          ∧ pendingCount reply (QmlHandler.statusChanged env (error env fuel) component t) = 0)
        ∨ (closeCount reply (QmlHandler.statusChanged env (error env fuel) component t).log = 0
          ∧ pendingCount reply (QmlHandler.statusChanged env (error env fuel) component t) = 1
          ∧ Awaited rq reply es (QmlHandler.statusChanged env (error env fuel) component t))
        ∨ Handed env rq reply es) := by
  by_cases hn : component.status = ComponentStatus.Null
  · exact Or.inl hn
  · right
    have hau := statusChanged_atMostOnce env (error env fuel) (error_ok env fuel) component t ha
    have hl : Lands env rq reply t.log (QmlHandler.statusChanged env (error env fuel) component t) := by
      unfold QmlHandler.statusChanged
      simp only [QMap.pointer, h1, h2, Option.getD_some]
      exact exec_lands env (error env fuel) rq reply t.log
        (error_lands env rq reply t.log fuel) component _ _ [] (by simp)
        (fun h => absurd h hn)
    exact hl.counts hau

/-- C1, amended: started on a reply that is neither closed nor held, the
pipeline never calls close on it twice, whatever notifications arrive later.
Every run lands: close was called exactly once, or exactly one correlation
entry holds the reply for the slot that was connected, or the run ended in one
of the events of `Handed`.  A held reply is closed exactly once by
loadingChanged(false); statusChanged on a held component lands again unless
the component reports Null.  With one unit of fuel for the error call, close
is called exactly once on: a static file; a static refusal, a missing file, a
directory without slash, a refused remote request, an unreadable component and
a component in error (the last two with the error signal connected), each when
the error document selected is served; a component drained inline.  A deferred
component and a compiling one are at zero until their notification and at one
after it.  An accepted remote request stays at zero in the router.  When the
error documents selected for the status and for 403 go to loadFile and cannot
be opened, error never calls close and runs out of any fuel. -/
theorem reply_closed_exactly_once (env : Env) (fuel : Nat) (request : Request) (reply : Nat)
    (s : State) (hs : Free reply s) :
    (∀ fuel2 ns,
      closeCount reply
        (deliverAll env fuel2 ns (incomingConnection env fuel request reply s)).log ≤ 1)
    ∧ (∃ es, (incomingConnection env fuel request reply s).log = s.log ++ es
        ∧ ((closeCount reply (incomingConnection env fuel request reply s).log = 1
            ∧ pendingCount reply (incomingConnection env fuel request reply s) = 0)
          ∨ (closeCount reply (incomingConnection env fuel request reply s).log = 0
            ∧ pendingCount reply (incomingConnection env fuel request reply s) = 1
            ∧ Awaited request reply es (incomingConnection env fuel request reply s))
          ∨ Handed env request reply es))
    ∧ (∀ (t : State) (http : HttpObject) (fuel2 : Nat), AtMostOnce t →
        QMap.value t.http2request http.id = some (some request) →
        QMap.value t.http2reply http.id = some (some reply) →
        closeCount reply (deliver env fuel2 (Notification.loadingChanged http false) t).log = 1)
    ∧ (∀ (t : State) (component : Component) (fuel2 : Nat), AtMostOnce t →
        QMap.value t.component2request component.id = some (some request) →
        QMap.value t.component2reply component.id = some (some reply) →
        component.status = ComponentStatus.Null
        ∨ ∃ es, (deliver env fuel2 (Notification.statusChanged component) t).log = t.log ++ es
          ∧ ((closeCount reply (deliver env fuel2 (Notification.statusChanged component) t).log
                = 1
              ∧ pendingCount reply (deliver env fuel2 (Notification.statusChanged component) t)
                = 0)
            ∨ (closeCount reply (deliver env fuel2 (Notification.statusChanged component) t).log
                = 0
              ∧ pendingCount reply (deliver env fuel2 (Notification.statusChanged component) t)
                = 1
              ∧ Awaited request reply es
                  (deliver env fuel2 (Notification.statusChanged component) t))
            ∨ Handed env request reply es))
    ∧ (LocalFile env request →
        passedToLoadFile env (candidateFile env request) request "" = true →
        startsWith (fileName (candidateFile env request)) "." = false →
        env.canOpen (env.absoluteFilePath (candidateFile env request)) = true →
        closeCount reply (incomingConnection env fuel request reply s).log = 1)
    ∧ (LocalFile env request → RefusedByLoadFile env (candidateFile env request) request "" →
        PageServed env request 403 (env.urlToString request.url) s.nextObject →
        closeCount reply (incomingConnection env (fuel + 1) request reply s).log = 1)
    ∧ (¬ indexOf (documentRootForRequest env request) "://" > 0 →
        (env.isDir (documentRootForRequest env request ++ request.url.path) = true →
          endsWith request.url.path "/" = true) →
        env.fileExists (candidateFile env request) = false →
        PageServed env request 404 (env.urlToString request.url) s.nextObject →
        closeCount reply (incomingConnection env (fuel + 1) request reply s).log = 1)
    ∧ (¬ indexOf (documentRootForRequest env request) "://" > 0 →
        env.isDir (documentRootForRequest env request ++ request.url.path) = true →
        endsWith request.url.path "/" = false →
        PageServed env request 301
          (env.urlToString (request.url.setPath (request.url.path ++ "/"))) s.nextObject →
        closeCount reply (incomingConnection env (fuel + 1) request reply s).log = 1)
    ∧ (indexOf (documentRootForRequest env request) "://" > 0 →
        (∀ handler,
          QMap.value env.protocolHandlers
            (env.parseUrl (documentRootForRequest env request)).scheme = some handler →
          handler.handled
              ((env.parseUrl (documentRootForRequest env request)).setPath request.url.path)
              request "" = false) →
        PageServed env request 403 (env.urlToString request.url) s.nextObject →
        closeCount reply (incomingConnection env (fuel + 1) request reply s).log = 1)
    ∧ (indexOf (documentRootForRequest env request) "://" > 0 →
        (∃ handler,
          QMap.value env.protocolHandlers
            (env.parseUrl (documentRootForRequest env request)).scheme = some handler
          ∧ handler.handled
              ((env.parseUrl (documentRootForRequest env request)).setPath request.url.path)
              request "" = true) →
        closeCount reply (incomingConnection env fuel request reply s).log = 0)
    ∧ (LocalFile env request →
        RunsInline env (candidateFile env request) request "" s.nextObject →
        closeCount reply (incomingConnection env fuel request reply s).log = 1)
    ∧ (LocalFile env request →
        RunsDeferred env (candidateFile env request) request "" s.nextObject →
        closeCount reply (incomingConnection env fuel request reply s).log = 0
        ∧ ∀ (http : HttpObject) (fuel2 : Nat), http.id = s.nextObject + 1 →
            closeCount reply
              (deliver env fuel2 (Notification.loadingChanged http false)
                (incomingConnection env fuel request reply s)).log = 1)
    ∧ (LocalFile env request →
        StartsLoading env (candidateFile env request) s.nextObject →
        closeCount reply (incomingConnection env fuel request reply s).log = 0
        ∧ ∀ (component : Component) (created : HttpObject) (fuel2 : Nat),
            component.id = s.nextObject →
            component.status = ComponentStatus.Ready →
            env.instantiate component = some created →
            (env.ready (QmlHandler.populate { created with id := s.nextObject + 1 } request
              "")).loading = false →
            closeCount reply
              (deliver env fuel2 (Notification.statusChanged component)
                (incomingConnection env fuel request reply s)).log = 1)
    ∧ (LocalFile env request → TakenByQml env (candidateFile env request) →
        env.isReadable (env.fileInfoOfUrl (handlerUrl env (candidateFile env request))) = false →
        env.errorConnected = true →
        PageServed env request 403 (env.urlToString request.url) s.nextObject →
        closeCount reply (incomingConnection env (fuel + 1) request reply s).log = 1)
    ∧ (LocalFile env request → TakenByQml env (candidateFile env request) →
        env.isReadable (env.fileInfoOfUrl (handlerUrl env (candidateFile env request))) = true →
        (qmlComponent env (candidateFile env request) s.nextObject).status
          = ComponentStatus.Error →
        env.errorConnected = true →
        PageServed env request 500
          (qmlComponent env (candidateFile env request) s.nextObject).errorString
          (s.nextObject + 1) →
        closeCount reply (incomingConnection env (fuel + 1) request reply s).log = 1)
    ∧ (PageRefused env request 403 (env.urlToString request.url) →
        ∀ (st : Int) (message : String) (fuel2 : Nat) (u : State),
          PageRefused env request st message →
          closeCount reply (error env fuel2 st request reply message u).log
            = closeCount reply u.log
          ∧ Event.outOfFuel ∈ (error env fuel2 st request reply message u).log) := by
  have h0 : closeCount reply s.log = 0 := hs.2.1
  have hloc : ∀ fuel, LocalFile env request →
      ∃ t, incomingConnection env fuel request reply s
          = load env (error env fuel) (candidateFile env request) request reply "" t
        ∧ closeCount reply t.log = 0 ∧ t.nextObject = s.nextObject := by
    intro fuel hl
    obtain ⟨l1, l2, l3⟩ := hl
    refine ⟨(s.emit (Event.fileIsDir (documentRootForRequest env request ++ request.url.path))).emit
      (Event.fileExists (candidateFile env request)), ?_, ?_, rfl⟩
    · rw [incomingConnection_local env fuel request reply s l1 l2, if_pos l3]
    · rw [closeCount_emit_other _ _ _ (by intro r h; cases h),
        closeCount_emit_other _ _ _ (by intro r h; cases h), h0]
  refine ⟨?_, ?_, ?_, ?_, ?_, ?_, ?_, ?_, ?_, ?_, ?_, ?_, ?_, ?_, ?_, ?_⟩
  · intro fuel2 ns
    exact never_closed_twice env fuel fuel2 request reply s hs ns
  · exact (incomingConnection_lands env fuel request reply s).counts
      (incomingConnection_atMostOnce env fuel request reply s hs)
  · intro t http fuel2 ha h1 h2
    exact loadingChanged_resumes env http request reply t ha h1 h2
  · intro t component fuel2 ha h1 h2
    exact statusChanged_resumes env fuel2 component request reply t ha h1 h2
  · intro hl hpass hdot hopen
    obtain ⟨t, ht, hc, _⟩ := hloc fuel hl
    rw [ht, load_closes_static env _ _ request reply "" t hpass hdot hopen, hc]
  · intro hl href hpage
    obtain ⟨t, ht, hc, hn⟩ := hloc (fuel + 1) hl
    obtain ⟨u, hu, hcu, hnu⟩ := load_refused env (error env (fuel + 1))
      (candidateFile env request) request reply "" t href
    rw [ht, hu, error_closes_page env fuel 403 request reply _ u (by rw [hnu, hn]; exact hpage),
      hcu, hc]
  · intro hlocal hslash hex hpage
    rw [incomingConnection_local env (fuel + 1) request reply s hlocal hslash, hex]
    simp only [Bool.false_eq_true, if_false]
    rw [error_closes_page env fuel 404 request reply _
      ((s.emit (Event.fileIsDir (documentRootForRequest env request ++ request.url.path))).emit
        (Event.fileExists (candidateFile env request))) hpage]
    rw [closeCount_emit_other _ _ _ (by intro r h; cases h),
      closeCount_emit_other _ _ _ (by intro r h; cases h), h0]
  · intro hlocal hdir hslash hpage
    have h1 : incomingConnection env (fuel + 1) request reply s
        = error env (fuel + 1) 301 request reply
            (env.urlToString (request.url.setPath (request.url.path ++ "/")))
            (s.emit (Event.fileIsDir (documentRootForRequest env request ++ request.url.path))) := by
      simp only [incomingConnection, if_neg hlocal, hdir, hslash, if_true]
      simp
    rw [h1, error_closes_page env fuel 301 request reply _
        (s.emit (Event.fileIsDir (documentRootForRequest env request ++ request.url.path))) hpage,
      closeCount_emit_other _ _ _ (by intro r h; cases h), h0]
  · intro hremote hdecl hpage
    have h1 : ∃ u, incomingConnection env (fuel + 1) request reply s
        = error env (fuel + 1) 403 request reply (env.urlToString request.url) u
        ∧ closeCount reply u.log = 0 ∧ u.nextObject = s.nextObject := by
      simp only [incomingConnection, if_pos hremote, loadUrl, Url.setPath] at hdecl ⊢
      cases hv : QMap.value env.protocolHandlers
          (env.parseUrl (documentRootForRequest env request)).scheme with
      | none =>
        exact ⟨_, rfl, by rw [closeCount_emit_other _ _ _ (by intro r h; cases h), h0], rfl⟩
      | some handler =>
        have hd := hdecl handler hv
        simp only [hd, Bool.not_false, if_true]
        exact ⟨_, rfl, by
          rw [closeCount_emit_other _ _ _ (by intro r h; cases h),
            closeCount_emit_other _ _ _ (by intro r h; cases h), h0], rfl⟩
    obtain ⟨u, hu, hcu, hnu⟩ := h1
    rw [hu, error_closes_page env fuel 403 request reply _ u (by rw [hnu]; exact hpage), hcu]
  · intro hremote hh
    obtain ⟨handler, hv, hhandled⟩ := hh
    simp only [incomingConnection, if_pos hremote, loadUrl, Url.setPath] at hv hhandled ⊢
    simp only [hv, hhandled, Bool.not_true, Bool.false_eq_true, if_false]
    rw [closeCount_emit_other _ _ _ (by intro r h; cases h),
      closeCount_emit_other _ _ _ (by intro r h; cases h), h0]
  · intro hl hq
    obtain ⟨t, ht, hc, hn⟩ := hloc fuel hl
    rw [ht, load_closes_inline env _ _ request reply "" t (by rw [hn]; exact hq), hc]
  · intro hl hq
    obtain ⟨t, ht, hc, hn⟩ := hloc fuel hl
    obtain ⟨hd1, hd2, hd3⟩ := load_defers env (error env fuel) (candidateFile env request)
      request reply "" t (by rw [hn]; exact hq)
    refine ⟨by rw [ht, hd1, hc], ?_⟩
    intro http fuel2 hid
    have ha := incomingConnection_atMostOnce env fuel request reply s hs
    rw [ht] at ha ⊢
    exact loadingChanged_resumes env http request reply _ ha
      (by rw [hid, ← hn]; exact hd2) (by rw [hid, ← hn]; exact hd3)
  · intro hl hq
    obtain ⟨t, ht, hc, hn⟩ := hloc fuel hl
    obtain ⟨hd1, hd2, hd3, hd4, hd5⟩ := load_starts_loading env (error env fuel)
      (candidateFile env request) request reply "" t (by rw [hn]; exact hq)
    refine ⟨by rw [ht, hd1, hc], ?_⟩
    intro component created fuel2 hid hst hinst hloading
    rw [ht]
    simp only [deliver, QmlHandler.statusChanged, QMap.pointer]
    rw [hid, ← hn, hd2, hd3, hd4]
    simp only [Option.getD_some]
    rw [exec_ready env _ component request (some reply) "" _ created hst hinst]
    have hl2 : (QmlHandler.readyObject env created request ""
        { load env (error env fuel) (candidateFile env request) request reply "" t with
          component2request := QMap.remove (load env (error env fuel) (candidateFile env request)
            request reply "" t).component2request t.nextObject,
          component2reply := QMap.remove (load env (error env fuel) (candidateFile env request)
            request reply "" t).component2reply t.nextObject,
          component2message := QMap.remove (load env (error env fuel) (candidateFile env request)
            request reply "" t).component2message t.nextObject }).loading = false := by
      simp only [QmlHandler.readyObject, hd5, hn]
      exact hloading
    rw [hl2]
    simp only [Bool.not_false, if_true]
    rw [close_present env _ _ request reply (readyState_request env component request _ _)
      (readyState_reply env component request _ _), readyState_closeCount]
    show closeCount reply (load env (error env fuel) (candidateFile env request) request reply ""
      t).log + 1 = 1
    rw [hd1, hc]
  · intro hl htaken hread hconn hpage
    obtain ⟨t, ht, hc, hn⟩ := hloc (fuel + 1) hl
    obtain ⟨u, hu, hcu, hnu⟩ := load_qml_unreadable env (error env (fuel + 1))
      (candidateFile env request) request reply "" t htaken hread hconn
    rw [ht, hu, error_closes_page env fuel 403 request reply _ u (by rw [hnu, hn]; exact hpage),
      hcu, hc]
  · intro hl htaken hread hst hconn hpage
    obtain ⟨t, ht, hc, hn⟩ := hloc (fuel + 1) hl
    obtain ⟨u, hu, hcu, hnu⟩ := load_qml_component_error env (error env (fuel + 1))
      (candidateFile env request) request reply "" t htaken hread (by rw [hn]; exact hst) hconn
    rw [ht, hu, hn, error_closes_page env fuel 500 request reply _ u
      (by rw [hnu, hn]; exact hpage), hcu, hc]
  · intro h403 st message fuel2 u href
    exact error_refused_loops env request reply h403 fuel2 st message u href


theorem reply_closed_exactly_once_witness :
    closeCount 0
        (incomingConnection Example.staticEnv 1 (Example.get "/missing.txt") 0 State.initial).log
      = 1
    ∧ closeCount 0
        (incomingConnection Example.qmlEnv 1 (Example.get "/missing.txt") 0 State.initial).log
      = 1
    ∧ closeCount 0
        (incomingConnection Example.staticEnv 1 (Example.get "/blog") 0 State.initial).log = 1
    ∧ closeCount 0
        (incomingConnection Example.qmlEnv 1 (Example.get "/page.qml") 0 State.initial).log = 1
    ∧ closeCount 0
        (deliver Example.loadingEnv 1
          (Notification.statusChanged (Example.pageComponent ComponentStatus.Ready ""))
          (incomingConnection Example.loadingEnv 1 (Example.get "/page.qml") 0
            State.initial)).log = 1
    ∧ closeCount 0
        (incomingConnection Example.staticEnv 1 (Example.get "/.htaccess") 0 State.initial).log
      = 1
    ∧ closeCount 0
        (incomingConnection Example.staticEnv 1 (Example.getRemote "/key") 0 State.initial).log
      = 1
    ∧ closeCount 0
        (deliver Example.deferredEnv 1
          (Notification.loadingChanged { Example.blankHttp with id := 1 } false)
          (incomingConnection Example.deferredEnv 1 (Example.get "/page.qml") 0
            State.initial)).log = 1
    ∧ closeCount 0
        (incomingConnection (Example.signalEnv false) 1 (Example.get "/page.qml") 0
          State.initial).log = 1
    ∧ closeCount 0
        (incomingConnection (Example.signalEnv true) 1 (Example.get "/page.qml") 0
          State.initial).log = 1 :=
  ⟨(reply_closed_exactly_once Example.staticEnv 0 (Example.get "/missing.txt") 0 State.initial
      (free_initial 0)).2.2.2.2.2.2.1 (by decide) (by decide) (by decide)
      (Or.inl ⟨rfl, rfl⟩),
   (reply_closed_exactly_once Example.qmlEnv 0 (Example.get "/missing.txt") 0 State.initial
      (free_initial 0)).2.2.2.2.2.2.1 (by decide) (by decide) (by decide)
      (Or.inr ⟨⟨rfl, '4', "04.qml".data, by decide, by decide⟩, by decide, rfl,
        Example.blankHttp, rfl, rfl⟩),
   (reply_closed_exactly_once Example.staticEnv 0 (Example.get "/blog") 0 State.initial
      (free_initial 0)).2.2.2.2.2.2.2.1 (by decide) (by decide) (by decide)
      (Or.inl ⟨rfl, rfl⟩),
   (reply_closed_exactly_once Example.qmlEnv 1 (Example.get "/page.qml") 0 State.initial
      (free_initial 0)).2.2.2.2.2.2.2.2.2.2.1 ⟨by decide, by decide, by decide⟩
      ⟨⟨rfl, 'p', "age.qml".data, by decide, by decide⟩, by decide, rfl,
        Example.blankHttp, rfl, rfl⟩,
   ((reply_closed_exactly_once Example.loadingEnv 1 (Example.get "/page.qml") 0 State.initial
      (free_initial 0)).2.2.2.2.2.2.2.2.2.2.2.2.1 ⟨by decide, by decide, by decide⟩
      ⟨⟨rfl, 'p', "age.qml".data, by decide, by decide⟩, by decide, rfl⟩).2
      (Example.pageComponent ComponentStatus.Ready "") Example.blankHttp 1 rfl rfl rfl rfl,
   (reply_closed_exactly_once Example.staticEnv 0 (Example.get "/.htaccess") 0 State.initial
      (free_initial 0)).2.2.2.2.2.1 ⟨by decide, by decide, by decide⟩
      ⟨rfl, Or.inl (by decide)⟩ (Or.inl ⟨rfl, rfl⟩),
   (reply_closed_exactly_once Example.staticEnv 0 (Example.getRemote "/key") 0 State.initial
      (free_initial 0)).2.2.2.2.2.2.2.2.1 (by decide) (fun _ h => nomatch h)
      (Or.inl ⟨rfl, rfl⟩),
   ((reply_closed_exactly_once Example.deferredEnv 1 (Example.get "/page.qml") 0 State.initial
      (free_initial 0)).2.2.2.2.2.2.2.2.2.2.2.1 ⟨by decide, by decide, by decide⟩
      ⟨⟨rfl, 'p', "age.qml".data, by decide, by decide⟩, by decide, rfl,
        Example.blankHttp, rfl, rfl⟩).2 { Example.blankHttp with id := 1 } 1 rfl,
   (reply_closed_exactly_once (Example.signalEnv false) 0 (Example.get "/page.qml") 0 State.initial
      (free_initial 0)).2.2.2.2.2.2.2.2.2.2.2.2.2.1 ⟨by decide, by decide, by decide⟩
      ⟨rfl, 'p', "age.qml".data, by decide, by decide⟩ (by decide) rfl
      (Or.inl ⟨rfl, rfl⟩),
   (reply_closed_exactly_once (Example.signalEnv true) 0 (Example.get "/page.qml") 0 State.initial
      (free_initial 0)).2.2.2.2.2.2.2.2.2.2.2.2.2.2.1 ⟨by decide, by decide, by decide⟩
      ⟨rfl, 'p', "age.qml".data, by decide, by decide⟩ (by decide) rfl rfl
      (Or.inl ⟨rfl, rfl⟩)⟩

end Silk
